import Mathlib

/-!
# Track refit orchestration of `PHGenFitTrkFitter`

A shallow embedding of `offline/packages/trackreco/PHGenFitTrkFitter.cc`.

Numbers: every `float`/`double` of the source is a value of a linearly ordered
field `α` (exact arithmetic, no rounding).  The libm calls are the fields of
`FloatOps`; a value that the source initialises with `NAN` has type `FloatVal α`.
External collaborators (cluster store, geometry, the GenFit engine) are the
fields of `Env`; the member variables of the module are the fields of `Config`.
-/

namespace PHGenFitTrkFitter

/-! ## Numbers and vectors -/

/-- The libm primitives called by the source (`std::sqrt`, `TMath::ATan2`, `cos`, `sin`). -/
structure FloatOps (α : Type) where
  sqrt : α → α
  atan2 : α → α → α
  cos : α → α
  sin : α → α

/-- A floating-point variable that may hold `NAN`. -/
inductive FloatVal (α : Type) where
  | nan : FloatVal α
  | num (a : α) : FloatVal α
deriving DecidableEq, Repr

/-- The square root of a float: `NAN` below zero. -/
def FloatVal.sqrt {α : Type} [LinearOrderedField α] (F : FloatOps α) (a : α) : FloatVal α :=
  if a < 0 then FloatVal.nan else FloatVal.num (F.sqrt a)

/-- The comparison `a > b` of floats: false as soon as `a` is `NAN`. -/
def FloatVal.gt {α : Type} [LinearOrderedField α] (a : FloatVal α) (b : α) : Bool :=
  match a with
  | FloatVal.nan => false
  | FloatVal.num x => decide (b < x)

/-- The helper `square` of the anonymous namespace. -/
def square {α : Type} [LinearOrderedField α] (x : α) : α := x * x

/-- The helper `get_r` of the anonymous namespace: `std::sqrt(square(x) + square(y))`. -/
def get_r {α : Type} [LinearOrderedField α] (F : FloatOps α) (x y : α) : α :=
  F.sqrt (square x + square y)

/-- ROOT `TVector3`. -/
structure TVector3 (α : Type) where
  x : α
  y : α
  z : α
deriving DecidableEq, Repr

namespace TVector3

variable {α : Type} [LinearOrderedField α]

/-- `TVector3::Cross`. -/
def Cross (a p : TVector3 α) : TVector3 α :=
  ⟨a.y * p.z - p.y * a.z, a.z * p.x - p.z * a.x, a.x * p.y - p.x * a.y⟩

/-- `TVector3::Mag2`. -/
def Mag2 (a : TVector3 α) : α := a.x * a.x + a.y * a.y + a.z * a.z

/-- `TVector3::Mag`. -/
def Mag (F : FloatOps α) (a : TVector3 α) : α := F.sqrt a.Mag2

/-- `TVector3::Perp2`. -/
def Perp2 (a : TVector3 α) : α := a.x * a.x + a.y * a.y

/-- `TVector3::Perp`. -/
def Perp (F : FloatOps α) (a : TVector3 α) : α := F.sqrt a.Perp2

/-- `TVector3::Phi`. -/
def Phi (F : FloatOps α) (a : TVector3 α) : α :=
  if a.x = 0 ∧ a.y = 0 then 0 else F.atan2 a.y a.x

/-- `TVector3::Theta`. -/
def Theta (F : FloatOps α) (a : TVector3 α) : α :=
  if a.x = 0 ∧ a.y = 0 ∧ a.z = 0 then 0 else F.atan2 (a.Perp F) a.z

/-- `TVector3::SetPhi`. -/
def SetPhi (F : FloatOps α) (a : TVector3 α) (ph : α) : TVector3 α :=
  let xy := a.Perp F
  ⟨xy * F.cos ph, xy * F.sin ph, a.z⟩

/-- `TVector3::SetTheta`. -/
def SetTheta (F : FloatOps α) (a : TVector3 α) (th : α) : TVector3 α :=
  let ma := a.Mag F
  let ph := a.Phi F
  ⟨ma * F.sin th * F.cos ph, ma * F.sin th * F.sin ph, ma * F.cos th⟩

end TVector3

/-! ## `std::map` as a key-sorted association list -/

/-- `std::map::emplace` / `insert`: the entry is added at its place in key order,
unless the key is already present, in which case the map is left as it is. -/
def emplace {κ ν : Type} [LinearOrder κ] (k : κ) (v : ν) : List (κ × ν) → List (κ × ν)
  | [] => [(k, v)]
  | e :: rest =>
    if k < e.1 then (k, v) :: e :: rest
    else if e.1 < k then e :: emplace k v rest
    else e :: rest

/-! ## Data model -/

/-- `TrkrDefs::cluskey`. -/
abbrev cluskey := Nat

/-- `TrkrDefs::hitsetkey`. -/
abbrev hitsetkey := Nat

/-- An ACTS surface handle. -/
abbrev Surface := Nat

/-- `TrkrDefs::TrkrId`. -/
inductive TrkrId where
  | mvtxId
  | inttId
  | tpcId
  | micromegasId
deriving DecidableEq, Repr

/-- What the fitter reads of a `TrkrCluster`. -/
structure TrkrCluster (α : Type) where
  rphi_error : α
  z_error : α
deriving DecidableEq, Repr

/-- What the fitter reads of a `TrackSeed`; `xyz` is `TrackSeedHelper::get_xyz`. -/
structure TrackSeed (α : Type) where
  cluster_keys : List cluskey
  crossing : Int
  qOverR : α
  px : α
  py : α
  pz : α
  xyz : TVector3 α
deriving DecidableEq, Repr

/-- `SvtxTrackState_v2`; the placeholder state carries no cluster key. -/
structure SvtxTrackState (α : Type) where
  pathlength : α
  x : α
  y : α
  z : α
  px : α
  py : α
  pz : α
  error : Nat → Nat → α
  cluskey : Option cluskey

/-- `SvtxTrackState_v2 out(pathlength)`: a state with nothing but its path length. -/
def SvtxTrackState.new {α : Type} [LinearOrderedField α] (pathlength : α) : SvtxTrackState α :=
  { pathlength := pathlength, x := 0, y := 0, z := 0, px := 0, py := 0, pz := 0,
    error := fun _ _ => 0, cluskey := none }

/-- `SvtxTrack_v4`.  `states` lists the arguments of the `insert_state` calls since the
last `clear_states`, oldest first. -/
structure SvtxTrack (α : Type) where
  id : Nat
  silicon_seed : Option (TrackSeed α)
  tpc_seed : Option (TrackSeed α)
  crossing : Int
  charge : Int
  x : α
  y : α
  z : α
  px : α
  py : α
  pz : α
  chisq : α
  ndf : α
  error : Nat → Nat → α
  dca : FloatVal α
  dca_error : FloatVal α
  dca2d : FloatVal α
  dca2d_error : FloatVal α
  dca3d_xy : FloatVal α
  dca3d_z : FloatVal α
  dca3d_xy_error : FloatVal α
  dca3d_z_error : FloatVal α
  states : List (SvtxTrackState α)

/-- The two shapes of `PHGenFit::PlanarMeasurement` the fitter constructs. -/
inductive PlaneBasis (α : Type) where
  | uv (u v : TVector3 α) : PlaneBasis α
  | normal (n : TVector3 α) : PlaneBasis α
deriving DecidableEq, Repr

/-- `PHGenFit::PlanarMeasurement` with its cluster key. -/
structure Measurement (α : Type) where
  pos : TVector3 α
  basis : PlaneBasis α
  rphi_error : α
  z_error : α
  cluster_key : cluskey
deriving DecidableEq, Repr

/-- `PHGenFit::Track` as `ReFitTrack` builds it, before the engine has processed it;
`seed_cov` holds the rows of the seed covariance. -/
structure PHGenFitTrack (α : Type) where
  pid : Int
  seed_pos : TVector3 α
  seed_mom : TVector3 α
  seed_cov : List (List α)
  measurements : List (Measurement α)
  cluster_keys : List cluskey
deriving DecidableEq, Repr

/-- `genfit::MeasuredStateOnPlane`: the local state and covariance (`getState`, `getCov`),
the global position and momentum (`getPos`, `getMom`; together `get6DStateCov`'s state),
the 6x6 covariance (`get6DCov`) and the plane it lives on. -/
structure MeasuredStateOnPlane (α : Type) where
  state : Nat → α
  cov : Nat → Nat → α
  pos : TVector3 α
  mom : TVector3 α
  cov6 : Nat → Nat → α
  plane : Nat

/-- `genfit::KalmanFitterInfo`: `getFittedState(true)` returns the smoothed state or
throws; the source dereferences the forward and backward updates unchecked. -/
structure KalmanFitterInfo (α : Type) where
  getFittedState : Except Unit (MeasuredStateOnPlane α)
  getForwardUpdate : MeasuredStateOnPlane α
  getBackwardUpdate : MeasuredStateOnPlane α

/-- `genfit::TrackPoint`: `getFitterInfo(rep)` may be null. -/
structure TrackPoint (α : Type) where
  getFitterInfo : Option (KalmanFitterInfo α)

/-- What the engine exposes of a processed track (`PHGenFit::Track` and its
`genfit::Track`).  An extrapolation returns a state, returns null, or throws. -/
structure GenFitTrack (α : Type) where
  chi2 : α
  ndf : α
  charge : Int
  extrapolateToLine : TVector3 α → TVector3 α → Except Unit (Option (MeasuredStateOnPlane α))
  extrapolateToPoint : TVector3 α → Except Unit (Option (MeasuredStateOnPlane α))
  getNumPointsWithMeasurement : Nat
  getPointWithMeasurementAndFitterInfo : Nat → Option (TrackPoint α)
  extrapolateToPointFrom : TVector3 α → Nat → α

/-- The `std::shared_ptr<PHGenFit::Track>` that `ReFitTrack` returns: the track as it was
built, and what the engine made of it. -/
structure FittedTrack (α : Type) where
  phgf : PHGenFitTrack α
  gf : GenFitTrack α

/-- `FittedTrack::get_cluster_keys`. -/
def FittedTrack.get_cluster_keys {α : Type} (t : FittedTrack α) : List cluskey :=
  t.phgf.cluster_keys

/-- The member variables of `PHGenFitTrkFitter` read by the refit. -/
structure Config (α : Type) where
  m_fit_silicon_mms : Bool
  m_use_micromegas : Bool
  _disabled_layers : Finset Int
  _fit_min_pT : α
  _primary_pid_guess : Int

/-- The collaborators of the fitter: `TrkrDefs`, the cluster store, the global position
wrapper, the ACTS geometry, `SvtxTrack::get_pt` and the GenFit engine. -/
structure Env (α : Type) where
  F : FloatOps α
  getTrkrId : cluskey → TrkrId
  getLayer : cluskey → Nat
  getHitSetKeyFromClusKey : cluskey → hitsetkey
  findCluster : cluskey → Option (TrkrCluster α)
  getGlobalPositionDistortionCorrected : cluskey → Option (TrkrCluster α) → Int → TVector3 α
  getSiliconSurface : hitsetkey → Surface
  getMMSurface : hitsetkey → Surface
  referenceFrame : Surface → TVector3 α → TVector3 α
  cm : α
  get_pt : SvtxTrack α → FloatVal α
  processTrack : PHGenFitTrack α → Int × GenFitTrack α
  stateExtrapolateToPoint :
    MeasuredStateOnPlane α → TVector3 α → Except Unit (α × MeasuredStateOnPlane α)
  stateExtrapolateToPlane :
    MeasuredStateOnPlane α → Nat → Except Unit (MeasuredStateOnPlane α)
  calcAverageState :
    MeasuredStateOnPlane α → MeasuredStateOnPlane α → Except Unit (MeasuredStateOnPlane α)

section ReFit

variable {α : Type} [LinearOrderedField α]

/-! ## `ReFitTrack` -/

/-- The helper `get_cluster_keys`: the keys of the silicon seed, then those of the TPC seed. -/
def get_cluster_keys (track : SvtxTrack α) : List cluskey :=
  (match track.silicon_seed with
    | some seed => seed.cluster_keys
    | none => []) ++
  (match track.tpc_seed with
    | some seed => seed.cluster_keys
    | none => [])

/-- The helper `get_world_from_local_vect`. -/
def get_world_from_local_vect (env : Env α) (surface : Surface) (local_vect : TVector3 α) :
    TVector3 α :=
  let loc : TVector3 α :=
    ⟨local_vect.x * env.cm, local_vect.y * env.cm, local_vect.z * env.cm⟩
  let glob := env.referenceFrame surface loc
  ⟨glob.x / env.cm, glob.y / env.cm, glob.z / env.cm⟩

/-- The locals of the first loop of `ReFitTrack`. -/
structure ClusterScan (α : Type) where
  n_silicon_clusters : Nat
  n_micromegas_clusters : Nat
  m_r_cluster_id : List (α × cluskey)

/-- One pass of the first loop of `ReFitTrack`: count the cluster, file it under its radius. -/
def scanCluster (env : Env α) (crossing : Int) (st : ClusterScan α) (cluster_key : cluskey) :
    ClusterScan α :=
  let st1 : ClusterScan α :=
    match env.getTrkrId cluster_key with
    | TrkrId.mvtxId => { st with n_silicon_clusters := st.n_silicon_clusters + 1 }
    | TrkrId.inttId => { st with n_silicon_clusters := st.n_silicon_clusters + 1 }
    | TrkrId.micromegasId => { st with n_micromegas_clusters := st.n_micromegas_clusters + 1 }
    | TrkrId.tpcId => st
  let cluster := env.findCluster cluster_key
  let globalPosition := env.getGlobalPositionDistortionCorrected cluster_key cluster crossing
  let r := get_r env.F globalPosition.x globalPosition.y
  { st1 with m_r_cluster_id := emplace r cluster_key st1.m_r_cluster_id }

/-- The first loop of `ReFitTrack`, over `get_cluster_keys(intrack)`. -/
def scanClusters (env : Env α) (crossing : Int) (keys : List cluskey) : ClusterScan α :=
  keys.foldl (scanCluster env crossing) ⟨0, 0, []⟩

/-- The `switch` of the second loop of `ReFitTrack`: the measurement of one cluster. -/
def makeMeasurement (env : Env α) (cluster_key : cluskey) (cluster : TrkrCluster α)
    (globalPosition_acts : TVector3 α) : Measurement α :=
  let pos : TVector3 α := ⟨globalPosition_acts.x, globalPosition_acts.y, globalPosition_acts.z⟩
  let cluster_rphi_error := cluster.rphi_error
  let cluster_z_error := cluster.z_error
  match env.getTrkrId cluster_key with
  | TrkrId.mvtxId =>
    let surface := env.getSiliconSurface (env.getHitSetKeyFromClusKey cluster_key)
    let u := get_world_from_local_vect env surface ⟨1, 0, 0⟩
    let v := get_world_from_local_vect env surface ⟨0, 1, 0⟩
    ⟨pos, PlaneBasis.uv u v, cluster_rphi_error, cluster_z_error, cluster_key⟩
  | TrkrId.inttId =>
    let surface := env.getSiliconSurface (env.getHitSetKeyFromClusKey cluster_key)
    let u := get_world_from_local_vect env surface ⟨1, 0, 0⟩
    let v := get_world_from_local_vect env surface ⟨0, 1, 0⟩
    ⟨pos, PlaneBasis.uv u v, cluster_rphi_error, cluster_z_error, cluster_key⟩
  | TrkrId.micromegasId =>
    let surface := env.getMMSurface (env.getHitSetKeyFromClusKey cluster_key)
    let u := get_world_from_local_vect env surface ⟨1, 0, 0⟩
    let v := get_world_from_local_vect env surface ⟨0, 1, 0⟩
    ⟨pos, PlaneBasis.uv u v, cluster_rphi_error, cluster_z_error, cluster_key⟩
  | TrkrId.tpcId =>
    let n : TVector3 α := ⟨globalPosition_acts.x, globalPosition_acts.y, 0⟩
    ⟨pos, PlaneBasis.normal n, cluster_rphi_error, cluster_z_error, cluster_key⟩

/-- The locals that the second loop of `ReFitTrack` updates. -/
structure MeasurementBuild (α : Type) where
  seed_mom : TVector3 α
  measurements : List (Measurement α)

/-- One pass of the second loop of `ReFitTrack`, for the map entry `(r, cluster_key)`. -/
def buildStep (cfg : Config α) (env : Env α) (crossing : Int) (st : MeasurementBuild α)
    (entry : α × cluskey) : MeasurementBuild α :=
  let cluster_key := entry.2
  let layer : Int := (env.getLayer cluster_key : Int)
  if layer ∈ cfg._disabled_layers then st
  else
    match env.findCluster cluster_key with
    | none => st
    | some cluster =>
      let globalPosition_acts :=
        env.getGlobalPositionDistortionCorrected cluster_key (some cluster) crossing
      let pos : TVector3 α :=
        ⟨globalPosition_acts.x, globalPosition_acts.y, globalPosition_acts.z⟩
      let seed_mom := st.seed_mom.SetPhi env.F (pos.Phi env.F)
      let seed_mom := seed_mom.SetTheta env.F (pos.Theta env.F)
      let meas := makeMeasurement env cluster_key cluster globalPosition_acts
      { seed_mom := seed_mom, measurements := st.measurements ++ [meas] }

/-- The second loop of `ReFitTrack`, over `m_r_cluster_id` in key order. -/
def buildMeasurements (cfg : Config α) (env : Env α) (crossing : Int)
    (seed_mom : TVector3 α) (m_r_cluster_id : List (α × cluskey)) : MeasurementBuild α :=
  m_r_cluster_id.foldl (buildStep cfg env crossing) ⟨seed_mom, []⟩

/-- Modelled from the spec: `PHGenFit::Track::addMeasurements` is not among the sources; each
measurement is appended together with the cluster key it stores for later lookup. -/
def PHGenFitTrack.addMeasurements (t : PHGenFitTrack α) (measurements : List (Measurement α)) :
    PHGenFitTrack α :=
  { t with
    measurements := t.measurements ++ measurements
    cluster_keys := t.cluster_keys ++ measurements.map (fun m => m.cluster_key) }

/-- What a call of `ReFitTrack` does: the pointer it returns (`none` is `nullptr`) and the
tracks it passed to `_fitter->processTrack`, in call order. -/
structure ReFitOutcome (α : Type) where
  track : Option (FittedTrack α)
  processTrack_calls : List (PHGenFitTrack α)

/-- `PHGenFitTrkFitter::ReFitTrack`. -/
def ReFitTrack (cfg : Config α) (env : Env α) (intrack : Option (SvtxTrack α)) :
    ReFitOutcome α :=
  match intrack with
  | none => ⟨none, []⟩
  | some intrack =>
    let crossing := intrack.crossing
    let seed_mom : TVector3 α := ⟨100, 0, 0⟩
    let seed_pos : TVector3 α := ⟨0, 0, 0⟩
    let seed_cov : List (List α) := List.replicate 6 (List.replicate 6 100)
    let scan := scanClusters env crossing (get_cluster_keys intrack)
    if cfg.m_fit_silicon_mms && decide (scan.n_silicon_clusters = 0) then ⟨none, []⟩
    else if cfg.m_fit_silicon_mms &&
        (cfg.m_use_micromegas && decide (scan.n_micromegas_clusters = 0)) then ⟨none, []⟩
    else
      let built := buildMeasurements cfg env crossing seed_mom scan.m_r_cluster_id
      let track : PHGenFitTrack α :=
        PHGenFitTrack.addMeasurements
          ⟨cfg._primary_pid_guess, seed_pos, built.seed_mom, seed_cov, [], []⟩
          built.measurements
      let fit := env.processTrack track
      if fit.1 ≠ 0 then ⟨none, [track]⟩
      else ⟨some ⟨track, fit.2⟩, [track]⟩

end ReFit

/-! ## `pos_cov_XYZ_to_RZ` -/

/-- ROOT `TMatrixF`: a shape and its elements (`elem i j` is `m[i][j]`). -/
structure TMatrixF (α : Type) where
  nrows : Nat
  ncols : Nat
  elem : Nat → Nat → α

namespace TMatrixF

variable {α : Type} [LinearOrderedField α]

/-- `TMatrixF m(nrows, ncols)`: ROOT fills a new matrix with zeros. -/
def zero (nrows ncols : Nat) : TMatrixF α := ⟨nrows, ncols, fun _ _ => 0⟩

/-- The assignment `m[i][j] = v`. -/
def set (m : TMatrixF α) (i j : Nat) (v : α) : TMatrixF α :=
  { m with elem := fun a b => if a = i ∧ b = j then v else m.elem a b }

/-- `TMatrixF::Transpose`. -/
def Transpose (m : TMatrixF α) : TMatrixF α :=
  ⟨m.ncols, m.nrows, fun i j => m.elem j i⟩

/-- The matrix product `a * b`. -/
def mul (a b : TMatrixF α) : TMatrixF α :=
  ⟨a.nrows, b.ncols, fun i j => ((List.range a.ncols).map (fun k => a.elem i k * b.elem k j)).sum⟩

end TMatrixF

section Transform

variable {α : Type} [LinearOrderedField α]

/-- What a call of `pos_cov_XYZ_to_RZ` leaves behind: its return value and the two
matrices it received by reference. -/
structure RZResult (α : Type) where
  ret : Bool
  pos_out : TMatrixF α
  cov_out : TMatrixF α

/-- The matrix `R` that `pos_cov_XYZ_to_RZ` fills in for the angle `phi`. -/
def rotationMatrix (F : FloatOps α) (phi : α) : TMatrixF α :=
  (((((((((TMatrixF.zero 3 3).set 0 0 (F.cos phi)).set 0 1 (-F.sin phi)).set 0 2 0).set 1 0
    (F.sin phi)).set 1 1 (F.cos phi)).set 1 2 0).set 2 0 0).set 2 1 0).set 2 2 1

/-- `PHGenFitTrkFitter::pos_cov_XYZ_to_RZ`. -/
def pos_cov_XYZ_to_RZ (F : FloatOps α) (n : TVector3 α) (pos_in cov_in : TMatrixF α)
    (pos_out cov_out : TMatrixF α) : RZResult α :=
  if pos_in.ncols ≠ 1 ∨ pos_in.nrows ≠ 3 then ⟨false, pos_out, cov_out⟩
  else if cov_in.ncols ≠ 3 ∨ cov_in.nrows ≠ 3 then ⟨false, pos_out, cov_out⟩
  else
    let r := n.Cross ⟨0, 0, 1⟩
    if r.Mag F < 0.00001 then ⟨false, pos_out, cov_out⟩
    else
      let phi := -F.atan2 r.y r.x
      let R := rotationMatrix F phi
      let R_T := R.Transpose
      ⟨true, R.mul pos_in, (R.mul cov_in).mul R_T⟩

end Transform

section MakeTrack

variable {α : Type} [LinearOrderedField α]

/-! ## `MakeSvtxTrack` -/

/-- The calls `set_error(i, j, cov[i][j])` for `i < 6`, `i ≤ j < 6`: the covariance is
stored as a symmetric matrix, so the entry below the diagonal mirrors the one above. -/
def symmetricError (cov : Nat → Nat → α) : Nat → Nat → α :=
  fun i j => if i ≤ j then cov i j else cov j i

/-- The helper `create_track_state`. -/
def create_track_state (pathlength : α) (gf_state : MeasuredStateOnPlane α) :
    SvtxTrackState α :=
  { pathlength := pathlength
    x := gf_state.pos.x
    y := gf_state.pos.y
    z := gf_state.pos.z
    px := gf_state.mom.x
    py := gf_state.mom.y
    pz := gf_state.mom.z
    error := symmetricError gf_state.cov6
    cluskey := none }

/-- A pointer filled inside `try` and left null by `catch (...)`. -/
def caught {σ : Type} (r : Except Unit (Option σ)) : Option σ :=
  match r with
  | Except.ok p => p
  | Except.error _ => none

/-- The four locals `dca3d_xy`, `dca3d_z`, `dca3d_xy_error`, `dca3d_z_error`. -/
structure Dca3d (α : Type) where
  dca3d_xy : FloatVal α
  dca3d_z : FloatVal α
  dca3d_xy_error : FloatVal α
  dca3d_z_error : FloatVal α

/-- The call of `pos_cov_XYZ_to_RZ` in the `try` block of `MakeSvtxTrack`: the momentum,
the position relative to the vertex and the summed position covariance of the state at
the origin go in, together with freshly constructed `pos_out` and `cov_out`. -/
def dcaFrameCall (F : FloatOps α) (gf_state_vertex_ca : MeasuredStateOnPlane α)
    (vertex_position : TVector3 α) (vertex_cov : TMatrixF α) : RZResult α :=
  let pos_out : TMatrixF α := TMatrixF.zero 3 1
  let cov_out : TMatrixF α := TMatrixF.zero 3 3
  let state6_pos := gf_state_vertex_ca.pos
  let cov6 := gf_state_vertex_ca.cov6
  let vn : TVector3 α := gf_state_vertex_ca.mom
  let pos_in : TMatrixF α :=
    (((TMatrixF.zero 3 1).set 0 0 (state6_pos.x - vertex_position.x)).set 1 0
      (state6_pos.y - vertex_position.y)).set 2 0 (state6_pos.z - vertex_position.z)
  let cov_in : TMatrixF α :=
    ⟨3, 3, fun i j => if i < 3 ∧ j < 3 then cov6 i j + vertex_cov.elem i j else 0⟩
  pos_cov_XYZ_to_RZ F vn pos_in cov_in pos_out cov_out

/-- The `try` block of `MakeSvtxTrack` that rotates the vertex state into the r-z frame.
Nothing in it throws in this model, so the `catch` branch is never taken; the value
returned by `pos_cov_XYZ_to_RZ` is not looked at, the four locals are read off `pos_out`
and `cov_out` in any case. -/
def dcaFrame (F : FloatOps α) (gf_state_vertex_ca : MeasuredStateOnPlane α)
    (vertex_position : TVector3 α) (vertex_cov : TMatrixF α) : Dca3d α :=
  let rz := dcaFrameCall F gf_state_vertex_ca vertex_position vertex_cov
  { dca3d_xy := FloatVal.num (rz.pos_out.elem 0 0)
    dca3d_z := FloatVal.num (rz.pos_out.elem 2 0)
    dca3d_xy_error := FloatVal.sqrt F (rz.cov_out.elem 0 0)
    dca3d_z_error := FloatVal.sqrt F (rz.cov_out.elem 2 2) }

/-- One pass of the loop over the fit points: the state inserted for point `id`, if any.
The key is `phgf_track->get_cluster_keys()[id]`; the source does not check the index, an
index past the end leaves the state without a key here. -/
def fitPointState (phgf_track : FittedTrack α) (vertex_position : TVector3 α) (id : Nat) :
    Option (SvtxTrackState α) :=
  match phgf_track.gf.getPointWithMeasurementAndFitterInfo id with
  | none => none
  | some trpoint =>
    match trpoint.getFitterInfo with
    | none => none
    | some kfi =>
      match kfi.getFittedState with
      | Except.error _ => none
      | Except.ok gf_state =>
        let pathlength := -phgf_track.gf.extrapolateToPointFrom vertex_position id
        let state := create_track_state pathlength gf_state
        some { state with cluskey := phgf_track.get_cluster_keys[id]? }

/-- The loop over the fit points, `id` from 0 up to `getNumPointsWithMeasurement()`: the
states it inserts, in order. -/
def fitPointStates (phgf_track : FittedTrack α) (vertex_position : TVector3 α) :
    List (SvtxTrackState α) :=
  (List.range phgf_track.gf.getNumPointsWithMeasurement).filterMap
    (fitPointState phgf_track vertex_position)

/-- The test of the radius search at point `id`: the smoothed state is there and its radius
exceeds that of the cluster (any missing piece is a `continue`). -/
def radiusExceeds (F : FloatOps α) (gf : GenFitTrack α) (r_cluster : α) (id : Nat) : Bool :=
  match gf.getPointWithMeasurementAndFitterInfo id with
  | none => false
  | some trpoint =>
    match trpoint.getFitterInfo with
    | none => false
    | some kfi =>
      match kfi.getFittedState with
      | Except.error _ => false
      | Except.ok gf_state =>
        let r_track := F.sqrt (square gf_state.pos.x + square gf_state.pos.y)
        decide (r_cluster < r_track)

/-- The radius search `for (; id < n; ++id) { ... break; }`, with `fuel` passes left
(`n - id` at the start): the value of `id` when the loop is left. -/
def radiusSearch (F : FloatOps α) (gf : GenFitTrack α) (r_cluster : α) : Nat → Nat → Nat
  | 0, id => id
  | fuel + 1, id =>
    if radiusExceeds F gf r_cluster id then id
    else radiusSearch F gf r_cluster fuel (id + 1)

/-- The locals carried through the loop over the clusters of disabled layers. -/
structure LayerLoop (α : Type) where
  id_min : Nat
  inserted : List (SvtxTrackState α)

/-- The forward `try` block for the anchor `id_min`: the extrapolated state and its path
length, or `none` for each way the source leaves the pass by `continue`.  The source does
not check `kfi` here; a point without fitter info is skipped like a null point. -/
def forwardExtrapolate (env : Env α) (gf : GenFitTrack α) (id_min : Nat)
    (pos_A vertex_position : TVector3 α) : Option (α × MeasuredStateOnPlane α) :=
  match gf.getPointWithMeasurementAndFitterInfo id_min with
  | none => none
  | some trpoint =>
    match trpoint.getFitterInfo with
    | none => none
    | some kfi =>
      match env.stateExtrapolateToPoint kfi.getForwardUpdate pos_A with
      | Except.error _ => none
      | Except.ok fwd =>
        match env.stateExtrapolateToPoint kfi.getBackwardUpdate vertex_position with
        | Except.error _ => none
        | Except.ok back => some (fwd.1 - back.1, fwd.2)

/-- The backward `try` block for the point `id`: the average of the forward state with the
backward update of `id` brought to the same plane, or `none` on `continue`. -/
def backwardAverage (env : Env α) (gf : GenFitTrack α) (id : Nat)
    (gf_state : MeasuredStateOnPlane α) : Option (MeasuredStateOnPlane α) :=
  match gf.getPointWithMeasurementAndFitterInfo id with
  | none => none
  | some trpoint =>
    match trpoint.getFitterInfo with
    | none => none
    | some kfi =>
      match env.stateExtrapolateToPlane kfi.getBackwardUpdate gf_state.plane with
      | Except.error _ => none
      | Except.ok gf_state_backward =>
        match env.calcAverageState gf_state gf_state_backward with
        | Except.error _ => none
        | Except.ok avg => some avg

/-- The radius search of one pass of the loop over the disabled layers, started at the
carried `id_min`: the value of `id` when the inner loop is left. -/
def clusterSearch (env : Env α) (gf : GenFitTrack α) (crossing : Int) (id_min : Nat)
    (cluster_key : cluskey) : Nat :=
  let cluster := env.findCluster cluster_key
  let globalPosition := env.getGlobalPositionDistortionCorrected cluster_key cluster crossing
  let r_cluster := env.F.sqrt (square globalPosition.x + square globalPosition.y)
  let n := gf.getNumPointsWithMeasurement
  radiusSearch env.F gf r_cluster (n - id_min) id_min

/-- The statement `if (id > 0) id_min = id - 1;`: the value of `id_min` behind it, which is
the index of the fit point the forward extrapolation starts from. -/
def forwardAnchor (id id_min : Nat) : Nat :=
  if 0 < id then id - 1 else id_min

/-- One pass of the loop over `get_cluster_keys(svtx_track)` for the disabled layers. -/
def disabledLayerStep (cfg : Config α) (env : Env α) (gf : GenFitTrack α) (crossing : Int)
    (vertex_position : TVector3 α) (st : LayerLoop α) (cluster_key : cluskey) : LayerLoop α :=
  let cluster := env.findCluster cluster_key
  let layer : Int := (env.getLayer cluster_key : Int)
  if layer ∉ cfg._disabled_layers then st
  else
    let globalPosition := env.getGlobalPositionDistortionCorrected cluster_key cluster crossing
    let pos_A : TVector3 α := ⟨globalPosition.x, globalPosition.y, globalPosition.z⟩
    let n := gf.getNumPointsWithMeasurement
    let id := clusterSearch env gf crossing st.id_min cluster_key
    let id_min := forwardAnchor id st.id_min
    match forwardExtrapolate env gf id_min pos_A vertex_position with
    | none => { id_min := id_min, inserted := st.inserted }
    | some fwd =>
      let pathlength := fwd.1
      if 0 < id ∧ id < n then
        match backwardAverage env gf id fwd.2 with
        | none => { id_min := id_min, inserted := st.inserted }
        | some gf_state =>
          let state := create_track_state pathlength gf_state
          { id_min := id_min
            inserted := st.inserted ++ [{ state with cluskey := some cluster_key }] }
      else
        let state := create_track_state pathlength fwd.2
        { id_min := id_min
          inserted := st.inserted ++ [{ state with cluskey := some cluster_key }] }

/-- The block `if (!_disabled_layers.empty()) { ... }`: the states it inserts, in order. -/
def disabledLayerStates (cfg : Config α) (env : Env α) (svtx_track : SvtxTrack α)
    (phgf_track : FittedTrack α) (vertex_position : TVector3 α) : List (SvtxTrackState α) :=
  if cfg._disabled_layers = ∅ then []
  else
    let crossing := svtx_track.crossing
    ((get_cluster_keys svtx_track).foldl
      (disabledLayerStep cfg env phgf_track.gf crossing vertex_position) ⟨0, []⟩).inserted

/-- `PHGenFitTrkFitter::MakeSvtxTrack` (`none` is the null pointer). -/
def MakeSvtxTrack (cfg : Config α) (env : Env α) (svtx_track : SvtxTrack α)
    (phgf_track : FittedTrack α) : Option (SvtxTrack α) :=
  let chi2 := phgf_track.gf.chi2
  let ndf := phgf_track.gf.ndf
  let vertex_position : TVector3 α := ⟨0, 0, 0⟩
  let vertex_cov : TMatrixF α := TMatrixF.zero 3 3
  let dvr2 : α := 0
  let dvz2 : α := 0
  match caught (phgf_track.gf.extrapolateToLine vertex_position ⟨0, 0, 1⟩) with
  | none => none
  | some gf_state_beam_line_ca =>
    let u := gf_state_beam_line_ca.state 3
    let du2 := gf_state_beam_line_ca.cov 3 3
    let out_track : SvtxTrack α :=
      { svtx_track with
        states := [SvtxTrackState.new 0]
        dca2d := FloatVal.num u
        dca2d_error := FloatVal.sqrt env.F (du2 + dvr2) }
    match caught (phgf_track.gf.extrapolateToPoint vertex_position) with
    | none => none
    | some gf_state_vertex_ca =>
      let mom := gf_state_vertex_ca.mom
      let pos := gf_state_vertex_ca.pos
      let cov := gf_state_vertex_ca.cov6
      let u := gf_state_vertex_ca.state 3
      let v := gf_state_vertex_ca.state 4
      let du2 := gf_state_vertex_ca.cov 3 3
      let dv2 := gf_state_vertex_ca.cov 4 4
      let dca3d := FloatVal.sqrt env.F (square u + square v)
      let dca3d_error := FloatVal.sqrt env.F (du2 + dv2 + dvr2 + dvz2)
      let d := dcaFrame env.F gf_state_vertex_ca vertex_position vertex_cov
      some
        { out_track with
          dca := dca3d
          dca_error := dca3d_error
          dca3d_xy := d.dca3d_xy
          dca3d_z := d.dca3d_z
          dca3d_xy_error := d.dca3d_xy_error
          dca3d_z_error := d.dca3d_z_error
          chisq := chi2
          ndf := ndf
          charge := phgf_track.gf.charge
          px := mom.x
          py := mom.y
          pz := mom.z
          x := pos.x
          y := pos.y
          z := pos.z
          error := symmetricError cov
          states := out_track.states ++ fitPointStates phgf_track vertex_position ++
            disabledLayerStates cfg env svtx_track phgf_track vertex_position }

end MakeTrack

section Event

variable {α : Type} [LinearOrderedField α]

/-! ## `process_event` -/

/-- `Fun4AllReturnCodes::EVENT_OK`. -/
def EVENT_OK : Int := 0

/-- `SHRT_MAX`. -/
def SHRT_MAX : Int := 32767

/-- `std::numeric_limits<unsigned int>::max()`. -/
def UINT_MAX : Nat := 4294967295

/-- An entry of the seed map `m_seedMap`: the indices of its silicon and TPC seeds. -/
structure SvtxTrackSeed where
  silicon_seed_index : Nat
  tpc_seed_index : Nat
deriving DecidableEq, Repr

/-- The nodes `GetNodes` fetches for the event: the seed map (whose entries may be null)
and the two seed containers (`get` returns null for an index that is not there). -/
structure Nodes (α : Type) where
  m_seedMap : List (Option SvtxTrackSeed)
  m_siliconSeeds : Nat → Option (TrackSeed α)
  m_tpcSeeds : Nat → Option (TrackSeed α)

/-- Modelled from the spec: the default constructor of `SvtxTrack_v4` is not among the
sources; a fresh track has no seeds, no states of its own and not-a-number DCA fields. -/
def SvtxTrack.new : SvtxTrack α :=
  { id := UINT_MAX, silicon_seed := none, tpc_seed := none, crossing := SHRT_MAX, charge := 0
    x := 0, y := 0, z := 0, px := 0, py := 0, pz := 0, chisq := 0, ndf := 0
    error := fun _ _ => 0
    dca := FloatVal.nan, dca_error := FloatVal.nan, dca2d := FloatVal.nan
    dca2d_error := FloatVal.nan, dca3d_xy := FloatVal.nan, dca3d_z := FloatVal.nan
    dca3d_xy_error := FloatVal.nan, dca3d_z_error := FloatVal.nan
    states := [SvtxTrackState.new 0] }

/-- Modelled from the spec: `SvtxTrackMap::insert` is not among the sources; the track
collection is keyed by the integer id of the track. -/
def SvtxTrackMap.insert (track : SvtxTrack α) (m : List (Nat × SvtxTrack α)) :
    List (Nat × SvtxTrack α) :=
  emplace track.id track m

/-- The locals of the loop that fills the track map from the seeds. -/
structure FillLoop (α : Type) where
  trackid : Nat
  m_trackMap : List (Nat × SvtxTrack α)

/-- The block `// build track` of the loop over the seeds: a fresh `SvtxTrack_v4` with
the next id, the two seeds, the crossing and position of the silicon seed, and the charge
and momentum of the TPC seed. -/
def buildSvtxTrack (trackid : Nat) (siseed tpcseed : TrackSeed α) : SvtxTrack α :=
  let position := siseed.xyz
  { (SvtxTrack.new : SvtxTrack α) with
    id := trackid
    silicon_seed := some siseed
    tpc_seed := some tpcseed
    crossing := siseed.crossing
    x := position.x
    y := position.y
    z := position.z
    charge := if 0 < tpcseed.qOverR then 1 else -1
    px := tpcseed.px
    py := tpcseed.py
    pz := tpcseed.pz }

/-- One pass of the loop over `*m_seedMap`. -/
def fillStep (nodes : Nodes α) (st : FillLoop α) (track : Option SvtxTrackSeed) : FillLoop α :=
  match track with
  | none => st
  | some track =>
    let siid := track.silicon_seed_index
    if siid = UINT_MAX then st
    else
      match nodes.m_siliconSeeds siid with
      | none => st
      | some siseed =>
        let crossing := siseed.crossing
        if crossing = SHRT_MAX then st
        else
          let tpcid := track.tpc_seed_index
          match nodes.m_tpcSeeds tpcid with
          | none => st
          | some tpcseed =>
            let svtxtrack := buildSvtxTrack st.trackid siseed tpcseed
            { trackid := st.trackid + 1
              m_trackMap := SvtxTrackMap.insert svtxtrack st.m_trackMap }

/-- The first part of `process_event`: `m_trackMap->Reset()` and the loop over the seeds. -/
def fillTrackMap (nodes : Nodes α) : List (Nat × SvtxTrack α) :=
  (nodes.m_seedMap.foldl (fillStep nodes) ⟨0, []⟩).m_trackMap

/-- The assignment `m[k] = v` of a `std::map`: the entry is added at its place in key
order, or overwritten if the key is already present. -/
def assign {κ ν : Type} [LinearOrder κ] (k : κ) (v : ν) : List (κ × ν) → List (κ × ν)
  | [] => [(k, v)]
  | e :: rest =>
    if k < e.1 then (k, v) :: e :: rest
    else if e.1 < k then e :: assign k v rest
    else (k, v) :: rest

/-- `std::map::find`: the value under `k`, if there is one. -/
def find {κ ν : Type} [LinearOrder κ] (k : κ) : List (κ × ν) → Option ν
  | [] => none
  | e :: rest => if e.1 = k then some e.2 else find k rest

/-- The locals of the refit loop of `process_event`, and the keys of the candidates it has
passed to `ReFitTrack`, in call order.  (`rf_gf_tracks` is filled but never read.) -/
structure RefitLoop (α : Type) where
  svtxtrack_genfittrack_map : List (Nat × Nat)
  rf_phgf_tracks : List (FittedTrack α)
  refit_calls : List Nat

/-- One pass of the refit loop `for (const auto& [key, svtx_track] : *m_trackMap)`; the
tracks held by the map are never null. -/
def refitStep (cfg : Config α) (env : Env α) (st : RefitLoop α) (entry : Nat × SvtxTrack α) :
    RefitLoop α :=
  let key := entry.1
  let svtx_track := entry.2
  if !(FloatVal.gt (env.get_pt svtx_track) cfg._fit_min_pT) then st
  else
    match (ReFitTrack cfg env (some svtx_track)).track with
    | some rf_phgf_track =>
      { svtxtrack_genfittrack_map :=
          assign svtx_track.id st.rf_phgf_tracks.length st.svtxtrack_genfittrack_map
        rf_phgf_tracks := st.rf_phgf_tracks ++ [rf_phgf_track]
        refit_calls := st.refit_calls ++ [key] }
    | none => { st with refit_calls := st.refit_calls ++ [key] }

/-- The head of the second loop: the refitted track recorded for the id of this entry. -/
def lookupFitted (st : RefitLoop α) (svtx_track : SvtxTrack α) : Option (FittedTrack α) :=
  match find svtx_track.id st.svtxtrack_genfittrack_map with
  | some itrack => st.rf_phgf_tracks[itrack]?
  | none => none

/-- One pass of the second loop of `process_event`: the entry as it is left in the map
(overwritten by `CopyFrom`), or `none` when it is erased. -/
def convertStep (cfg : Config α) (env : Env α) (st : RefitLoop α)
    (entry : Nat × SvtxTrack α) : Option (Nat × SvtxTrack α) :=
  match lookupFitted st entry.2 with
  | some rf_phgf_track =>
    match MakeSvtxTrack cfg env entry.2 rf_phgf_track with
    | some rf_track => some (entry.1, rf_track)
    | none => none
  | none => none

/-- What `process_event` leaves behind: its return code, the track map, and the keys of
the candidates it passed to `ReFitTrack`. -/
structure EventOutcome (α : Type) where
  ret : Int
  m_trackMap : List (Nat × SvtxTrack α)
  refit_calls : List Nat

/-- The part of `process_event` after the track map is filled: the refit loop, then the
loop that replaces or erases each entry. -/
def refitTrackMap (cfg : Config α) (env : Env α) (m_trackMap : List (Nat × SvtxTrack α)) :
    EventOutcome α :=
  let st := m_trackMap.foldl (refitStep cfg env) ⟨[], [], []⟩
  ⟨EVENT_OK, m_trackMap.filterMap (convertStep cfg env st), st.refit_calls⟩

/-- `PHGenFitTrkFitter::process_event`. -/
def process_event (cfg : Config α) (env : Env α) (nodes : Nodes α) : EventOutcome α :=
  refitTrackMap cfg env (fillTrackMap nodes)

end Event

section Setters

variable {α : Type} [LinearOrderedField α]

/-! ## The setters of the disabled layers -/

/-- `PHGenFitTrkFitter::disable_layer`. -/
def disable_layer (cfg : Config α) (layer : Int) (disabled : Bool) : Config α :=
  if disabled then { cfg with _disabled_layers := insert layer cfg._disabled_layers }
  else { cfg with _disabled_layers := cfg._disabled_layers.erase layer }

/-- The values `layer` takes in `for (int layer = first; layer < last; ++layer)`. -/
def layerLoop (first last : Int) : List Int :=
  (List.range (last - first).toNat).map (fun (i : Nat) => first + (i : Int))

/-- `PHGenFitTrkFitter::set_fit_silicon_mms`: the flag is stored, then the three loops over
the TPC layers call `disable_layer(layer, value)`. -/
def set_fit_silicon_mms (cfg : Config α) (value : Bool) : Config α :=
  let cfg0 : Config α := { cfg with m_fit_silicon_mms := value }
  let cfg1 := (layerLoop 7 23).foldl (fun c layer => disable_layer c layer value) cfg0
  let cfg2 := (layerLoop 23 39).foldl (fun c layer => disable_layer c layer value) cfg1
  (layerLoop 39 55).foldl (fun c layer => disable_layer c layer value) cfg2

end Setters

section StateContainer

variable {α : Type} [LinearOrderedField α]

/-! ## The state container of a track -/

/-- Modelled from the spec: `SvtxTrack_v4::insert_state` is not among the sources; the
states of a track are kept strictly ordered by path length, so a state is added at its
place in path-length order unless its path length is already taken. -/
def insert_state (state : SvtxTrackState α) (states : List (α × SvtxTrackState α)) :
    List (α × SvtxTrackState α) :=
  emplace state.pathlength state states

/-- The state sequence of a track in path-length order: what the logged `insert_state`
calls leave in the container. -/
def SvtxTrack.stateMap (t : SvtxTrack α) : List (α × SvtxTrackState α) :=
  t.states.foldl (fun m state => insert_state state m) []

end StateContainer

section Notions

variable {α : Type} [LinearOrderedField α]

/-! ## Notions used to state the properties -/

/-- The corrected global position of the cluster under `cluster_key`, as both loops of
`ReFitTrack` obtain it. -/
def clusterPosition (env : Env α) (crossing : Int) (cluster_key : cluskey) : TVector3 α :=
  env.getGlobalPositionDistortionCorrected cluster_key (env.findCluster cluster_key) crossing

/-- The radial distance of the cluster under `cluster_key` from the beam axis. -/
def clusterRadius (env : Env α) (crossing : Int) (cluster_key : cluskey) : α :=
  get_r env.F (clusterPosition env crossing cluster_key).x
    (clusterPosition env crossing cluster_key).y

/-- The cluster is a silicon (MVTX or INTT) cluster. -/
def isSilicon (env : Env α) (cluster_key : cluskey) : Bool :=
  decide (env.getTrkrId cluster_key = TrkrId.mvtxId ∨ env.getTrkrId cluster_key = TrkrId.inttId)

/-- The cluster is a Micromegas cluster. -/
def isMicromegas (env : Env α) (cluster_key : cluskey) : Bool :=
  decide (env.getTrkrId cluster_key = TrkrId.micromegasId)

/-- The layer of the cluster is not in the disabled set. -/
def layerEnabled (cfg : Config α) (env : Env α) (cluster_key : cluskey) : Bool :=
  decide ((env.getLayer cluster_key : Int) ∉ cfg._disabled_layers)

/-- An extrapolation failed: it threw, or it returned no state. -/
def extrapolationFailed {σ : Type} (r : Except Unit (Option σ)) : Bool :=
  match r with
  | Except.error _ => true
  | Except.ok none => true
  | Except.ok (some _) => false

/-- What the refit loop of `process_event` records for a candidate: the track returned by
`ReFitTrack` if the candidate was passed to it, nothing otherwise. -/
def refitted (cfg : Config α) (env : Env α) (svtx_track : SvtxTrack α) :
    Option (FittedTrack α) :=
  if FloatVal.gt (env.get_pt svtx_track) cfg._fit_min_pT then
    (ReFitTrack cfg env (some svtx_track)).track
  else none

/-- The measurement the second loop of `ReFitTrack` builds for one entry of the radius
map, if it builds one. -/
def measurementOf (cfg : Config α) (env : Env α) (crossing : Int) (entry : α × cluskey) :
    Option (Measurement α) :=
  if (env.getLayer entry.2 : Int) ∈ cfg._disabled_layers then none
  else
    match env.findCluster entry.2 with
    | none => none
    | some cluster =>
      some (makeMeasurement env entry.2 cluster
        (env.getGlobalPositionDistortionCorrected entry.2 (some cluster) crossing))

/-- Exact real arithmetic: the four primitives are the real square root, the two-argument
arctangent (the argument of `x + iy`), cosine and sine. -/
def FloatOps.Exact (F : FloatOps ℝ) : Prop :=
  F.sqrt = Real.sqrt ∧ (∀ y x, F.atan2 y x = Complex.arg ⟨x, y⟩) ∧
    F.cos = Real.cos ∧ F.sin = Real.sin

/-- The trace of a 3x3 matrix. -/
def TMatrixF.trace3 (m : TMatrixF α) : α :=
  m.elem 0 0 + m.elem 1 1 + m.elem 2 2

/-- A 3x3 matrix is symmetric. -/
def TMatrixF.IsSymm3 (m : TMatrixF α) : Prop :=
  ∀ i j, i < 3 → j < 3 → m.elem i j = m.elem j i

/-- The quadratic form `v^T m v` of a 3x3 matrix at `v = (v0, v1, v2)`. -/
def TMatrixF.quadForm3 (m : TMatrixF α) (v0 v1 v2 : α) : α :=
  v0 * (m.elem 0 0 * v0 + m.elem 0 1 * v1 + m.elem 0 2 * v2) +
  v1 * (m.elem 1 0 * v0 + m.elem 1 1 * v1 + m.elem 1 2 * v2) +
  v2 * (m.elem 2 0 * v0 + m.elem 2 1 * v1 + m.elem 2 2 * v2)

/-- A 3x3 matrix is positive semi-definite. -/
def TMatrixF.IsPSD3 (m : TMatrixF α) : Prop :=
  ∀ v0 v1 v2 : α, 0 ≤ m.quadForm3 v0 v1 v2

/-- The angle of the rotation `pos_cov_XYZ_to_RZ` builds for the momentum `n`:
`-ATan2(r.Y(), r.X())` with `r = n x (0, 0, 1)`. -/
def rotationAngle (F : FloatOps α) (n : TVector3 α) : α :=
  -F.atan2 (n.Cross ⟨0, 0, 1⟩).y (n.Cross ⟨0, 0, 1⟩).x

/-- The vector of magnitude `magnitude` that has the azimuth and the polar angle of `p`. -/
def directionOf (F : FloatOps α) (magnitude : α) (p : TVector3 α) : TVector3 α :=
  ⟨magnitude * p.x / p.Mag F, magnitude * p.y / p.Mag F, magnitude * p.z / p.Mag F⟩

/-- The smoothed state of fit point `id`, when the track point, its Kalman fitter info and
the fitted state are all available. -/
def smoothedStateAt (gf : GenFitTrack α) (id : Nat) : Option (MeasuredStateOnPlane α) :=
  match gf.getPointWithMeasurementAndFitterInfo id with
  | none => none
  | some trpoint =>
    match trpoint.getFitterInfo with
    | none => none
    | some kfi =>
      match kfi.getFittedState with
      | Except.error _ => none
      | Except.ok gf_state => some gf_state

/-- The anchor `id_min` carried by the loop over the disabled layers of `MakeSvtxTrack`
after its passes for the cluster keys `done`. -/
def carriedAnchor (cfg : Config α) (env : Env α) (gf : GenFitTrack α) (crossing : Int)
    (vertex_position : TVector3 α) (done : List cluskey) : Nat :=
  (done.foldl (disabledLayerStep cfg env gf crossing vertex_position) ⟨0, []⟩).id_min

/-- The states the loop over the disabled layers of `MakeSvtxTrack` has inserted after its
passes for the cluster keys `done`. -/
def insertedAfter (cfg : Config α) (env : Env α) (gf : GenFitTrack α) (crossing : Int)
    (vertex_position : TVector3 α) (done : List cluskey) : List (SvtxTrackState α) :=
  (done.foldl (disabledLayerStep cfg env gf crossing vertex_position) ⟨0, []⟩).inserted

/-- The fitted radius of fit point `id`: the transverse radius of its smoothed state, when
that state is available. -/
def fittedRadius (F : FloatOps α) (gf : GenFitTrack α) (id : Nat) : Option α :=
  (smoothedStateAt gf id).map (fun gf_state =>
    F.sqrt (square gf_state.pos.x + square gf_state.pos.y))

/-- The smallest index among all fit points, counted from 0, whose fitted radius strictly
exceeds `r_cluster`, or the number of fit points if there is none. -/
def firstPointBeyond (F : FloatOps α) (gf : GenFitTrack α) (r_cluster : α) : Nat :=
  ((List.range gf.getNumPointsWithMeasurement).find? (fun id =>
    match fittedRadius F gf id with
    | some r_track => decide (r_cluster < r_track)
    | none => false)).getD gf.getNumPointsWithMeasurement

/-- The path length the engine reports for extrapolating `state` to `point`, if the
extrapolation does not throw. -/
def extrapolationLength (env : Env α) (state : MeasuredStateOnPlane α) (point : TVector3 α) :
    Option α :=
  match env.stateExtrapolateToPoint state point with
  | Except.ok r => some r.1
  | Except.error _ => none

end Notions

section Examples

/-! ## A small detector for the examples -/

/-- The integer square root, rounded down. -/
def natSqrt (n : Nat) : Nat :=
  ((List.range (n + 1)).filter (fun k => k * k ≤ n)).length - 1

/-- A computable square root on the rationals, exact on squares of rationals. -/
def ratSqrt (q : ℚ) : ℚ := (natSqrt (q.num.toNat * q.den) : ℚ) / q.den

/-- The arithmetic of the examples: the square root is exact on perfect squares; the
angle functions are constant, they only enter the seed momentum handed to the engine. -/
def exampleOps : FloatOps ℚ :=
  { sqrt := ratSqrt, atan2 := fun _ _ => 0, cos := fun _ => 1, sin := fun _ => 0 }

/-- The detector of the examples: keys below 10 are MVTX, below 20 INTT, below 100 TPC,
the others Micromegas. -/
def exampleTrkrId (k : cluskey) : TrkrId :=
  if k < 10 then TrkrId.mvtxId
  else if k < 20 then TrkrId.inttId
  else if k < 100 then TrkrId.tpcId
  else TrkrId.micromegasId

/-- The cluster positions of the examples: radii 2 and 3 for the silicon keys 1 and 2,
radius 5 for both TPC keys 30 and 31, radius 10 for the TPC key 40. -/
def examplePosition (k : cluskey) : TVector3 ℚ :=
  if k = 1 then ⟨2, 0, 0⟩
  else if k = 2 then ⟨0, 3, 0⟩
  else if k = 30 then ⟨3, 4, 0⟩
  else if k = 31 then ⟨4, 3, 0⟩
  else if k = 40 then ⟨6, 8, 0⟩
  else ⟨0, 0, 0⟩

/-- A state at `pos` with momentum `mom` and unit covariances. -/
def exampleState (pos mom : TVector3 ℚ) : MeasuredStateOnPlane ℚ :=
  { state := fun i => (i : ℚ)
    cov := fun i j => if i = j then 1 else 0
    pos := pos
    mom := mom
    cov6 := fun i j => if i = j then 1 else 0
    plane := 0 }

/-- The engine of the examples: one fit point per measurement, at the position of the
measurement; the extrapolations to the beam line and to the origin give states at
(1, 2, 0) and (1, 2, 3) with momentum `vertexMom`. -/
def exampleGenFit (vertexMom : TVector3 ℚ) (t : PHGenFitTrack ℚ) : GenFitTrack ℚ :=
  { chi2 := 1
    ndf := 2 * (t.measurements.length : ℚ) - 5
    charge := 1
    extrapolateToLine := fun _ _ => Except.ok (some (exampleState ⟨1, 2, 0⟩ vertexMom))
    extrapolateToPoint := fun _ => Except.ok (some (exampleState ⟨1, 2, 3⟩ vertexMom))
    getNumPointsWithMeasurement := t.measurements.length
    getPointWithMeasurementAndFitterInfo := fun id =>
      (t.measurements[id]?).map (fun m =>
        { getFitterInfo := some
            { getFittedState := Except.ok (exampleState m.pos vertexMom)
              getForwardUpdate := exampleState m.pos vertexMom
              getBackwardUpdate := exampleState m.pos vertexMom } })
    extrapolateToPointFrom := fun _ id => -((id : ℚ) + 1) }

/-- The collaborators of the examples; the engine fails on a track without measurements
and reports momentum `vertexMom` at the vertex otherwise. -/
def exampleEnv (vertexMom : TVector3 ℚ) : Env ℚ :=
  { F := exampleOps
    getTrkrId := exampleTrkrId
    getLayer := fun k => k
    getHitSetKeyFromClusKey := fun k => k
    findCluster := fun _ => some ⟨1, 1⟩
    getGlobalPositionDistortionCorrected := fun k _ _ => examplePosition k
    getSiliconSurface := fun h => h
    getMMSurface := fun h => h
    referenceFrame := fun _ v => v
    cm := 10
    get_pt := fun t => FloatVal.num (ratSqrt (t.px * t.px + t.py * t.py))
    processTrack := fun t =>
      (if t.measurements.isEmpty then 1 else 0, exampleGenFit vertexMom t)
    stateExtrapolateToPoint := fun s p => Except.ok (1, { s with pos := p })
    stateExtrapolateToPlane := fun s pl => Except.ok { s with plane := pl }
    calcAverageState := fun a _ => Except.ok a }

/-- A configuration for the examples: nothing disabled, `_fit_min_pT` zero. -/
def exampleConfig (fit_silicon_mms use_micromegas : Bool) : Config ℚ :=
  { m_fit_silicon_mms := fit_silicon_mms
    m_use_micromegas := use_micromegas
    _disabled_layers := ∅
    _fit_min_pT := 0
    _primary_pid_guess := 211 }

/-- A seed of the examples with the given cluster keys. -/
def exampleSeed (keys : List cluskey) : TrackSeed ℚ :=
  { cluster_keys := keys, crossing := 0, qOverR := 1, px := 3, py := 4, pz := 0
    xyz := ⟨0, 0, 0⟩ }

/-- A candidate of the examples with the given silicon and TPC cluster keys. -/
def exampleTrack (silicon tpc : List cluskey) : SvtxTrack ℚ :=
  { (SvtxTrack.new : SvtxTrack ℚ) with
    id := 0
    silicon_seed := some (exampleSeed silicon)
    tpc_seed := some (exampleSeed tpc)
    crossing := 0
    charge := 1
    px := 3
    py := 4
    pz := 0 }

/-- The nodes of an event with the one candidate `exampleTrack silicon tpc`. -/
def exampleNodes (silicon tpc : List cluskey) : Nodes ℚ :=
  { m_seedMap := [some ⟨0, 0⟩]
    m_siliconSeeds := fun i => if i = 0 then some (exampleSeed silicon) else none
    m_tpcSeeds := fun i => if i = 0 then some (exampleSeed tpc) else none }

/-- The track `ReFitTrack` builds in the examples from the silicon keys 2, 1 and the TPC
keys 40, 30; with `skip30` the measurement of key 30 is left out, as it is when layer 30
is disabled. -/
def exampleHanded (skip30 : Bool) : PHGenFitTrack ℚ :=
  { pid := 211
    seed_pos := ⟨0, 0, 0⟩
    seed_mom := ⟨0, 0, 100⟩
    seed_cov := List.replicate 6 (List.replicate 6 100)
    measurements :=
      [⟨⟨2, 0, 0⟩, PlaneBasis.uv ⟨1, 0, 0⟩ ⟨0, 1, 0⟩, 1, 1, 1⟩,
       ⟨⟨0, 3, 0⟩, PlaneBasis.uv ⟨1, 0, 0⟩ ⟨0, 1, 0⟩, 1, 1, 2⟩] ++
      (if skip30 then [] else [⟨⟨3, 4, 0⟩, PlaneBasis.normal ⟨3, 4, 0⟩, 1, 1, 30⟩]) ++
      [⟨⟨6, 8, 0⟩, PlaneBasis.normal ⟨6, 8, 0⟩, 1, 1, 40⟩]
    cluster_keys := [1, 2] ++ (if skip30 then [] else [30]) ++ [40] }

/-- The candidate that `process_event` builds from the seeds of `exampleNodes`. -/
def exampleCandidate (silicon tpc : List cluskey) : Nat × SvtxTrack ℚ :=
  (0, buildSvtxTrack 0 (exampleSeed silicon) (exampleSeed tpc))

/-- The fitted track the engine of the examples returns for `exampleHanded false`. -/
def exampleFitted (vertexMom : TVector3 ℚ) : FittedTrack ℚ :=
  ⟨exampleHanded false, exampleGenFit vertexMom (exampleHanded false)⟩

/-- A fitted track whose extrapolation to the beam line throws. -/
def exampleFittedNoLine : FittedTrack ℚ :=
  ⟨exampleHanded false,
    { exampleGenFit ⟨1, 0, 0⟩ (exampleHanded false) with
      extrapolateToLine := fun _ _ => Except.error () }⟩

/-- The cluster positions of the examples over any ordered field. -/
def examplePositionOver {α : Type} [LinearOrderedField α] (k : cluskey) : TVector3 α :=
  if k = 1 then ⟨2, 0, 0⟩
  else if k = 2 then ⟨0, 3, 0⟩
  else if k = 30 then ⟨3, 4, 0⟩
  else if k = 31 then ⟨4, 3, 0⟩
  else if k = 40 then ⟨6, 8, 0⟩
  else ⟨0, 0, 0⟩

/-- An engine result that exposes nothing: no fit point, every extrapolation throws. -/
def exampleBareFit {α : Type} [LinearOrderedField α] : GenFitTrack α :=
  { chi2 := 0
    ndf := 0
    charge := 1
    extrapolateToLine := fun _ _ => Except.error ()
    extrapolateToPoint := fun _ => Except.error ()
    getNumPointsWithMeasurement := 0
    getPointWithMeasurementAndFitterInfo := fun _ => none
    extrapolateToPointFrom := fun _ _ => 0 }

/-- The detector of the examples over any ordered field, with the arithmetic `F`; the
engine accepts every track with a measurement and returns `exampleBareFit`. -/
def exampleEnvOver {α : Type} [LinearOrderedField α] (F : FloatOps α) : Env α :=
  { F := F
    getTrkrId := exampleTrkrId
    getLayer := fun k => k
    getHitSetKeyFromClusKey := fun k => k
    findCluster := fun _ => some ⟨1, 1⟩
    getGlobalPositionDistortionCorrected := fun k _ _ => examplePositionOver k
    getSiliconSurface := fun h => h
    getMMSurface := fun h => h
    referenceFrame := fun _ v => v
    cm := 10
    get_pt := fun t => FloatVal.num (F.sqrt (t.px * t.px + t.py * t.py))
    processTrack := fun t => (if t.measurements.isEmpty then 1 else 0, exampleBareFit)
    stateExtrapolateToPoint := fun s p => Except.ok (1, { s with pos := p })
    stateExtrapolateToPlane := fun s pl => Except.ok { s with plane := pl }
    calcAverageState := fun a _ => Except.ok a }

/-- A candidate of the examples over any ordered field. -/
def exampleTrackOver {α : Type} [LinearOrderedField α] (silicon tpc : List cluskey) :
    SvtxTrack α :=
  { (SvtxTrack.new : SvtxTrack α) with
    id := 0
    silicon_seed := some ⟨silicon, 0, 1, 3, 4, 0, ⟨0, 0, 0⟩⟩
    tpc_seed := some ⟨tpc, 0, 1, 3, 4, 0, ⟨0, 0, 0⟩⟩
    crossing := 0
    charge := 1
    px := 3
    py := 4
    pz := 0 }

/-- A fitted track whose first fit point lies ahead of the point of closest approach to
the origin: the engine reports the extrapolation lengths 1, -1, -3, ... from the fit points
to the vertex. -/
def exampleFittedAhead : FittedTrack ℚ :=
  ⟨exampleHanded false,
    { exampleGenFit ⟨1, 0, 0⟩ (exampleHanded false) with
      extrapolateToPointFrom := fun _ id => 1 - 2 * (id : ℚ) }⟩

/-- A detector in which the TPC clusters 30 and 31 sit on the same layer 30, and in which
a state reaches the point `p` after the path length `5 p.x / 8`. -/
def exampleSharedLayerEnv : Env ℚ :=
  { exampleEnv ⟨1, 0, 0⟩ with
    getLayer := fun k => if k = 31 then 30 else k
    stateExtrapolateToPoint := fun s p => Except.ok (5 * p.x / 8, { s with pos := p }) }

/-- A state at `pos` with momentum `mom` and unit covariances, over any ordered field. -/
def exampleStateOver {α : Type} [LinearOrderedField α] (pos mom : TVector3 α) :
    MeasuredStateOnPlane α :=
  { state := fun i => (i : α)
    cov := fun i j => if i = j then 1 else 0
    pos := pos
    mom := mom
    cov6 := fun i j => if i = j then 1 else 0
    plane := 0 }

/-- A fitted track without fit points whose extrapolations to the beam line and to the
origin give states at (1, 2, 0) and (1, 2, 3) with momentum `vertexMom`. -/
def exampleVertexFit {α : Type} [LinearOrderedField α] (vertexMom : TVector3 α) :
    FittedTrack α :=
  ⟨⟨211, ⟨0, 0, 0⟩, ⟨100, 0, 0⟩, [], [], []⟩,
    { (exampleBareFit : GenFitTrack α) with
      extrapolateToLine := fun _ _ => Except.ok (some (exampleStateOver ⟨1, 2, 0⟩ vertexMom))
      extrapolateToPoint := fun _ => Except.ok (some (exampleStateOver ⟨1, 2, 3⟩ vertexMom)) }⟩

/-- The 3x3 unit matrix. -/
def exampleUnitCov {α : Type} [LinearOrderedField α] : TMatrixF α :=
  ⟨3, 3, fun i j => if i = j then 1 else 0⟩

/-- An engine result like `exampleGenFit`, in which the backward update of a fit point sits
one unit further along x than its forward update. -/
def exampleGenFitSplit (t : PHGenFitTrack ℚ) : GenFitTrack ℚ :=
  { exampleGenFit ⟨1, 0, 0⟩ t with
    getPointWithMeasurementAndFitterInfo := fun id =>
      (t.measurements[id]?).map (fun m =>
        { getFitterInfo := some
            { getFittedState := Except.ok (exampleState m.pos ⟨1, 0, 0⟩)
              getForwardUpdate := exampleState m.pos ⟨1, 0, 0⟩
              getBackwardUpdate :=
                exampleState ⟨m.pos.x + 1, m.pos.y, m.pos.z⟩ ⟨1, 0, 0⟩ } }) }

/-- A detector in which a state at `s` reaches the point `p` after the signed path length
`(p.x - s.x) + (p.y - s.y)`. -/
def exampleSignedEnv : Env ℚ :=
  { exampleEnv ⟨1, 0, 0⟩ with
    stateExtrapolateToPoint := fun s p =>
      Except.ok ((p.x - s.pos.x) + (p.y - s.pos.y), { s with pos := p }) }

/-- The track `ReFitTrack` builds in the examples from the silicon keys 2, 1 and the TPC
keys 40, 30 when layer 40 is disabled: the measurements of the keys 1, 2 and 30. -/
def exampleHandedInner : PHGenFitTrack ℚ :=
  { pid := 211
    seed_pos := ⟨0, 0, 0⟩
    seed_mom := ⟨0, 0, 100⟩
    seed_cov := List.replicate 6 (List.replicate 6 100)
    measurements :=
      [⟨⟨2, 0, 0⟩, PlaneBasis.uv ⟨1, 0, 0⟩ ⟨0, 1, 0⟩, 1, 1, 1⟩,
       ⟨⟨0, 3, 0⟩, PlaneBasis.uv ⟨1, 0, 0⟩ ⟨0, 1, 0⟩, 1, 1, 2⟩,
       ⟨⟨3, 4, 0⟩, PlaneBasis.normal ⟨3, 4, 0⟩, 1, 1, 30⟩]
    cluster_keys := [1, 2, 30] }

/-- An engine result like `exampleGenFit`, in which the backward update of a fit point at
`(x, y, z)` sits at `(2 * x + 1, y, z)`: the path length of a state extrapolated from a fit
point then depends on the fit point. -/
def exampleGenFitSkew (t : PHGenFitTrack ℚ) : GenFitTrack ℚ :=
  { exampleGenFit ⟨1, 0, 0⟩ t with
    getPointWithMeasurementAndFitterInfo := fun id =>
      (t.measurements[id]?).map (fun m =>
        { getFitterInfo := some
            { getFittedState := Except.ok (exampleState m.pos ⟨1, 0, 0⟩)
              getForwardUpdate := exampleState m.pos ⟨1, 0, 0⟩
              getBackwardUpdate :=
                exampleState ⟨2 * m.pos.x + 1, m.pos.y, m.pos.z⟩ ⟨1, 0, 0⟩ } }) }

/-- A detector with the signed path lengths of `exampleSignedEnv` in which the average of
two states sits half way between them. -/
def exampleBlendEnv : Env ℚ :=
  { exampleSignedEnv with
    calcAverageState := fun a b =>
      Except.ok { a with
        pos := ⟨(a.pos.x + b.pos.x) / 2, (a.pos.y + b.pos.y) / 2, (a.pos.z + b.pos.z) / 2⟩ } }

end Examples

end PHGenFitTrkFitter

/-!
# `TpcRawHitv1`

A shallow embedding of `offline/framework/ffarawobjects/TpcRawHitv1.h`.  The integer
members hold values of their C++ types; the class does no arithmetic on them, so they are
plain numbers here.  A failed `assert` ends the program: the accessor returns `none`.
-/

/-- The data members of `TpcRawHitv1`. -/
structure TpcRawHitv1 where
  bco : Nat
  gtm_bco : Nat
  packetid : Int
  fee : Nat
  channel : Nat
  sampaaddress : Nat
  sampachannel : Nat
  samples : Nat
  adc : List Nat
deriving DecidableEq, Repr

namespace TpcRawHitv1

/-- `std::numeric_limits<uint64_t>::max()`. -/
def UINT64_MAX : Nat := 2 ^ 64 - 1

/-- `std::numeric_limits<int32_t>::max()`. -/
def INT32_MAX : Int := 2 ^ 31 - 1

/-- `std::numeric_limits<uint16_t>::max()`. -/
def UINT16_MAX : Nat := 2 ^ 16 - 1

/-- `TpcRawHitv1() = default`: the default member initialisers, and an empty `adc`. -/
def new : TpcRawHitv1 :=
  { bco := UINT64_MAX, gtm_bco := UINT64_MAX, packetid := INT32_MAX, fee := UINT16_MAX
    channel := UINT16_MAX, sampaaddress := UINT16_MAX, sampachannel := UINT16_MAX
    samples := UINT16_MAX, adc := [] }

/-- `std::vector::resize(count, value)`: the first `count` elements are kept, and copies of
`value` are appended up to the length `count`. -/
def resize (v : List Nat) (count value : Nat) : List Nat :=
  v.take count ++ List.replicate (count - v.length) value

/-- `get_bco`. -/
def get_bco (h : TpcRawHitv1) : Nat := h.bco

/-- `set_bco`. -/
def set_bco (h : TpcRawHitv1) (val : Nat) : TpcRawHitv1 := { h with bco := val }

/-- `get_gtm_bco`. -/
def get_gtm_bco (h : TpcRawHitv1) : Nat := h.gtm_bco

/-- `set_gtm_bco`. -/
def set_gtm_bco (h : TpcRawHitv1) (val : Nat) : TpcRawHitv1 := { h with gtm_bco := val }

/-- `get_packetid`. -/
def get_packetid (h : TpcRawHitv1) : Int := h.packetid

/-- `set_packetid`. -/
def set_packetid (h : TpcRawHitv1) (val : Int) : TpcRawHitv1 := { h with packetid := val }

/-- `get_fee`. -/
def get_fee (h : TpcRawHitv1) : Nat := h.fee

/-- `set_fee`. -/
def set_fee (h : TpcRawHitv1) (val : Nat) : TpcRawHitv1 := { h with fee := val }

/-- `get_channel`. -/
def get_channel (h : TpcRawHitv1) : Nat := h.channel

/-- `set_channel`. -/
def set_channel (h : TpcRawHitv1) (val : Nat) : TpcRawHitv1 := { h with channel := val }

/-- `get_sampaaddress`. -/
def get_sampaaddress (h : TpcRawHitv1) : Nat := h.sampaaddress

/-- `set_sampaaddress`. -/
def set_sampaaddress (h : TpcRawHitv1) (val : Nat) : TpcRawHitv1 :=
  { h with sampaaddress := val }

/-- `get_sampachannel`. -/
def get_sampachannel (h : TpcRawHitv1) : Nat := h.sampachannel

/-- `set_sampachannel`. -/
def set_sampachannel (h : TpcRawHitv1) (val : Nat) : TpcRawHitv1 :=
  { h with sampachannel := val }

/-- `get_samples`. -/
def get_samples (h : TpcRawHitv1) : Nat := h.samples

/-- `set_samples`: the count is stored and the `adc` vector resized to it, new entries 0. -/
def set_samples (h : TpcRawHitv1) (val : Nat) : TpcRawHitv1 :=
  { h with samples := val, adc := resize h.adc val 0 }

/-- `get_adc`: `assert(sample < adc.size())`, then `adc[sample]`. -/
def get_adc (h : TpcRawHitv1) (sample : Nat) : Option Nat :=
  if sample < h.adc.length then h.adc[sample]? else none

/-- `set_adc`: `assert(sample < adc.size())`, then `adc[sample] = val`. -/
def set_adc (h : TpcRawHitv1) (sample val : Nat) : Option TpcRawHitv1 :=
  if sample < h.adc.length then some { h with adc := h.adc.set sample val } else none

/-- A call of one of the setters of `TpcRawHitv1`, with its arguments. -/
inductive Setter where
  | bco (val : Nat)
  | gtm_bco (val : Nat)
  | packetid (val : Int)
  | fee (val : Nat)
  | channel (val : Nat)
  | sampaaddress (val : Nat)
  | sampachannel (val : Nat)
  | samples (val : Nat)
  | adc (sample val : Nat)
deriving DecidableEq, Repr

/-- The hit after one setter call; `none` when the call fails its assertion. -/
def call (h : TpcRawHitv1) : Setter → Option TpcRawHitv1
  | Setter.bco val => some (h.set_bco val)
  | Setter.gtm_bco val => some (h.set_gtm_bco val)
  | Setter.packetid val => some (h.set_packetid val)
  | Setter.fee val => some (h.set_fee val)
  | Setter.channel val => some (h.set_channel val)
  | Setter.sampaaddress val => some (h.set_sampaaddress val)
  | Setter.sampachannel val => some (h.set_sampachannel val)
  | Setter.samples val => some (h.set_samples val)
  | Setter.adc sample val => h.set_adc sample val

/-- The hit after a sequence of setter calls, as long as none fails its assertion. -/
def calls (h : TpcRawHitv1) : List Setter → Option TpcRawHitv1
  | [] => some h
  | c :: rest =>
    match h.call c with
    | some h2 => h2.calls rest
    | none => none

end TpcRawHitv1

/-!
# `PHNodeReset`

A shallow embedding of `offline/framework/phool/PHNodeReset.cc`.  `PHNode` and `PHObject`
are not among the sources: what `perform` reads of the node are the fields of `PHNode`, and
`PHObject::Reset` is a parameter.
-/

/-- What `PHNodeReset::perform` reads of a `PHNode`, and the data object the node holds. -/
structure PHNode (σ : Type) where
  getName : String
  getType : String
  getObjectType : String
  getResetFlag : Bool
  getData : σ

namespace PHNodeReset

/-- What a call of `perform` leaves behind: the node, the number of `Reset` calls made on
its data, and the lines written to `std::cout`. -/
structure Outcome (σ : Type) where
  node : PHNode σ
  reset_calls : Nat
  cout : List String

/-- `PHNodeReset::perform`. -/
def perform {σ : Type} (verbosity : Int) (Reset : σ → σ) (node : PHNode σ) : Outcome σ :=
  if !node.getResetFlag then ⟨node, 0, []⟩
  else
    let cout : List String :=
      if verbosity > 0 then ["PHNodeReset: Resetting " ++ node.getName] else []
    if node.getType = "PHDataNode" ∨ node.getType = "PHIODataNode" then
      if node.getObjectType = "PHObject" then
        ⟨{ node with getData := Reset node.getData }, 1, cout⟩
      else ⟨node, 0, cout⟩
    else ⟨node, 0, cout⟩

end PHNodeReset

/-!
# `FastJetAlgo`

A shallow embedding of `offline/packages/jetbase/FastJetAlgo.cc`.  The kinematics of a
particle are values of `Real64 α`, which may be infinite or not-a-number.  The fastjet
library and the jet container are collaborators: the fields of `Engine`, and the log of
the calls made on the container.  Indices are unbounded numbers; printing is left out.
-/

/-- The values of `Jet::ALGO` that the source names, and the others. -/
inductive FastJetAlgo.ALGO where
  | ANTIKT
  | KT
  | CAMBRIDGE
  | other
deriving DecidableEq, Repr

/-- The values of `Jet::SORT` that the source names, and the others. -/
inductive FastJetAlgo.SORT where
  | NO_SORT
  | PT
  | E
  | ETA
  | other
deriving DecidableEq, Repr

/-- The member variables of `FastJetAlgo` that `cluster_and_fill` and `get_jets` use. -/
structure FastJetAlgo (α : Type) where
  m_AlgoFlag : FastJetAlgo.ALGO
  m_Par : α
  m_SDFlag : Bool
  m_SDBeta : α
  m_SDZCut : α
  m_whichsort : FastJetAlgo.SORT
  m_first_cluster_call : Bool
  m_JetAreaFlag : Bool
  m_GhostMaxRap : α
  m_GhostArea : α
  m_RhoMedianFlag : Bool
  m_RapCutHardest : α
  m_CutNHardest : Nat
  m_zg_index : Nat
  m_Rg_index : Nat
  m_mu_index : Nat
  m_area_index : Nat

namespace FastJetAlgo

/-- A `float` or `double`: a number, an infinity, or not-a-number. -/
inductive Real64 (α : Type) where
  | finite (x : α) : Real64 α
  | inf (negative : Bool) : Real64 α
  | nan : Real64 α
deriving DecidableEq, Repr

/-- `std::isfinite`. -/
def Real64.isfinite {α : Type} : Real64 α → Bool
  | Real64.finite _ => true
  | Real64.inf _ => false
  | Real64.nan => false

/-- The comparison `d == 0.`. -/
def Real64.isZero {α : Type} [LinearOrderedField α] : Real64 α → Bool
  | Real64.finite x => decide (x = 0)
  | Real64.inf _ => false
  | Real64.nan => false

/-- The values of `Jet::PROPERTY` that the source names. -/
inductive PROPERTY where
  | prop_zg
  | prop_Rg
  | prop_mu
  | prop_area
deriving DecidableEq, Repr

/-- What the two functions read of an input `Jet`: its kinematics and, through
`begin_comp()` .. `end_comp()`, its components (source, id). -/
structure Jet (α : Type) where
  get_px : Real64 α
  get_py : Real64 α
  get_pz : Real64 α
  get_e : Real64 α
  comps : List (Nat × Nat)
deriving DecidableEq, Repr

/-- A `fastjet::PseudoJet` as the translation loop builds it. -/
structure PseudoJet (α : Type) where
  px : Real64 α
  py : Real64 α
  pz : Real64 α
  E : Real64 α
  user_index : Int
deriving DecidableEq, Repr

/-- A constituent of a clustered jet, as `constituents()` returns it. -/
structure Constituent where
  user_index : Int
  is_pure_ghost : Bool
deriving DecidableEq, Repr

/-- A jet as the clustering engine returns it. -/
structure ClusteredJet (α : Type) where
  px : α
  py : α
  pz : α
  e : α
  perp : α
  area : α
  is_pure_ghost : Bool
  constituents : List Constituent
deriving DecidableEq, Repr

/-- What `structure_of<SoftDrop>()` exposes of a groomed jet. -/
structure SoftDropInfo (α : Type) where
  symmetry : α
  delta_R : α
  mu : α

/-- The fastjet library and the queries on the jet container. -/
structure Engine (α : Type) where
  inclusive_jets : ALGO → α → List (PseudoJet α) → List (ClusteredJet α)
  inclusive_jets_area : ALGO → α → α → α → List (PseudoJet α) → List (ClusteredJet α)
  sorted_by_pt : List (ClusteredJet α) → List (ClusteredJet α)
  sorted_by_E : List (ClusteredJet α) → List (ClusteredJet α)
  sorted_by_rapidity : List (ClusteredJet α) → List (ClusteredJet α)
  rho : α → Nat → α → α → α → List (PseudoJet α) → α
  softDrop : α → α → ClusteredJet α → SoftDropInfo α
  find_prop_index : PROPERTY → Nat

/-- The ways the two functions end other than by returning. -/
inductive Fault where
  | exit (code : Int)
  | assert_false
  | no_fastjet
  | bad_user_index (index : Int)
deriving DecidableEq, Repr

/-- A call made on the `JetContainer`; `add_jet` stands for `add_jet()` and the five
setters called on the jet it returns. -/
inductive ContCall (α : Type) where
  | add_property (props : List PROPERTY) : ContCall α
  | set_sorted_by (sort : SORT) (flag : Bool) : ContCall α
  | set_rho_median (rho : α) : ContCall α
  | add_jet (px py pz e : α) (id : Nat) : ContCall α
  | set_prop_by_index (index : Nat) (value : α) : ContCall α
  | add_component (src id : Nat) : ContCall α
deriving DecidableEq, Repr

/-- A `Jetv1` as `get_jets` fills it. -/
structure OutJet (α : Type) where
  px : α
  py : α
  pz : α
  e : α
  id : Nat
  properties : List (PROPERTY × α)
  comps : List (Nat × Nat)
deriving DecidableEq, Repr

section Functions

variable {α : Type} [LinearOrderedField α]

/-- The loop `// translate to fastjet`, written out alike in `cluster_and_fill` and in
`get_jets`: the particles from index `ipart` on are still to come, `pseudojets` is what
has been pushed back so far.  `gSystem->Exit(1)` ends the program. -/
def translateLoop : Nat → List (Jet α) → List (PseudoJet α) → Except Fault (List (PseudoJet α))
  | _, [], pseudojets => Except.ok pseudojets
  | ipart, particle :: rest, pseudojets =>
    if particle.get_e.isZero then translateLoop (ipart + 1) rest pseudojets
    else if !particle.get_px.isfinite || !particle.get_py.isfinite ||
        !particle.get_pz.isfinite || !particle.get_e.isfinite then
      Except.error (Fault.exit 1)
    else
      let pseudojet : PseudoJet α :=
        ⟨particle.get_px, particle.get_py, particle.get_pz, particle.get_e, (ipart : Int)⟩
      translateLoop (ipart + 1) rest (pseudojets ++ [pseudojet])

/-- The translation of the input particles to pseudojets. -/
def toPseudoJets (particles : List (Jet α)) : Except Fault (List (PseudoJet α)) :=
  translateLoop 0 particles []

/-- The lookup `particles[comp.user_index()]`; an index outside the vector is a fault. -/
def particleAt (particles : List (Jet α)) (user_index : Int) : Except Fault (Jet α) :=
  if 0 ≤ user_index then
    match particles[user_index.toNat]? with
    | some particle => Except.ok particle
    | none => Except.error (Fault.bad_user_index user_index)
  else Except.error (Fault.bad_user_index user_index)

/-- The loop `// copy components into output jet` of `fillJetContainer`: the components
copied for the constituents `comps`, pure ghosts passed over. -/
def copyComponents (particles : List (Jet α)) :
    List Constituent → Except Fault (List (Nat × Nat))
  | [] => Except.ok []
  | comp :: rest =>
    if comp.is_pure_ghost then copyComponents particles rest
    else
      match particleAt particles comp.user_index with
      | Except.error f => Except.error f
      | Except.ok particle =>
        match copyComponents particles rest with
        | Except.error f => Except.error f
        | Except.ok more => Except.ok (particle.comps ++ more)

/-- The loop `// copy components into output jet` of `get_jets`, which looks at every
constituent. -/
def copyAllComponents (particles : List (Jet α)) :
    List Constituent → Except Fault (List (Nat × Nat))
  | [] => Except.ok []
  | comp :: rest =>
    match particleAt particles comp.user_index with
    | Except.error f => Except.error f
    | Except.ok particle =>
      match copyAllComponents particles rest with
      | Except.error f => Except.error f
      | Except.ok more => Except.ok (particle.comps ++ more)

/-- One pass of the loop of `fillJetContainer`, for `fastjets[ijet]`: the calls it makes
on the container. -/
def fillJet (m : FastJetAlgo α) (eng : Engine α) (particles : List (Jet α)) (ijet : Nat)
    (fastjet : ClusteredJet α) : Except Fault (List (ContCall α)) :=
  if fastjet.is_pure_ghost then Except.ok []
  else
    let jet : List (ContCall α) :=
      [ContCall.add_jet fastjet.px fastjet.py fastjet.pz fastjet.e ijet]
    let area : List (ContCall α) :=
      if m.m_JetAreaFlag then [ContCall.set_prop_by_index m.m_area_index fastjet.area] else []
    let sd : List (ContCall α) :=
      if m.m_SDFlag && decide (5 < fastjet.perp) then
        let sd_jet := eng.softDrop m.m_SDBeta m.m_SDZCut fastjet
        [ContCall.set_prop_by_index m.m_zg_index sd_jet.symmetry,
         ContCall.set_prop_by_index m.m_Rg_index sd_jet.delta_R,
         ContCall.set_prop_by_index m.m_mu_index sd_jet.mu]
      else []
    match copyComponents particles fastjet.constituents with
    | Except.error f => Except.error f
    | Except.ok comps =>
      Except.ok (jet ++ area ++ sd ++ comps.map (fun c => ContCall.add_component c.1 c.2))

/-- The loop of `fillJetContainer` from `fastjets[ijet]` on. -/
def fillLoop (m : FastJetAlgo α) (eng : Engine α) (particles : List (Jet α)) :
    Nat → List (ClusteredJet α) → Except Fault (List (ContCall α))
  | _, [] => Except.ok []
  | ijet, fastjet :: rest =>
    match fillJet m eng particles ijet fastjet with
    | Except.error f => Except.error f
    | Except.ok calls =>
      match fillLoop m eng particles (ijet + 1) rest with
      | Except.error f => Except.error f
      | Except.ok more => Except.ok (calls ++ more)

/-- `FastJetAlgo::fillJetContainer`: the calls it makes on the container. -/
def fillJetContainer (m : FastJetAlgo α) (eng : Engine α) (fastjets : List (ClusteredJet α))
    (particles : List (Jet α)) : Except Fault (List (ContCall α)) :=
  fillLoop m eng particles 0 fastjets

/-- The block `if (m_first_cluster_call) { ... }` of `cluster_and_fill`: the members
afterwards and the calls made on the container. -/
def firstCall (m : FastJetAlgo α) (eng : Engine α) : FastJetAlgo α × List (ContCall α) :=
  if m.m_first_cluster_call then
    let m1 : FastJetAlgo α := { m with m_first_cluster_call := false }
    let sdCalls : List (ContCall α) :=
      if m1.m_SDFlag then
        [ContCall.add_property [PROPERTY.prop_zg, PROPERTY.prop_Rg, PROPERTY.prop_mu]]
      else []
    let m2 : FastJetAlgo α :=
      if m1.m_SDFlag then
        { m1 with
          m_zg_index := eng.find_prop_index PROPERTY.prop_zg
          m_Rg_index := eng.find_prop_index PROPERTY.prop_Rg
          m_mu_index := eng.find_prop_index PROPERTY.prop_mu }
      else m1
    let areaCalls : List (ContCall α) :=
      if m2.m_JetAreaFlag then [ContCall.add_property [PROPERTY.prop_area]] else []
    let m3 : FastJetAlgo α :=
      if m2.m_JetAreaFlag then
        { m2 with m_area_index := eng.find_prop_index PROPERTY.prop_area }
      else m2
    let m4 : FastJetAlgo α :=
      if m3.m_JetAreaFlag ∧ m3.m_GhostMaxRap = 0 then
        { m3 with m_GhostMaxRap := 1.1 - m3.m_Par }
      else m3
    let m5 : FastJetAlgo α :=
      if m4.m_RhoMedianFlag ∧ m4.m_RapCutHardest = 0 then
        { m4 with m_RapCutHardest := 1.1 - m4.m_Par }
      else m4
    if m5.m_whichsort ≠ SORT.NO_SORT then
      if m5.m_whichsort = SORT.PT ∨ m5.m_whichsort = SORT.ETA ∨ m5.m_whichsort = SORT.E then
        (m5, sdCalls ++ areaCalls ++ [ContCall.set_sorted_by m5.m_whichsort true])
      else ({ m5 with m_whichsort := SORT.NO_SORT }, sdCalls ++ areaCalls)
    else (m5, sdCalls ++ areaCalls)
  else (m, [])

/-- The block `// -- make the inclusive jets --`: the jets in the order asked for. -/
def sortJets (m : FastJetAlgo α) (eng : Engine α) (jets : List (ClusteredJet α)) :
    Except Fault (List (ClusteredJet α)) :=
  match m.m_whichsort with
  | SORT.NO_SORT => Except.ok jets
  | SORT.PT => Except.ok (eng.sorted_by_pt jets)
  | SORT.E => Except.ok (eng.sorted_by_E jets)
  | SORT.ETA => Except.ok (eng.sorted_by_rapidity jets)
  | SORT.other => Except.error Fault.assert_false

/-- The part of `cluster_and_fill` from `// run fast jet` on, for the members `m` and the
container calls `firstCalls` left by the first-call block and the translated `pseudojets`. -/
def clusterFrom (m : FastJetAlgo α) (firstCalls : List (ContCall α)) (eng : Engine α)
    (particles : List (Jet α)) (pseudojets : List (PseudoJet α)) :
    Except Fault (FastJetAlgo α × List (ContCall α)) :=
  if m.m_AlgoFlag = ALGO.other then Except.ok (m, firstCalls)
  else if m.m_JetAreaFlag then
    match sortJets m eng
        (eng.inclusive_jets_area m.m_AlgoFlag m.m_Par m.m_GhostMaxRap m.m_GhostArea
          pseudojets) with
    | Except.error f => Except.error f
    | Except.ok fastjets =>
      let rhoCalls : List (ContCall α) :=
        if m.m_RhoMedianFlag then
          [ContCall.set_rho_median
            (eng.rho m.m_RapCutHardest m.m_CutNHardest m.m_Par m.m_GhostMaxRap m.m_GhostArea
              pseudojets)]
        else []
      match fastjets with
      | [] => Except.error Fault.no_fastjet
      | _ :: _ =>
        match fillJetContainer m eng fastjets particles with
        | Except.error f => Except.error f
        | Except.ok calls => Except.ok (m, firstCalls ++ rhoCalls ++ calls)
  else
    match sortJets m eng (eng.inclusive_jets m.m_AlgoFlag m.m_Par pseudojets) with
    | Except.error f => Except.error f
    | Except.ok fastjets =>
      match fillJetContainer m eng fastjets particles with
      | Except.error f => Except.error f
      | Except.ok calls => Except.ok (m, firstCalls ++ calls)

/-- `FastJetAlgo::cluster_and_fill`: the members afterwards and the calls made on the
container, or the fault that ends the program. -/
def cluster_and_fill (m : FastJetAlgo α) (eng : Engine α) (particles : List (Jet α)) :
    Except Fault (FastJetAlgo α × List (ContCall α)) :=
  let first := firstCall m eng
  match toPseudoJets particles with
  | Except.error f => Except.error f
  | Except.ok pseudojets => clusterFrom first.1 first.2 eng particles pseudojets

/-- One pass of the loop `// translate into jet output...` of `get_jets`. -/
def outJet (m : FastJetAlgo α) (eng : Engine α) (particles : List (Jet α)) (ijet : Nat)
    (fastjet : ClusteredJet α) : Except Fault (OutJet α) :=
  let properties : List (PROPERTY × α) :=
    if m.m_SDFlag && decide (5 < fastjet.perp) then
      let sd_jet := eng.softDrop m.m_SDBeta m.m_SDZCut fastjet
      [(PROPERTY.prop_zg, sd_jet.symmetry), (PROPERTY.prop_Rg, sd_jet.delta_R),
       (PROPERTY.prop_mu, sd_jet.mu)]
    else []
  match copyAllComponents particles fastjet.constituents with
  | Except.error f => Except.error f
  | Except.ok comps =>
    Except.ok ⟨fastjet.px, fastjet.py, fastjet.pz, fastjet.e, ijet, properties, comps⟩

/-- The loop `// translate into jet output...` of `get_jets` from `fastjets[ijet]` on. -/
def outLoop (m : FastJetAlgo α) (eng : Engine α) (particles : List (Jet α)) :
    Nat → List (ClusteredJet α) → Except Fault (List (OutJet α))
  | _, [] => Except.ok []
  | ijet, fastjet :: rest =>
    match outJet m eng particles ijet fastjet with
    | Except.error f => Except.error f
    | Except.ok jet =>
      match outLoop m eng particles (ijet + 1) rest with
      | Except.error f => Except.error f
      | Except.ok more => Except.ok (jet :: more)

/-- The part of `get_jets` from `// run fast jet` on, for the translated `pseudojets`. -/
def jetsFrom (m : FastJetAlgo α) (eng : Engine α) (particles : List (Jet α))
    (pseudojets : List (PseudoJet α)) : Except Fault (List (OutJet α)) :=
  if m.m_AlgoFlag = ALGO.other then Except.ok []
  else outLoop m eng particles 0 (eng.inclusive_jets m.m_AlgoFlag m.m_Par pseudojets)

/-- `FastJetAlgo::get_jets`. -/
def get_jets (m : FastJetAlgo α) (eng : Engine α) (particles : List (Jet α)) :
    Except Fault (List (OutJet α)) :=
  match toPseudoJets particles with
  | Except.error f => Except.error f
  | Except.ok pseudojets => jetsFrom m eng particles pseudojets

/-- The input particles with non-zero energy, in input order, each as a pseudojet tagged
with its position in the input vector. -/
def expectedPseudoJets (particles : List (Jet α)) : List (PseudoJet α) :=
  (particles.enum.filter (fun ip => !ip.2.get_e.isZero)).map
    (fun ip => ⟨ip.2.get_px, ip.2.get_py, ip.2.get_pz, ip.2.get_e, (ip.1 : Int)⟩)

/-- All four components of the particle are finite. -/
def Jet.finite (particle : Jet α) : Bool :=
  particle.get_px.isfinite && particle.get_py.isfinite && particle.get_pz.isfinite &&
    particle.get_e.isfinite

end Functions

/-- Members for the examples: anti-kt, no areas, no SoftDrop, no sorting. -/
def exampleAlgo : FastJetAlgo ℚ :=
  { m_AlgoFlag := ALGO.ANTIKT, m_Par := 2 / 5, m_SDFlag := false, m_SDBeta := 0
    m_SDZCut := 1 / 10, m_whichsort := SORT.NO_SORT, m_first_cluster_call := true
    m_JetAreaFlag := false, m_GhostMaxRap := 0, m_GhostArea := 1 / 100
    m_RhoMedianFlag := false, m_RapCutHardest := 0, m_CutNHardest := 2
    m_zg_index := 0, m_Rg_index := 0, m_mu_index := 0, m_area_index := 0 }

/-- An engine for the examples: it puts all pseudojets into one jet. -/
def exampleEngine : Engine ℚ :=
  { inclusive_jets := fun _ _ pseudojets =>
      [⟨1, 1, 0, 5, 1, 0, false, pseudojets.map (fun pj => ⟨pj.user_index, false⟩)⟩]
    inclusive_jets_area := fun _ _ _ _ pseudojets =>
      [⟨1, 1, 0, 5, 1, 1, false, pseudojets.map (fun pj => ⟨pj.user_index, false⟩)⟩]
    sorted_by_pt := fun jets => jets
    sorted_by_E := fun jets => jets
    sorted_by_rapidity := fun jets => jets
    rho := fun _ _ _ _ _ _ => 0
    softDrop := fun _ _ _ => ⟨0, 0, 0⟩
    find_prop_index := fun _ => 0 }

/-- Three input particles, the second with zero energy. -/
def exampleParticles : List (Jet ℚ) :=
  [⟨Real64.finite 1, Real64.finite 0, Real64.finite 0, Real64.finite 2, [(1, 7)]⟩,
   ⟨Real64.finite 0, Real64.finite 0, Real64.finite 0, Real64.finite 0, [(1, 8)]⟩,
   ⟨Real64.finite 0, Real64.finite 1, Real64.finite 0, Real64.finite 3, [(1, 9)]⟩]

end FastJetAlgo

namespace PHGenFitTrkFitter

/-! ## Properties of `ReFitTrack` -/

section ReFitProofs

variable {α : Type} [LinearOrderedField α]

theorem mem_emplace {κ ν : Type} [LinearOrder κ] {k : κ} {v : ν} {l : List (κ × ν)}
    {x : κ × ν} (hx : x ∈ emplace k v l) : x = (k, v) ∨ x ∈ l := by
  induction l with
  | nil => simpa [emplace] using hx
  | cons e rest ih =>
    unfold emplace at hx
    split_ifs at hx with h1 h2
    · rcases List.mem_cons.1 hx with h | h
      · exact Or.inl h
      · exact Or.inr h
    · rcases List.mem_cons.1 hx with h | h
      · exact Or.inr (h ▸ List.mem_cons_self _ _)
      · rcases ih h with h3 | h3
        · exact Or.inl h3
        · exact Or.inr (List.mem_cons_of_mem _ h3)
    · exact Or.inr hx

theorem emplace_keys_sorted {κ ν : Type} [LinearOrder κ] (k : κ) (v : ν) (l : List (κ × ν))
    (h : l.Pairwise (fun a b => a.1 < b.1)) :
    (emplace k v l).Pairwise (fun a b => a.1 < b.1) := by
  induction l with
  | nil => simp [emplace]
  | cons e rest ih =>
    have hrest := (List.pairwise_cons.1 h).2
    have hhead := (List.pairwise_cons.1 h).1
    unfold emplace
    split_ifs with h1 h2
    · refine List.pairwise_cons.2 ⟨?_, h⟩
      intro x hx
      rcases List.mem_cons.1 hx with hx | hx
      · simpa [hx] using h1
      · exact lt_trans h1 (hhead x hx)
    · refine List.pairwise_cons.2 ⟨?_, ih hrest⟩
      intro x hx
      rcases mem_emplace hx with hx | hx
      · simpa [hx] using h2
      · exact hhead x hx
    · exact h

/-- The radius map after the first loop: sorted by key, and every entry files a key of the
candidate under the radius of its cluster. -/
theorem scanClusters_map (env : Env α) (crossing : Int) (keys : List cluskey) :
    (scanClusters env crossing keys).m_r_cluster_id.Pairwise (fun a b => a.1 < b.1) ∧
    ∀ e ∈ (scanClusters env crossing keys).m_r_cluster_id,
      e.1 = clusterRadius env crossing e.2 ∧ e.2 ∈ keys := by
  have key : ∀ (l : List cluskey) (st : ClusterScan α) (done : List cluskey),
      (st.m_r_cluster_id.Pairwise (fun a b => a.1 < b.1) ∧
        ∀ e ∈ st.m_r_cluster_id, e.1 = clusterRadius env crossing e.2 ∧ e.2 ∈ done) →
      ((l.foldl (scanCluster env crossing) st).m_r_cluster_id.Pairwise
          (fun a b => a.1 < b.1) ∧
        ∀ e ∈ (l.foldl (scanCluster env crossing) st).m_r_cluster_id,
          e.1 = clusterRadius env crossing e.2 ∧ e.2 ∈ done ++ l) := by
    intro l
    induction l with
    | nil => intro st done h; simpa using h
    | cons k rest ih =>
      intro st done h
      have hstep : (scanCluster env crossing st k).m_r_cluster_id =
          emplace (clusterRadius env crossing k) k st.m_r_cluster_id := by
        unfold scanCluster
        cases env.getTrkrId k <;> rfl
      have := ih (scanCluster env crossing st k) (done ++ [k]) (by
        rw [hstep]
        refine ⟨emplace_keys_sorted _ _ _ h.1, ?_⟩
        intro e he
        rcases mem_emplace he with he | he
        · subst he; simp
        · exact ⟨(h.2 e he).1, List.mem_append_left _ (h.2 e he).2⟩)
      simpa using this
  simpa [scanClusters] using key keys ⟨0, 0, []⟩ [] (by simp)

theorem makeMeasurement_cluster_key (env : Env α) (k : cluskey) (c : TrkrCluster α)
    (p : TVector3 α) : (makeMeasurement env k c p).cluster_key = k := by
  unfold makeMeasurement
  cases env.getTrkrId k <;> rfl

theorem makeMeasurement_pos (env : Env α) (k : cluskey) (c : TrkrCluster α)
    (p : TVector3 α) : (makeMeasurement env k c p).pos = p := by
  unfold makeMeasurement
  cases env.getTrkrId k <;> rfl

/-- The second loop builds, in map order, the measurement of each entry that has one. -/
theorem buildMeasurements_eq (cfg : Config α) (env : Env α) (crossing : Int)
    (seed_mom : TVector3 α) (m : List (α × cluskey)) :
    (buildMeasurements cfg env crossing seed_mom m).measurements =
      m.filterMap (measurementOf cfg env crossing) := by
  have key : ∀ (l : List (α × cluskey)) (st : MeasurementBuild α),
      (l.foldl (buildStep cfg env crossing) st).measurements =
        st.measurements ++ l.filterMap (measurementOf cfg env crossing) := by
    intro l
    induction l with
    | nil => intro st; simp
    | cons e rest ih =>
      intro st
      rw [List.foldl_cons, ih]
      unfold buildStep measurementOf
      by_cases hd : (env.getLayer e.2 : Int) ∈ cfg._disabled_layers
      · simp [hd, List.filterMap_cons]
      · cases hc : env.findCluster e.2 with
        | none => simp [hd, hc, List.filterMap_cons]
        | some c => simp [hd, hc, List.filterMap_cons]
  simpa [buildMeasurements] using key m ⟨seed_mom, []⟩

theorem measurementOf_spec (cfg : Config α) (env : Env α) (crossing : Int)
    (e : α × cluskey) (m : Measurement α) (h : measurementOf cfg env crossing e = some m) :
    m.cluster_key = e.2 ∧ m.pos = clusterPosition env crossing e.2 ∧
      (env.getLayer e.2 : Int) ∉ cfg._disabled_layers ∧ (env.findCluster e.2).isSome := by
  unfold measurementOf at h
  by_cases hd : (env.getLayer e.2 : Int) ∈ cfg._disabled_layers
  · simp [hd] at h
  · cases hc : env.findCluster e.2 with
    | none => simp [hd, hc] at h
    | some c =>
      simp [hd, hc] at h
      subst h
      refine ⟨makeMeasurement_cluster_key _ _ _ _, ?_, hd, by simp⟩
      rw [makeMeasurement_pos]
      simp [clusterPosition, hc]

/-- The tracks `ReFitTrack` passes to the engine: none on rejection, otherwise the one it
built from the radius map. -/
theorem ReFitTrack_calls (cfg : Config α) (env : Env α) (intrack : SvtxTrack α)
    (t : PHGenFitTrack α)
    (ht : t ∈ (ReFitTrack cfg env (some intrack)).processTrack_calls) :
    t.measurements =
      (scanClusters env intrack.crossing (get_cluster_keys intrack)).m_r_cluster_id.filterMap
        (measurementOf cfg env intrack.crossing) := by
  unfold ReFitTrack at ht
  simp only at ht
  split_ifs at ht with h1 h2 h3
  · simp at ht
  · simp at ht
  · simp at ht
    subst ht
    simp [PHGenFitTrack.addMeasurements, buildMeasurements_eq]
  · simp at ht
    subst ht
    simp [PHGenFitTrack.addMeasurements, buildMeasurements_eq]

end ReFitProofs

section ReFitClaims

variable {α : Type} [LinearOrderedField α]

/-- The counters of the first loop are the numbers of silicon and of Micromegas keys. -/
theorem scanClusters_counts (env : Env α) (crossing : Int) (keys : List cluskey) :
    (scanClusters env crossing keys).n_silicon_clusters = keys.countP (isSilicon env) ∧
    (scanClusters env crossing keys).n_micromegas_clusters = keys.countP (isMicromegas env) := by
  have key : ∀ (l : List cluskey) (st : ClusterScan α),
      (l.foldl (scanCluster env crossing) st).n_silicon_clusters =
        st.n_silicon_clusters + l.countP (isSilicon env) ∧
      (l.foldl (scanCluster env crossing) st).n_micromegas_clusters =
        st.n_micromegas_clusters + l.countP (isMicromegas env) := by
    intro l
    induction l with
    | nil => intro st; simp
    | cons k rest ih =>
      intro st
      rw [List.foldl_cons]
      obtain ⟨h1, h2⟩ := ih (scanCluster env crossing st k)
      rw [h1, h2]
      unfold scanCluster
      cases hid : env.getTrkrId k <;>
        simp [List.countP_cons, isSilicon, isMicromegas, hid] <;> omega
  simpa [scanClusters] using key keys ⟨0, 0, []⟩

/-- When the rejection checks let the candidate through, `ReFitTrack` calls the engine
once, on the track it built, and returns the processed track exactly on status 0. -/
theorem ReFitTrack_pass (cfg : Config α) (env : Env α) (intrack : SvtxTrack α)
    (hpass : ¬(cfg.m_fit_silicon_mms = true ∧
      ((get_cluster_keys intrack).countP (isSilicon env) = 0 ∨
        (cfg.m_use_micromegas = true ∧
          (get_cluster_keys intrack).countP (isMicromegas env) = 0)))) :
    ∃ t, (ReFitTrack cfg env (some intrack)).processTrack_calls = [t] ∧
      ((ReFitTrack cfg env (some intrack)).track =
        if (env.processTrack t).1 = 0 then some ⟨t, (env.processTrack t).2⟩ else none) := by
  obtain ⟨hs, hm⟩ := scanClusters_counts env intrack.crossing (get_cluster_keys intrack)
  unfold ReFitTrack
  simp only
  rw [hs, hm]
  split_ifs with h1 h2 h3
  · exfalso
    simp only [Bool.and_eq_true, decide_eq_true_eq] at h1
    exact hpass ⟨h1.1, Or.inl h1.2⟩
  · exfalso
    simp only [Bool.and_eq_true, decide_eq_true_eq] at h2
    exact hpass ⟨h2.1, Or.inr h2.2⟩
  · exact ⟨_, rfl, (if_neg h3).symm⟩
  · exact ⟨_, rfl, (if_pos (not_not.1 h3)).symm⟩

/-- C1: the measurements `ReFitTrack` hands to the engine sit at the corrected global
positions of their clusters and come in order of non-decreasing radial distance
`get_r(x, y)` from the beam axis, whatever the order of the keys in the two seeds. -/
theorem ReFitTrack_measurements_sorted_by_radius (cfg : Config α) (env : Env α)
    (intrack : SvtxTrack α) (t : PHGenFitTrack α)
    (ht : t ∈ (ReFitTrack cfg env (some intrack)).processTrack_calls) :
    (∀ m ∈ t.measurements, m.pos = clusterPosition env intrack.crossing m.cluster_key) ∧
    (t.measurements.map (fun m => get_r env.F m.pos.x m.pos.y)).Pairwise (· ≤ ·) := by
  have hmeas := ReFitTrack_calls cfg env intrack t ht
  obtain ⟨hsorted, hentries⟩ :=
    scanClusters_map env intrack.crossing (get_cluster_keys intrack)
  refine ⟨?_, ?_⟩
  · intro m hm
    rw [hmeas] at hm
    obtain ⟨e, -, he⟩ := List.mem_filterMap.1 hm
    obtain ⟨hk, hp, -, -⟩ := measurementOf_spec cfg env intrack.crossing e m he
    rw [hp, hk]
  · rw [hmeas, List.pairwise_map, List.pairwise_filterMap]
    refine List.Pairwise.imp_of_mem ?_ hsorted
    intro a b ha hb hab m hm m2 hm2
    obtain ⟨hk, hp, -, -⟩ := measurementOf_spec cfg env intrack.crossing a m hm
    obtain ⟨hk2, hp2, -, -⟩ := measurementOf_spec cfg env intrack.crossing b m2 hm2
    have h1 := (hentries a ha).1
    have h2 := (hentries b hb).1
    have e1 : get_r env.F m.pos.x m.pos.y = a.1 := by rw [hp, h1]; rfl
    have e2 : get_r env.F m2.pos.x m2.pos.y = b.1 := by rw [hp2, h2]; rfl
    rw [e1, e2]
    exact le_of_lt hab

/-- C3: no measurement `ReFitTrack` hands to the engine carries the key of a cluster whose
layer is in the disabled set. -/
theorem ReFitTrack_skips_disabled_layers (cfg : Config α) (env : Env α)
    (intrack : SvtxTrack α) (t : PHGenFitTrack α)
    (ht : t ∈ (ReFitTrack cfg env (some intrack)).processTrack_calls) :
    ∀ m ∈ t.measurements, (env.getLayer m.cluster_key : Int) ∉ cfg._disabled_layers := by
  intro m hm
  rw [ReFitTrack_calls cfg env intrack t ht] at hm
  obtain ⟨e, -, he⟩ := List.mem_filterMap.1 hm
  obtain ⟨hk, -, hd, -⟩ := measurementOf_spec cfg env intrack.crossing e m he
  rw [hk]
  exact hd

/-- C4 (amended): with `m_fit_silicon_mms` set, `ReFitTrack` returns no track and never
calls the engine for a candidate without silicon clusters, and, when `m_use_micromegas`
is set as well, for a candidate without Micromegas clusters. -/
theorem ReFitTrack_rejects_silicon_mms (cfg : Config α) (env : Env α)
    (intrack : SvtxTrack α) (hflag : cfg.m_fit_silicon_mms = true)
    (h : (get_cluster_keys intrack).countP (isSilicon env) = 0 ∨
      (cfg.m_use_micromegas = true ∧
        (get_cluster_keys intrack).countP (isMicromegas env) = 0)) :
    (ReFitTrack cfg env (some intrack)).track = none ∧
    (ReFitTrack cfg env (some intrack)).processTrack_calls = [] := by
  obtain ⟨hs, hm⟩ := scanClusters_counts env intrack.crossing (get_cluster_keys intrack)
  unfold ReFitTrack
  simp only
  rw [hs, hm, hflag]
  rcases h with h | ⟨h1, h2⟩
  · simp [h]
  · simp [h1, h2]

/-- C6: for a candidate that passes the rejection checks, `ReFitTrack` calls the engine's
`processTrack` exactly once and returns a track if and only if that call returns 0. -/
theorem ReFitTrack_fits_exactly_once (cfg : Config α) (env : Env α) (intrack : SvtxTrack α)
    (hpass : ¬(cfg.m_fit_silicon_mms = true ∧
      ((get_cluster_keys intrack).countP (isSilicon env) = 0 ∨
        (cfg.m_use_micromegas = true ∧
          (get_cluster_keys intrack).countP (isMicromegas env) = 0)))) :
    ∃ t, (ReFitTrack cfg env (some intrack)).processTrack_calls = [t] ∧
      (((ReFitTrack cfg env (some intrack)).track).isSome = true ↔
        (env.processTrack t).1 = 0) := by
  obtain ⟨t, hcalls, htrack⟩ := ReFitTrack_pass cfg env intrack hpass
  refine ⟨t, hcalls, ?_⟩
  rw [htrack]
  by_cases h0 : (env.processTrack t).1 = 0 <;> simp [h0]

end ReFitClaims

section ReFitExamples

theorem ReFitTrack_measurements_sorted_by_radius_witness :
    exampleHanded false ∈ (ReFitTrack (exampleConfig false true) (exampleEnv ⟨0, 0, 1⟩)
        (some (exampleTrack [2, 1] [40, 30]))).processTrack_calls ∧
    ((∀ m ∈ (exampleHanded false).measurements,
        m.pos = clusterPosition (exampleEnv ⟨0, 0, 1⟩) (exampleTrack [2, 1] [40, 30]).crossing
          m.cluster_key) ∧
      ((exampleHanded false).measurements.map
        (fun m => get_r (exampleEnv ⟨0, 0, 1⟩).F m.pos.x m.pos.y)).Pairwise (· ≤ ·)) :=
  ⟨by decide!,
    ReFitTrack_measurements_sorted_by_radius (exampleConfig false true) (exampleEnv ⟨0, 0, 1⟩)
      (exampleTrack [2, 1] [40, 30]) (exampleHanded false) (by decide!)⟩

/-- C2 (the code at the failing input): two TPC clusters of one candidate at the same
radius 5, both in the cluster store and on enabled layers, yield one measurement, the
one of the key filed first; the other key is lost with its `emplace`. -/
theorem ReFitTrack_equal_radius_drops_cluster :
    ((get_cluster_keys (exampleTrack [] [30, 31])).filter
        (layerEnabled (exampleConfig false true) (exampleEnv ⟨0, 0, 1⟩))).length = 2 ∧
    (∀ k ∈ get_cluster_keys (exampleTrack [] [30, 31]),
        ((exampleEnv ⟨0, 0, 1⟩).findCluster k).isSome = true) ∧
    clusterRadius (exampleEnv ⟨0, 0, 1⟩) 0 30 = 5 ∧
    clusterRadius (exampleEnv ⟨0, 0, 1⟩) 0 31 = 5 ∧
    (ReFitTrack (exampleConfig false true) (exampleEnv ⟨0, 0, 1⟩)
        (some (exampleTrack [] [30, 31]))).processTrack_calls.map
      (fun t => t.measurements.map (fun m => m.cluster_key)) = [[30]] := by
  decide!

theorem ReFitTrack_skips_disabled_layers_witness :
    exampleHanded true ∈
      (ReFitTrack { exampleConfig false true with _disabled_layers := {30} }
        (exampleEnv ⟨0, 0, 1⟩) (some (exampleTrack [2, 1] [40, 30]))).processTrack_calls ∧
    ∀ m ∈ (exampleHanded true).measurements,
      ((exampleEnv ⟨0, 0, 1⟩).getLayer m.cluster_key : Int) ∉
        ({ exampleConfig false true with _disabled_layers := {30} } : Config ℚ)._disabled_layers :=
  ⟨by decide!,
    ReFitTrack_skips_disabled_layers { exampleConfig false true with _disabled_layers := {30} }
      (exampleEnv ⟨0, 0, 1⟩) (exampleTrack [2, 1] [40, 30]) (exampleHanded true)
      (by decide!)⟩

/-- C4 (counterexample): with `m_fit_silicon_mms` set and `m_use_micromegas` not set, a
candidate with one silicon cluster and no Micromegas cluster is handed to the engine and
a track is returned. -/
theorem ReFitTrack_silicon_mms_counterexample :
    (exampleConfig true false).m_fit_silicon_mms = true ∧
    (get_cluster_keys (exampleTrack [1] [30])).countP
        (isMicromegas (exampleEnv ⟨0, 0, 1⟩)) = 0 ∧
    ((ReFitTrack (exampleConfig true false) (exampleEnv ⟨0, 0, 1⟩)
        (some (exampleTrack [1] [30]))).track).isSome = true ∧
    (ReFitTrack (exampleConfig true false) (exampleEnv ⟨0, 0, 1⟩)
        (some (exampleTrack [1] [30]))).processTrack_calls.length = 1 := by
  decide!

theorem ReFitTrack_rejects_silicon_mms_witness :
    ((exampleConfig true true).m_fit_silicon_mms = true ∧
      ((get_cluster_keys (exampleTrack [1] [30])).countP
          (isSilicon (exampleEnv ⟨0, 0, 1⟩)) = 0 ∨
        ((exampleConfig true true).m_use_micromegas = true ∧
          (get_cluster_keys (exampleTrack [1] [30])).countP
            (isMicromegas (exampleEnv ⟨0, 0, 1⟩)) = 0))) ∧
    ((ReFitTrack (exampleConfig true true) (exampleEnv ⟨0, 0, 1⟩)
        (some (exampleTrack [1] [30]))).track = none ∧
      (ReFitTrack (exampleConfig true true) (exampleEnv ⟨0, 0, 1⟩)
        (some (exampleTrack [1] [30]))).processTrack_calls = []) :=
  ⟨by decide!,
    ReFitTrack_rejects_silicon_mms (exampleConfig true true) (exampleEnv ⟨0, 0, 1⟩)
      (exampleTrack [1] [30]) (by decide!) (by decide!)⟩

theorem ReFitTrack_fits_exactly_once_witness :
    ¬((exampleConfig true false).m_fit_silicon_mms = true ∧
      ((get_cluster_keys (exampleTrack [1] [30])).countP
          (isSilicon (exampleEnv ⟨0, 0, 1⟩)) = 0 ∨
        ((exampleConfig true false).m_use_micromegas = true ∧
          (get_cluster_keys (exampleTrack [1] [30])).countP
            (isMicromegas (exampleEnv ⟨0, 0, 1⟩)) = 0))) ∧
    ∃ t, (ReFitTrack (exampleConfig true false) (exampleEnv ⟨0, 0, 1⟩)
          (some (exampleTrack [1] [30]))).processTrack_calls = [t] ∧
      (((ReFitTrack (exampleConfig true false) (exampleEnv ⟨0, 0, 1⟩)
          (some (exampleTrack [1] [30]))).track).isSome = true ↔
        ((exampleEnv ⟨0, 0, 1⟩).processTrack t).1 = 0) :=
  ⟨by decide!,
    ReFitTrack_fits_exactly_once (exampleConfig true false) (exampleEnv ⟨0, 0, 1⟩)
      (exampleTrack [1] [30]) (by decide!)⟩

end ReFitExamples

/-! ## Properties of `pos_cov_XYZ_to_RZ` and `MakeSvtxTrack` -/

section TransformClaims

variable {α : Type} [LinearOrderedField α]

/-- The magnitude of `r = n x (0, 0, 1)` is `sqrt(n_x^2 + n_y^2)`. -/
theorem cross_z_Mag (F : FloatOps α) (n : TVector3 α) :
    (n.Cross ⟨0, 0, 1⟩).Mag F = F.sqrt (n.x ^ 2 + n.y ^ 2) := by
  unfold TVector3.Mag TVector3.Mag2 TVector3.Cross
  congr 1
  simp only
  ring

/-- On inputs of the right shape the return value is decided by the magnitude of `r`. -/
theorem pos_cov_XYZ_to_RZ_ret (F : FloatOps α) (n : TVector3 α)
    (pos_in cov_in pos_out cov_out : TMatrixF α)
    (hpr : pos_in.nrows = 3) (hpc : pos_in.ncols = 1)
    (hcr : cov_in.nrows = 3) (hcc : cov_in.ncols = 3) :
    (pos_cov_XYZ_to_RZ F n pos_in cov_in pos_out cov_out).ret =
      !decide (F.sqrt (n.x ^ 2 + n.y ^ 2) < 0.00001) := by
  unfold pos_cov_XYZ_to_RZ
  simp only [hpr, hpc, hcr, hcc, cross_z_Mag]
  by_cases h : F.sqrt (n.x ^ 2 + n.y ^ 2) < 0.00001 <;> simp [h]

/-- A call that returns false hands back the two output matrices as it received them. -/
theorem pos_cov_XYZ_to_RZ_false_unchanged (F : FloatOps α) (n : TVector3 α)
    (pos_in cov_in pos_out cov_out : TMatrixF α)
    (h : (pos_cov_XYZ_to_RZ F n pos_in cov_in pos_out cov_out).ret = false) :
    (pos_cov_XYZ_to_RZ F n pos_in cov_in pos_out cov_out).pos_out = pos_out ∧
    (pos_cov_XYZ_to_RZ F n pos_in cov_in pos_out cov_out).cov_out = cov_out := by
  unfold pos_cov_XYZ_to_RZ at h ⊢
  simp only at h ⊢
  split_ifs at h ⊢
  · exact ⟨rfl, rfl⟩
  · exact ⟨rfl, rfl⟩
  · exact ⟨rfl, rfl⟩

/-- C9: for a 3x1 `pos_in` and a 3x3 `cov_in`, `pos_cov_XYZ_to_RZ` returns false if and
only if `sqrt(n_x^2 + n_y^2)`, the magnitude of `n x (0, 0, 1)`, is below 1e-5; and
whenever it returns false, whatever the shapes, `pos_out` and `cov_out` are as passed in. -/
theorem pos_cov_XYZ_to_RZ_fails_iff_degenerate (F : FloatOps α) (n : TVector3 α)
    (pos_in cov_in pos_out cov_out : TMatrixF α) :
    (pos_in.nrows = 3 → pos_in.ncols = 1 → cov_in.nrows = 3 → cov_in.ncols = 3 →
      ((pos_cov_XYZ_to_RZ F n pos_in cov_in pos_out cov_out).ret = false ↔
        F.sqrt (n.x ^ 2 + n.y ^ 2) < 0.00001)) ∧
    ((pos_cov_XYZ_to_RZ F n pos_in cov_in pos_out cov_out).ret = false →
      (pos_cov_XYZ_to_RZ F n pos_in cov_in pos_out cov_out).pos_out = pos_out ∧
      (pos_cov_XYZ_to_RZ F n pos_in cov_in pos_out cov_out).cov_out = cov_out) := by
  refine ⟨?_, pos_cov_XYZ_to_RZ_false_unchanged F n pos_in cov_in pos_out cov_out⟩
  intro hpr hpc hcr hcc
  rw [pos_cov_XYZ_to_RZ_ret F n pos_in cov_in pos_out cov_out hpr hpc hcr hcc]
  simp

theorem caught_eq_none {σ : Type} (r : Except Unit (Option σ)) :
    caught r = none ↔ extrapolationFailed r = true := by
  unfold caught extrapolationFailed
  rcases r with _ | _ | _ <;> simp

/-- `MakeSvtxTrack` returns a track exactly when both extrapolations give a state. -/
theorem MakeSvtxTrack_isSome (cfg : Config α) (env : Env α) (svtx_track : SvtxTrack α)
    (phgf_track : FittedTrack α) :
    (MakeSvtxTrack cfg env svtx_track phgf_track).isSome =
      (!extrapolationFailed (phgf_track.gf.extrapolateToLine ⟨0, 0, 0⟩ ⟨0, 0, 1⟩) &&
        !extrapolationFailed (phgf_track.gf.extrapolateToPoint ⟨0, 0, 0⟩)) := by
  unfold MakeSvtxTrack
  simp only
  rcases h1 : phgf_track.gf.extrapolateToLine ⟨0, 0, 0⟩ ⟨0, 0, 1⟩ with _ | _ | s1
  · simp [caught, extrapolationFailed]
  · simp [caught, extrapolationFailed]
  · rcases h2 : phgf_track.gf.extrapolateToPoint ⟨0, 0, 0⟩ with _ | _ | s2
    · simp [caught, extrapolationFailed]
    · simp [caught, extrapolationFailed]
    · simp [caught, extrapolationFailed]

/-- C7: `MakeSvtxTrack` returns no output track whenever the extrapolation to the beam
line fails (throws or yields no state) or the extrapolation to the origin fails,
whatever the other extrapolation does. -/
theorem MakeSvtxTrack_none_of_failed_extrapolation (cfg : Config α) (env : Env α)
    (svtx_track : SvtxTrack α) (phgf_track : FittedTrack α)
    (h : extrapolationFailed (phgf_track.gf.extrapolateToLine ⟨0, 0, 0⟩ ⟨0, 0, 1⟩) = true ∨
      extrapolationFailed (phgf_track.gf.extrapolateToPoint ⟨0, 0, 0⟩) = true) :
    MakeSvtxTrack cfg env svtx_track phgf_track = none := by
  have hs := MakeSvtxTrack_isSome cfg env svtx_track phgf_track
  rcases h with h | h
  · rw [h] at hs
    simpa using hs
  · rw [h] at hs
    simpa using hs

end TransformClaims

/-! ## Properties of `process_event` -/

section EventProofs

variable {α : Type} [LinearOrderedField α]

theorem find_assign_self {κ ν : Type} [LinearOrder κ] (k : κ) (v : ν) (l : List (κ × ν)) :
    find k (assign k v l) = some v := by
  induction l with
  | nil => simp [assign, find]
  | cons e rest ih =>
    unfold assign
    split_ifs with h1 h2
    · simp [find]
    · simp [find, ne_of_lt h2, ih]
    · simp [find]

theorem find_assign_ne {κ ν : Type} [LinearOrder κ] (k k2 : κ) (v : ν) (l : List (κ × ν))
    (hne : k2 ≠ k) : find k2 (assign k v l) = find k2 l := by
  induction l with
  | nil => simp [assign, find, Ne.symm hne]
  | cons e rest ih =>
    unfold assign
    split_ifs with h1 h2
    · simp [find, Ne.symm hne]
    · simp [find, ih]
    · have hek : e.1 = k := le_antisymm (not_lt.1 h1) (not_lt.1 h2)
      simp [find, Ne.symm hne, hek]

/-- One pass of the fill loop leaves the map alone or inserts a track under the running id. -/
theorem fillStep_cases (nodes : Nodes α) (st : FillLoop α) (x : Option SvtxTrackSeed) :
    fillStep nodes st x = st ∨
    ∃ t : SvtxTrack α, t.id = st.trackid ∧
      fillStep nodes st x = ⟨st.trackid + 1, emplace t.id t st.m_trackMap⟩ := by
  rcases x with _ | track
  · exact Or.inl rfl
  · by_cases h1 : track.silicon_seed_index = UINT_MAX
    · left; simp [fillStep, h1]
    · cases h2 : nodes.m_siliconSeeds track.silicon_seed_index with
      | none => left; simp [fillStep, h1, h2]
      | some siseed =>
        by_cases h3 : siseed.crossing = SHRT_MAX
        · left; simp [fillStep, h1, h2, h3]
        · cases h4 : nodes.m_tpcSeeds track.tpc_seed_index with
          | none => left; simp [fillStep, h1, h2, h3, h4]
          | some tpcseed =>
            right
            refine ⟨buildSvtxTrack st.trackid siseed tpcseed, rfl, ?_⟩
            simp only [fillStep, h1, h2, h3, h4, if_false, SvtxTrackMap.insert]

/-- The track map after the fill loop is sorted by key and keyed by the id of the track. -/
theorem fillTrackMap_keys (nodes : Nodes α) :
    (fillTrackMap nodes).Pairwise (fun a b => a.1 < b.1) ∧
    ∀ e ∈ fillTrackMap nodes, e.2.id = e.1 := by
  have key : ∀ (l : List (Option SvtxTrackSeed)) (st : FillLoop α),
      (st.m_trackMap.Pairwise (fun a b => a.1 < b.1) ∧
        ∀ e ∈ st.m_trackMap, e.2.id = e.1) →
      ((l.foldl (fillStep nodes) st).m_trackMap.Pairwise (fun a b => a.1 < b.1) ∧
        ∀ e ∈ (l.foldl (fillStep nodes) st).m_trackMap, e.2.id = e.1) := by
    intro l
    induction l with
    | nil => intro st h; simpa using h
    | cons x rest ih =>
      intro st h
      rw [List.foldl_cons]
      apply ih
      rcases fillStep_cases nodes st x with hst | ⟨t, -, hst⟩
      · rw [hst]; exact h
      · rw [hst]
        refine ⟨emplace_keys_sorted _ _ _ h.1, ?_⟩
        intro e he
        rcases mem_emplace he with he | he
        · subst he; rfl
        · exact h.2 e he
  simpa [fillTrackMap] using key nodes.m_seedMap ⟨0, []⟩ (by simp)

/-- The pT gate of the refit loop. -/
theorem refitStep_gate (cfg : Config α) (env : Env α) (st : RefitLoop α)
    (e : Nat × SvtxTrack α) (h : FloatVal.gt (env.get_pt e.2) cfg._fit_min_pT = false) :
    refitStep cfg env st e = st := by
  unfold refitStep
  simp [h]

/-- The refit loop, started in any state whose id map does not yet know the ids of the
candidates to come: afterwards the second loop finds for each candidate what the refit
loop recorded for it, and the log holds the keys of the candidates behind the gate. -/
theorem refitLoop_spec (cfg : Config α) (env : Env α) :
    ∀ (l : List (Nat × SvtxTrack α)) (st : RefitLoop α),
      (l.map (fun e => e.2.id)).Nodup →
      (∀ e ∈ l, find e.2.id st.svtxtrack_genfittrack_map = none) →
      (∀ id i, find id st.svtxtrack_genfittrack_map = some i → i < st.rf_phgf_tracks.length) →
      (∃ extra, (l.foldl (refitStep cfg env) st).rf_phgf_tracks = st.rf_phgf_tracks ++ extra) ∧
      (∀ id, (∀ e ∈ l, e.2.id ≠ id) →
        find id (l.foldl (refitStep cfg env) st).svtxtrack_genfittrack_map =
          find id st.svtxtrack_genfittrack_map) ∧
      (∀ e ∈ l, lookupFitted (l.foldl (refitStep cfg env) st) e.2 = refitted cfg env e.2) ∧
      (l.foldl (refitStep cfg env) st).refit_calls =
        st.refit_calls ++
          (l.filter (fun e => FloatVal.gt (env.get_pt e.2) cfg._fit_min_pT)).map Prod.fst := by
  intro l
  induction l with
  | nil =>
    intro st _ _ _
    exact ⟨⟨[], by simp⟩, fun _ _ => rfl, fun e he => absurd he (List.not_mem_nil e), by simp⟩
  | cons e rest ih =>
    intro st hnd hfresh hvalid
    rw [List.map_cons, List.nodup_cons] at hnd
    obtain ⟨hnotin, hnd⟩ := hnd
    have hne : ∀ e2 ∈ rest, e2.2.id ≠ e.2.id := by
      intro e2 he2 heq
      exact hnotin (List.mem_map.2 ⟨e2, he2, heq⟩)
    have hfresh_e := hfresh e (List.mem_cons_self _ _)
    have hfresh_rest : ∀ e2 ∈ rest, find e2.2.id st.svtxtrack_genfittrack_map = none :=
      fun e2 he2 => hfresh e2 (List.mem_cons_of_mem _ he2)
    rw [List.foldl_cons]
    by_cases hgate : FloatVal.gt (env.get_pt e.2) cfg._fit_min_pT = true
    · cases hfit : (ReFitTrack cfg env (some e.2)).track with
      | none =>
        have hstep : refitStep cfg env st e =
            { st with refit_calls := st.refit_calls ++ [e.1] } := by
          unfold refitStep
          simp [hgate, hfit]
        rw [hstep]
        obtain ⟨hext, hfind, hlook, hcalls⟩ :=
          ih { st with refit_calls := st.refit_calls ++ [e.1] } hnd hfresh_rest hvalid
        refine ⟨hext, ?_, ?_, ?_⟩
        · intro id hid
          exact hfind id (fun e2 he2 => hid e2 (List.mem_cons_of_mem _ he2))
        · intro e2 he2
          rcases List.mem_cons.1 he2 with he2 | he2
          · subst he2
            have h1 := hfind e2.2.id hne
            simp only at h1
            unfold lookupFitted refitted
            rw [h1, hfresh_e]
            simp [hgate, hfit]
          · exact hlook e2 he2
        · rw [hcalls]
          simp [List.filter_cons, hgate]
      | some g =>
        have hstep : refitStep cfg env st e =
            { svtxtrack_genfittrack_map :=
                assign e.2.id st.rf_phgf_tracks.length st.svtxtrack_genfittrack_map
              rf_phgf_tracks := st.rf_phgf_tracks ++ [g]
              refit_calls := st.refit_calls ++ [e.1] } := by
          unfold refitStep
          simp [hgate, hfit]
        rw [hstep]
        obtain ⟨⟨extra, hext⟩, hfind, hlook, hcalls⟩ :=
          ih { svtxtrack_genfittrack_map :=
                assign e.2.id st.rf_phgf_tracks.length st.svtxtrack_genfittrack_map
               rf_phgf_tracks := st.rf_phgf_tracks ++ [g]
               refit_calls := st.refit_calls ++ [e.1] } hnd
            (by
              intro e2 he2
              simp only
              rw [find_assign_ne _ _ _ _ (hne e2 he2)]
              exact hfresh_rest e2 he2)
            (by
              intro id i hi
              simp only at hi
              simp only [List.length_append, List.length_singleton]
              by_cases hid : id = e.2.id
              · subst hid
                rw [find_assign_self] at hi
                injection hi with hi
                omega
              · rw [find_assign_ne _ _ _ _ hid] at hi
                have := hvalid id i hi
                omega)
        simp only at hext hfind hcalls
        refine ⟨⟨[g] ++ extra, by rw [hext]; simp⟩, ?_, ?_, ?_⟩
        · intro id hid
          rw [hfind id (fun e2 he2 => hid e2 (List.mem_cons_of_mem _ he2))]
          exact find_assign_ne _ _ _ _ (Ne.symm (hid e (List.mem_cons_self _ _)))
        · intro e2 he2
          rcases List.mem_cons.1 he2 with he2 | he2
          · subst he2
            have h1 := hfind e2.2.id hne
            have hget : (st.rf_phgf_tracks ++ [g] ++ extra)[st.rf_phgf_tracks.length]? =
                some g := by
              rw [List.append_assoc, List.getElem?_append_right (le_refl _)]
              simp
            unfold lookupFitted refitted
            rw [h1, find_assign_self, hext]
            simp only [hget, hgate, hfit, if_true]
          · exact hlook e2 he2
        · rw [hcalls]
          simp [List.filter_cons, hgate]
    · have hgate2 : FloatVal.gt (env.get_pt e.2) cfg._fit_min_pT = false := by
        simpa using hgate
      rw [refitStep_gate cfg env st e hgate2]
      obtain ⟨hext, hfind, hlook, hcalls⟩ := ih st hnd hfresh_rest hvalid
      refine ⟨hext, ?_, ?_, ?_⟩
      · intro id hid
        exact hfind id (fun e2 he2 => hid e2 (List.mem_cons_of_mem _ he2))
      · intro e2 he2
        rcases List.mem_cons.1 he2 with he2 | he2
        · subst he2
          have h1 := hfind e2.2.id hne
          unfold lookupFitted refitted
          rw [h1, hfresh_e]
          simp [hgate2]
        · exact hlook e2 he2
      · rw [hcalls]
        simp [List.filter_cons, hgate2]

end EventProofs

section EventClaims

variable {α : Type} [LinearOrderedField α]

/-- Entries of a key-sorted map with the same key are the same entry. -/
theorem eq_of_key_eq {ν : Type} (m : List (Nat × ν))
    (hsorted : m.Pairwise (fun a b => a.1 < b.1)) (a b : Nat × ν) (ha : a ∈ m) (hb : b ∈ m)
    (hkey : a.1 = b.1) : a = b := by
  by_contra hne
  have hp : m.Pairwise (fun a b => a.1 ≠ b.1) := hsorted.imp (fun h => ne_of_lt h)
  exact (hp.forall (fun _ _ h => Ne.symm h) ha hb hne) hkey

/-- The two loops of `process_event` on a track map that is sorted by key and keyed by
track id: each candidate is replaced by the output track made from what the refit loop
recorded for it, or dropped if either is missing; the log holds the keys behind the gate. -/
theorem refitTrackMap_spec (cfg : Config α) (env : Env α) (m : List (Nat × SvtxTrack α))
    (hsorted : m.Pairwise (fun a b => a.1 < b.1)) (hid : ∀ e ∈ m, e.2.id = e.1) :
    (refitTrackMap cfg env m).m_trackMap =
      m.filterMap (fun e =>
        ((refitted cfg env e.2).bind (MakeSvtxTrack cfg env e.2)).map (fun o => (e.1, o))) ∧
    (refitTrackMap cfg env m).refit_calls =
      (m.filter (fun e => FloatVal.gt (env.get_pt e.2) cfg._fit_min_pT)).map Prod.fst := by
  have hnd : (m.map (fun e => e.2.id)).Nodup := by
    have hmap : m.map (fun e => e.2.id) = m.map Prod.fst :=
      List.map_congr_left (fun e he => hid e he)
    rw [hmap]
    exact (List.pairwise_map.2 hsorted).imp (fun h => ne_of_lt h)
  obtain ⟨-, -, hlook, hcalls⟩ :=
    refitLoop_spec cfg env m ⟨[], [], []⟩ hnd (fun _ _ => rfl)
      (fun id i h => by simp [find] at h)
  refine ⟨?_, by simpa using hcalls⟩
  unfold refitTrackMap
  simp only
  apply List.filterMap_congr
  intro e he
  unfold convertStep
  rw [hlook e he]
  cases refitted cfg env e.2 with
  | none => rfl
  | some g => cases hm : MakeSvtxTrack cfg env e.2 g <;> simp [hm]

/-- A candidate is in the log of `process_event` exactly when it passed the pT gate. -/
theorem mem_refit_calls (cfg : Config α) (env : Env α) (nodes : Nodes α)
    (e : Nat × SvtxTrack α) (he : e ∈ fillTrackMap nodes) :
    e.1 ∈ (process_event cfg env nodes).refit_calls ↔
      FloatVal.gt (env.get_pt e.2) cfg._fit_min_pT = true := by
  obtain ⟨hsorted, hid⟩ := fillTrackMap_keys nodes
  unfold process_event
  rw [(refitTrackMap_spec cfg env _ hsorted hid).2, List.mem_map]
  constructor
  · rintro ⟨e2, he2, hkey⟩
    obtain ⟨hmem, hgate⟩ := List.mem_filter.1 he2
    have := eq_of_key_eq _ hsorted e2 e hmem he hkey
    subst this
    exact hgate
  · intro hgate
    exact ⟨e, List.mem_filter.2 ⟨he, hgate⟩, rfl⟩

/-- The track map `process_event` leaves behind, candidate by candidate. -/
theorem process_event_map (cfg : Config α) (env : Env α) (nodes : Nodes α) :
    (process_event cfg env nodes).m_trackMap =
      (fillTrackMap nodes).filterMap (fun e =>
        if e.1 ∈ (process_event cfg env nodes).refit_calls then
          (((ReFitTrack cfg env (some e.2)).track).bind (MakeSvtxTrack cfg env e.2)).map
            (fun o => (e.1, o))
        else none) := by
  obtain ⟨hsorted, hid⟩ := fillTrackMap_keys nodes
  have h1 : (process_event cfg env nodes).m_trackMap = _ :=
    (refitTrackMap_spec cfg env _ hsorted hid).1
  rw [h1]
  apply List.filterMap_congr
  intro e he
  by_cases hgate : FloatVal.gt (env.get_pt e.2) cfg._fit_min_pT = true
  · rw [if_pos ((mem_refit_calls cfg env nodes e he).2 hgate)]
    simp [refitted, hgate]
  · rw [if_neg (fun h => hgate ((mem_refit_calls cfg env nodes e he).1 h))]
    simp [refitted, hgate]

/-- C5: `process_event` passes to `ReFitTrack` exactly the candidates of the filled track
map whose transverse momentum is above `_fit_min_pT`, and afterwards the track map holds
exactly the candidates that were passed to `ReFitTrack`, got a fitted track from it and an
output track from `MakeSvtxTrack`, each under its own key and overwritten with its output
track; every other candidate is erased; and the return code is `EVENT_OK`. -/
theorem process_event_keeps_converted_tracks (cfg : Config α) (env : Env α)
    (nodes : Nodes α) :
    (process_event cfg env nodes).ret = EVENT_OK ∧
    (process_event cfg env nodes).refit_calls =
      ((fillTrackMap nodes).filter
        (fun e => FloatVal.gt (env.get_pt e.2) cfg._fit_min_pT)).map Prod.fst ∧
    (process_event cfg env nodes).m_trackMap =
      (fillTrackMap nodes).filterMap (fun e =>
        if FloatVal.gt (env.get_pt e.2) cfg._fit_min_pT = true then
          (((ReFitTrack cfg env (some e.2)).track).bind (MakeSvtxTrack cfg env e.2)).map
            (fun o => (e.1, o))
        else none) ∧
    (∀ k o, (k, o) ∈ (process_event cfg env nodes).m_trackMap ↔
      ∃ e ∈ fillTrackMap nodes, e.1 = k ∧
        FloatVal.gt (env.get_pt e.2) cfg._fit_min_pT = true ∧
        ∃ g, (ReFitTrack cfg env (some e.2)).track = some g ∧
          MakeSvtxTrack cfg env e.2 g = some o) := by
  obtain ⟨hsorted, hid⟩ := fillTrackMap_keys nodes
  have hmap : (process_event cfg env nodes).m_trackMap =
      (fillTrackMap nodes).filterMap (fun e =>
        if FloatVal.gt (env.get_pt e.2) cfg._fit_min_pT = true then
          (((ReFitTrack cfg env (some e.2)).track).bind (MakeSvtxTrack cfg env e.2)).map
            (fun o => (e.1, o))
        else none) := by
    have h1 : (process_event cfg env nodes).m_trackMap = _ :=
      (refitTrackMap_spec cfg env _ hsorted hid).1
    rw [h1]
    apply List.filterMap_congr
    intro e _
    by_cases hgate : FloatVal.gt (env.get_pt e.2) cfg._fit_min_pT = true
    · simp [refitted, hgate]
    · simp [refitted, hgate]
  refine ⟨rfl, (refitTrackMap_spec cfg env _ hsorted hid).2, hmap, ?_⟩
  intro k o
  rw [hmap, List.mem_filterMap]
  constructor
  · rintro ⟨e, he, hx⟩
    split_ifs at hx with hgate
    obtain ⟨o2, ho2, heq⟩ := Option.map_eq_some'.1 hx
    obtain ⟨g, hg, hm⟩ := Option.bind_eq_some.1 ho2
    obtain ⟨rfl, rfl⟩ := Prod.mk.inj heq
    exact ⟨e, he, rfl, hgate, g, hg, hm⟩
  · rintro ⟨e, he, rfl, hgate, g, hg, hm⟩
    refine ⟨e, he, ?_⟩
    rw [if_pos hgate, hg]
    simp [hm]

/-- When both extrapolations give a state, `MakeSvtxTrack` returns a track. -/
theorem MakeSvtxTrack_some (cfg : Config α) (env : Env α) (svtx_track : SvtxTrack α)
    (phgf_track : FittedTrack α) (s_line s_vertex : MeasuredStateOnPlane α)
    (hline : phgf_track.gf.extrapolateToLine ⟨0, 0, 0⟩ ⟨0, 0, 1⟩ = Except.ok (some s_line))
    (hpoint : phgf_track.gf.extrapolateToPoint ⟨0, 0, 0⟩ = Except.ok (some s_vertex)) :
    ∃ o, MakeSvtxTrack cfg env svtx_track phgf_track = some o := by
  have hs := MakeSvtxTrack_isSome cfg env svtx_track phgf_track
  rw [hline, hpoint] at hs
  exact Option.isSome_iff_exists.1 (by simpa [extrapolationFailed] using hs)

/-- The call of the frame transform in `MakeSvtxTrack` returns false exactly for a
momentum at the origin that is parallel to the beam axis. -/
theorem dcaFrameCall_ret (F : FloatOps α) (s : MeasuredStateOnPlane α)
    (vertex_position : TVector3 α) (vertex_cov : TMatrixF α) :
    (dcaFrameCall F s vertex_position vertex_cov).ret =
      !decide (F.sqrt (s.mom.x ^ 2 + s.mom.y ^ 2) < 0.00001) := by
  unfold dcaFrameCall
  exact pos_cov_XYZ_to_RZ_ret F _ _ _ _ _ rfl rfl rfl rfl

/-- C8 (amended): when the frame transform fails on a momentum parallel to the beam axis,
the track is not dropped: with both extrapolations giving a state, `MakeSvtxTrack`
returns an output track, and `process_event` keeps the refitted candidate under its key,
overwritten with that output track. -/
theorem degenerate_frame_keeps_track (cfg : Config α) (env : Env α) (nodes : Nodes α)
    (e : Nat × SvtxTrack α) (g : FittedTrack α) (s_line s_vertex : MeasuredStateOnPlane α)
    (he : e ∈ fillTrackMap nodes)
    (hcall : e.1 ∈ (process_event cfg env nodes).refit_calls)
    (hfit : (ReFitTrack cfg env (some e.2)).track = some g)
    (hline : g.gf.extrapolateToLine ⟨0, 0, 0⟩ ⟨0, 0, 1⟩ = Except.ok (some s_line))
    (hpoint : g.gf.extrapolateToPoint ⟨0, 0, 0⟩ = Except.ok (some s_vertex))
    (hdeg : env.F.sqrt (s_vertex.mom.x ^ 2 + s_vertex.mom.y ^ 2) < 0.00001) :
    (dcaFrameCall env.F s_vertex ⟨0, 0, 0⟩ (TMatrixF.zero 3 3)).ret = false ∧
    ∃ o, MakeSvtxTrack cfg env e.2 g = some o ∧
      (e.1, o) ∈ (process_event cfg env nodes).m_trackMap := by
  refine ⟨by rw [dcaFrameCall_ret]; simp [hdeg], ?_⟩
  obtain ⟨o, ho⟩ := MakeSvtxTrack_some cfg env e.2 g s_line s_vertex hline hpoint
  refine ⟨o, ho, ?_⟩
  rw [process_event_map, List.mem_filterMap]
  refine ⟨e, he, ?_⟩
  rw [if_pos hcall, hfit]
  simp [ho]

end EventClaims

section TransformExamples

/-- The track `ReFitTrack` returns when its one call of the engine reports status 0. -/
theorem ReFitTrack_track_of_calls {α : Type} [LinearOrderedField α] (cfg : Config α)
    (env : Env α) (intrack : SvtxTrack α) (t : PHGenFitTrack α)
    (hcalls : (ReFitTrack cfg env (some intrack)).processTrack_calls = [t])
    (h0 : (env.processTrack t).1 = 0) :
    (ReFitTrack cfg env (some intrack)).track = some ⟨t, (env.processTrack t).2⟩ := by
  unfold ReFitTrack at hcalls ⊢
  simp only at hcalls ⊢
  split_ifs at hcalls ⊢ with h1 h2 h3
  · obtain rfl := (List.cons.inj hcalls).1
    exact absurd h0 h3
  · obtain rfl := (List.cons.inj hcalls).1
    rfl

theorem pos_cov_XYZ_to_RZ_fails_iff_degenerate_witness :
    ((TMatrixF.zero 3 1 : TMatrixF ℚ).nrows = 3 ∧ (TMatrixF.zero 3 1 : TMatrixF ℚ).ncols = 1 ∧
      (TMatrixF.zero 3 3 : TMatrixF ℚ).nrows = 3 ∧ (TMatrixF.zero 3 3 : TMatrixF ℚ).ncols = 3) ∧
    exampleOps.sqrt ((0 : ℚ) ^ 2 + 0 ^ 2) < 0.00001 ∧
    (pos_cov_XYZ_to_RZ exampleOps ⟨0, 0, 1⟩ (TMatrixF.zero 3 1) (TMatrixF.zero 3 3)
      (TMatrixF.zero 3 1) (TMatrixF.zero 3 3)).ret = false ∧
    (pos_cov_XYZ_to_RZ exampleOps ⟨0, 0, 1⟩ (TMatrixF.zero 3 1) (TMatrixF.zero 3 3)
      (TMatrixF.zero 3 1) (TMatrixF.zero 3 3)).pos_out = TMatrixF.zero 3 1 ∧
    (pos_cov_XYZ_to_RZ exampleOps ⟨0, 0, 1⟩ (TMatrixF.zero 3 1) (TMatrixF.zero 3 3)
      (TMatrixF.zero 3 1) (TMatrixF.zero 3 3)).cov_out = TMatrixF.zero 3 3 :=
  have hdeg : exampleOps.sqrt ((0 : ℚ) ^ 2 + 0 ^ 2) < 0.00001 := by decide!
  have hret := ((pos_cov_XYZ_to_RZ_fails_iff_degenerate exampleOps ⟨0, 0, 1⟩
    (TMatrixF.zero 3 1) (TMatrixF.zero 3 3) (TMatrixF.zero 3 1) (TMatrixF.zero 3 3)).1
      rfl rfl rfl rfl).2 hdeg
  ⟨⟨rfl, rfl, rfl, rfl⟩, hdeg, hret,
    (pos_cov_XYZ_to_RZ_fails_iff_degenerate exampleOps ⟨0, 0, 1⟩
      (TMatrixF.zero 3 1) (TMatrixF.zero 3 3) (TMatrixF.zero 3 1) (TMatrixF.zero 3 3)).2 hret⟩

theorem MakeSvtxTrack_none_of_failed_extrapolation_witness :
    (extrapolationFailed (exampleFittedNoLine.gf.extrapolateToLine ⟨0, 0, 0⟩ ⟨0, 0, 1⟩) = true ∨
      extrapolationFailed (exampleFittedNoLine.gf.extrapolateToPoint ⟨0, 0, 0⟩) = true) ∧
    extrapolationFailed (exampleFittedNoLine.gf.extrapolateToPoint ⟨0, 0, 0⟩) = false ∧
    MakeSvtxTrack (exampleConfig false true) (exampleEnv ⟨1, 0, 0⟩)
      (exampleTrack [2, 1] [40, 30]) exampleFittedNoLine = none :=
  ⟨Or.inl rfl, rfl,
    MakeSvtxTrack_none_of_failed_extrapolation (exampleConfig false true)
      (exampleEnv ⟨1, 0, 0⟩) (exampleTrack [2, 1] [40, 30]) exampleFittedNoLine (Or.inl rfl)⟩

/-- C8 (counterexample): a candidate whose fitted momentum at the origin is (0, 0, 1),
parallel to the beam axis: the frame transform returns false, yet `MakeSvtxTrack` returns
an output track and the candidate is still in the track map after `process_event`. -/
theorem degenerate_frame_counterexample :
    exampleOps.sqrt ((0 : ℚ) ^ 2 + 0 ^ 2) < 0.00001 ∧
    (dcaFrameCall exampleOps (exampleState ⟨1, 2, 3⟩ ⟨0, 0, 1⟩) ⟨0, 0, 0⟩
      (TMatrixF.zero 3 3)).ret = false ∧
    (((ReFitTrack (exampleConfig false true) (exampleEnv ⟨0, 0, 1⟩)
        (some (exampleCandidate [2, 1] [40, 30]).2)).track).bind
      (MakeSvtxTrack (exampleConfig false true) (exampleEnv ⟨0, 0, 1⟩)
        (exampleCandidate [2, 1] [40, 30]).2)).isSome = true ∧
    (fillTrackMap (exampleNodes [2, 1] [40, 30])).map Prod.fst = [0] ∧
    (process_event (exampleConfig false true) (exampleEnv ⟨0, 0, 1⟩)
      (exampleNodes [2, 1] [40, 30])).m_trackMap.map Prod.fst = [0] := by
  decide!

theorem degenerate_frame_keeps_track_witness :
    (exampleEnv ⟨0, 0, 1⟩).F.sqrt
        ((exampleState ⟨1, 2, 3⟩ ⟨0, 0, 1⟩).mom.x ^ 2 +
          (exampleState ⟨1, 2, 3⟩ ⟨0, 0, 1⟩).mom.y ^ 2) < 0.00001 ∧
    (exampleCandidate [2, 1] [40, 30]).1 ∈
      (process_event (exampleConfig false true) (exampleEnv ⟨0, 0, 1⟩)
        (exampleNodes [2, 1] [40, 30])).refit_calls ∧
    ((dcaFrameCall (exampleEnv ⟨0, 0, 1⟩).F (exampleState ⟨1, 2, 3⟩ ⟨0, 0, 1⟩) ⟨0, 0, 0⟩
        (TMatrixF.zero 3 3)).ret = false ∧
      ∃ o, MakeSvtxTrack (exampleConfig false true) (exampleEnv ⟨0, 0, 1⟩)
          (exampleCandidate [2, 1] [40, 30]).2 (exampleFitted ⟨0, 0, 1⟩) = some o ∧
        ((exampleCandidate [2, 1] [40, 30]).1, o) ∈
          (process_event (exampleConfig false true) (exampleEnv ⟨0, 0, 1⟩)
            (exampleNodes [2, 1] [40, 30])).m_trackMap) :=
  ⟨by decide!, by decide!,
    degenerate_frame_keeps_track (exampleConfig false true) (exampleEnv ⟨0, 0, 1⟩)
      (exampleNodes [2, 1] [40, 30]) (exampleCandidate [2, 1] [40, 30])
      (exampleFitted ⟨0, 0, 1⟩) (exampleState ⟨1, 2, 0⟩ ⟨0, 0, 1⟩)
      (exampleState ⟨1, 2, 3⟩ ⟨0, 0, 1⟩)
      (List.mem_singleton.2 rfl) (by decide!)
      (ReFitTrack_track_of_calls (exampleConfig false true) (exampleEnv ⟨0, 0, 1⟩)
        (exampleCandidate [2, 1] [40, 30]).2 (exampleHanded false) (by decide!) (by decide!))
      rfl rfl (by decide!)⟩

/-- C10 (the code at the failing input): for a fitted momentum (0, 0, 1) at the origin the
frame transform returns false, and the output track carries 0, not not-a-number, in
`dca3d_xy`, `dca3d_z` and both errors: the values of the untouched, zero-filled
`pos_out` and `cov_out`.  `dca2d` and `dca2d_error` hold the beam-line values 3 and 1. -/
theorem degenerate_frame_dca3d_zero :
    (dcaFrameCall exampleOps (exampleState ⟨1, 2, 3⟩ ⟨0, 0, 1⟩) ⟨0, 0, 0⟩
      (TMatrixF.zero 3 3)).ret = false ∧
    (MakeSvtxTrack (exampleConfig false true) (exampleEnv ⟨0, 0, 1⟩)
        (exampleCandidate [2, 1] [40, 30]).2 (exampleFitted ⟨0, 0, 1⟩)).map
      (fun o => (o.dca3d_xy, o.dca3d_z)) = some (FloatVal.num 0, FloatVal.num 0) ∧
    (MakeSvtxTrack (exampleConfig false true) (exampleEnv ⟨0, 0, 1⟩)
        (exampleCandidate [2, 1] [40, 30]).2 (exampleFitted ⟨0, 0, 1⟩)).map
      (fun o => (o.dca3d_xy_error, o.dca3d_z_error)) =
        some (FloatVal.num 0, FloatVal.num 0) ∧
    (MakeSvtxTrack (exampleConfig false true) (exampleEnv ⟨0, 0, 1⟩)
        (exampleCandidate [2, 1] [40, 30]).2 (exampleFitted ⟨0, 0, 1⟩)).map
      (fun o => (o.dca2d, o.dca2d_error)) = some (FloatVal.num 3, FloatVal.num 1) := by
  decide!

end TransformExamples

/-! ## Complements: distinct radii, and the fields after a failed transform -/

section Complements

variable {α : Type} [LinearOrderedField α]

/-- An entry under a key that is not yet in the map is added to it. -/
theorem emplace_perm {κ ν : Type} [LinearOrder κ] (k : κ) (v : ν) (l : List (κ × ν))
    (hk : ∀ e ∈ l, e.1 ≠ k) : (emplace k v l).Perm ((k, v) :: l) := by
  induction l with
  | nil => simp [emplace]
  | cons e rest ih =>
    unfold emplace
    split_ifs with h1 h2
    · exact List.Perm.refl _
    · exact ((ih (fun x hx => hk x (List.mem_cons_of_mem _ hx))).cons e).trans
        (List.Perm.swap _ _ _)
    · exact absurd (le_antisymm (not_lt.1 h1) (not_lt.1 h2)) (hk e (List.mem_cons_self _ _))

/-- With pairwise different radii, the radius map holds every key of the candidate. -/
theorem scanClusters_perm (env : Env α) (crossing : Int) (keys : List cluskey)
    (hdistinct : keys.Pairwise
      (fun a b => clusterRadius env crossing a ≠ clusterRadius env crossing b)) :
    (scanClusters env crossing keys).m_r_cluster_id.Perm
      (keys.map (fun k => (clusterRadius env crossing k, k))) := by
  have key : ∀ (l : List cluskey) (st : ClusterScan α),
      l.Pairwise (fun a b => clusterRadius env crossing a ≠ clusterRadius env crossing b) →
      (∀ k ∈ l, ∀ e ∈ st.m_r_cluster_id, e.1 ≠ clusterRadius env crossing k) →
      (l.foldl (scanCluster env crossing) st).m_r_cluster_id.Perm
        (st.m_r_cluster_id ++ l.map (fun k => (clusterRadius env crossing k, k))) := by
    intro l
    induction l with
    | nil => intro st _ _; simp
    | cons k rest ih =>
      intro st hd hfresh
      have hstep : (scanCluster env crossing st k).m_r_cluster_id =
          emplace (clusterRadius env crossing k) k st.m_r_cluster_id := by
        unfold scanCluster
        cases env.getTrkrId k <;> rfl
      have hperm := emplace_perm (clusterRadius env crossing k) k st.m_r_cluster_id
        (hfresh k (List.mem_cons_self _ _))
      rw [List.foldl_cons]
      refine (ih (scanCluster env crossing st k) (List.pairwise_cons.1 hd).2 ?_).trans ?_
      · intro k2 hk2 e he
        rw [hstep] at he
        rcases mem_emplace he with he | he
        · subst he
          exact (List.pairwise_cons.1 hd).1 k2 hk2
        · exact hfresh k2 (List.mem_cons_of_mem _ hk2) e he
      · rw [hstep, List.map_cons]
        exact (hperm.append_right _).trans (by
          simpa using (@List.perm_middle _ (clusterRadius env crossing k, k)
            st.m_r_cluster_id (rest.map (fun k => (clusterRadius env crossing k, k)))).symm)
  simpa [scanClusters] using key keys ⟨0, 0, []⟩ hdistinct (by simp)

/-- When no two clusters of the candidate have the same radius and all are in the cluster
store, the engine receives one measurement per cluster on an enabled layer. -/
theorem ReFitTrack_measurement_count_of_distinct_radii (cfg : Config α) (env : Env α)
    (intrack : SvtxTrack α) (t : PHGenFitTrack α)
    (ht : t ∈ (ReFitTrack cfg env (some intrack)).processTrack_calls)
    (hfound : ∀ k ∈ get_cluster_keys intrack, (env.findCluster k).isSome = true)
    (hdistinct : (get_cluster_keys intrack).Pairwise
      (fun a b => clusterRadius env intrack.crossing a ≠ clusterRadius env intrack.crossing b)) :
    (t.measurements.map (fun m => m.cluster_key)).Perm
      ((get_cluster_keys intrack).filter (layerEnabled cfg env)) := by
  rw [ReFitTrack_calls cfg env intrack t ht]
  have hperm := scanClusters_perm env intrack.crossing (get_cluster_keys intrack) hdistinct
  refine ((hperm.filterMap (measurementOf cfg env intrack.crossing)).map _).trans ?_
  have hlist : ∀ l : List cluskey, (∀ k ∈ l, (env.findCluster k).isSome = true) →
      ((l.map (fun k => (clusterRadius env intrack.crossing k, k))).filterMap
        (measurementOf cfg env intrack.crossing)).map (fun m => m.cluster_key) =
      l.filter (layerEnabled cfg env) := by
    intro l
    induction l with
    | nil => intro _; rfl
    | cons k rest ih =>
      intro hf
      have ihr := ih (fun k2 hk2 => hf k2 (List.mem_cons_of_mem _ hk2))
      obtain ⟨c, hc⟩ := Option.isSome_iff_exists.1 (hf k (List.mem_cons_self _ _))
      by_cases hd : (env.getLayer k : Int) ∈ cfg._disabled_layers
      · simp only [List.map_cons, List.filterMap_cons, measurementOf, hd, if_true,
          List.filter_cons, layerEnabled, not_true_eq_false, decide_False]
        simpa [measurementOf] using ihr
      · simp only [List.map_cons, List.filterMap_cons, measurementOf, hd, if_false, hc,
          List.filter_cons, layerEnabled, not_false_eq_true, decide_True, if_true,
          makeMeasurement_cluster_key, List.cons.injEq, true_and]
        simpa [measurementOf] using ihr
  rw [hlist _ hfound]

/-- Whenever the frame transform returns false, the four r-z fields of the output track
are read off the untouched zero matrices, and the 2D fields are those of the beam-line
state. -/
theorem MakeSvtxTrack_dca_of_failed_transform (cfg : Config α) (env : Env α)
    (svtx_track : SvtxTrack α) (phgf_track : FittedTrack α)
    (s_line s_vertex : MeasuredStateOnPlane α) (o : SvtxTrack α)
    (hline : phgf_track.gf.extrapolateToLine ⟨0, 0, 0⟩ ⟨0, 0, 1⟩ = Except.ok (some s_line))
    (hpoint : phgf_track.gf.extrapolateToPoint ⟨0, 0, 0⟩ = Except.ok (some s_vertex))
    (hfail : (dcaFrameCall env.F s_vertex ⟨0, 0, 0⟩ (TMatrixF.zero 3 3)).ret = false)
    (ho : MakeSvtxTrack cfg env svtx_track phgf_track = some o) :
    o.dca3d_xy = FloatVal.num 0 ∧ o.dca3d_z = FloatVal.num 0 ∧
    o.dca3d_xy_error = FloatVal.sqrt env.F 0 ∧ o.dca3d_z_error = FloatVal.sqrt env.F 0 ∧
    o.dca2d = FloatVal.num (s_line.state 3) ∧
    o.dca2d_error = FloatVal.sqrt env.F (s_line.cov 3 3 + 0) := by
  have hout := pos_cov_XYZ_to_RZ_false_unchanged env.F _ _ _ _ _ hfail
  unfold MakeSvtxTrack at ho
  simp only [hline, hpoint, caught, Option.some.injEq] at ho
  subst ho
  simp only [dcaFrame]
  unfold dcaFrameCall at hout ⊢
  simp only at hout ⊢
  rw [hout.1, hout.2]
  exact ⟨rfl, rfl, rfl, rfl, trivial, trivial⟩

end Complements

/-! ## The rotation of `pos_cov_XYZ_to_RZ` -/

section RotationProofs

variable {α : Type} [LinearOrderedField α]

/-- On inputs of the right shape and a momentum off the beam axis, the call returns true
with `pos_out = R * pos_in` and `cov_out = R * cov_in * R^T`. -/
theorem pos_cov_XYZ_to_RZ_ok (F : FloatOps α) (n : TVector3 α)
    (pos_in cov_in pos_out cov_out : TMatrixF α)
    (hpr : pos_in.nrows = 3) (hpc : pos_in.ncols = 1)
    (hcr : cov_in.nrows = 3) (hcc : cov_in.ncols = 3)
    (hn : 0.00001 ≤ (n.Cross ⟨0, 0, 1⟩).Mag F) :
    pos_cov_XYZ_to_RZ F n pos_in cov_in pos_out cov_out =
      ⟨true, (rotationMatrix F (rotationAngle F n)).mul pos_in,
        ((rotationMatrix F (rotationAngle F n)).mul cov_in).mul
          (rotationMatrix F (rotationAngle F n)).Transpose⟩ := by
  unfold pos_cov_XYZ_to_RZ rotationAngle
  simp only [hpr, hpc, hcr, hcc, not_lt.2 hn]
  simp

/-- The entries of `R * pos_in` for a 3x1 `pos_in`. -/
theorem rotation_mul_pos (F : FloatOps α) (phi : α) (p : TMatrixF α) (j : Nat) :
    ((rotationMatrix F phi).mul p).elem 0 j = F.cos phi * p.elem 0 j - F.sin phi * p.elem 1 j ∧
    ((rotationMatrix F phi).mul p).elem 1 j = F.sin phi * p.elem 0 j + F.cos phi * p.elem 1 j ∧
    ((rotationMatrix F phi).mul p).elem 2 j = p.elem 2 j := by
  simp [TMatrixF.mul, rotationMatrix, TMatrixF.set, TMatrixF.zero, List.range_succ]
  ring

/-- The entries of `R * c * R^T` for a 3x3 `c`, written with `co = cos phi`, `si = sin phi`. -/
theorem rotation_conj_elem (F : FloatOps α) (phi : α) (c : TMatrixF α) (hcc : c.ncols = 3) :
    (((rotationMatrix F phi).mul c).mul (rotationMatrix F phi).Transpose).elem 0 0 =
      F.cos phi * (F.cos phi * c.elem 0 0 - F.sin phi * c.elem 1 0) -
        F.sin phi * (F.cos phi * c.elem 0 1 - F.sin phi * c.elem 1 1) ∧
    (((rotationMatrix F phi).mul c).mul (rotationMatrix F phi).Transpose).elem 1 1 =
      F.sin phi * (F.sin phi * c.elem 0 0 + F.cos phi * c.elem 1 0) +
        F.cos phi * (F.sin phi * c.elem 0 1 + F.cos phi * c.elem 1 1) ∧
    (((rotationMatrix F phi).mul c).mul (rotationMatrix F phi).Transpose).elem 2 2 =
      c.elem 2 2 := by
  simp [TMatrixF.mul, rotationMatrix, TMatrixF.set, TMatrixF.zero, TMatrixF.Transpose, hcc,
    List.range_succ]
  refine ⟨by ring, by ring⟩

end RotationProofs

section RotationClaims

variable {α : Type} [LinearOrderedField α]

/-- The output track of `MakeSvtxTrack` when both extrapolations give a state: its four
r-z fields are those of the `try` block, its states are the placeholder, then the states
of the fit points, then those of the disabled layers. -/
theorem MakeSvtxTrack_fields (cfg : Config α) (env : Env α) (svtx_track : SvtxTrack α)
    (phgf_track : FittedTrack α) (s_line s_vertex : MeasuredStateOnPlane α) (o : SvtxTrack α)
    (hline : phgf_track.gf.extrapolateToLine ⟨0, 0, 0⟩ ⟨0, 0, 1⟩ = Except.ok (some s_line))
    (hpoint : phgf_track.gf.extrapolateToPoint ⟨0, 0, 0⟩ = Except.ok (some s_vertex))
    (ho : MakeSvtxTrack cfg env svtx_track phgf_track = some o) :
    o.dca3d_xy = (dcaFrame env.F s_vertex ⟨0, 0, 0⟩ (TMatrixF.zero 3 3)).dca3d_xy ∧
    o.dca3d_z = (dcaFrame env.F s_vertex ⟨0, 0, 0⟩ (TMatrixF.zero 3 3)).dca3d_z ∧
    o.dca3d_xy_error = (dcaFrame env.F s_vertex ⟨0, 0, 0⟩ (TMatrixF.zero 3 3)).dca3d_xy_error ∧
    o.dca3d_z_error = (dcaFrame env.F s_vertex ⟨0, 0, 0⟩ (TMatrixF.zero 3 3)).dca3d_z_error ∧
    o.states = SvtxTrackState.new 0 ::
      (fitPointStates phgf_track ⟨0, 0, 0⟩ ++
        disabledLayerStates cfg env svtx_track phgf_track ⟨0, 0, 0⟩) := by
  unfold MakeSvtxTrack at ho
  simp only [hline, hpoint, caught, Option.some.injEq] at ho
  subst ho
  exact ⟨rfl, rfl, rfl, rfl, by simp⟩

/-- The call of the frame transform in `MakeSvtxTrack` for a momentum off the beam axis. -/
theorem dcaFrameCall_ok (F : FloatOps α) (s : MeasuredStateOnPlane α)
    (hn : 0.00001 ≤ (s.mom.Cross ⟨0, 0, 1⟩).Mag F) :
    (dcaFrameCall F s ⟨0, 0, 0⟩ (TMatrixF.zero 3 3)).pos_out.elem 0 0 =
      F.cos (rotationAngle F s.mom) * s.pos.x - F.sin (rotationAngle F s.mom) * s.pos.y ∧
    (dcaFrameCall F s ⟨0, 0, 0⟩ (TMatrixF.zero 3 3)).pos_out.elem 2 0 = s.pos.z ∧
    (dcaFrameCall F s ⟨0, 0, 0⟩ (TMatrixF.zero 3 3)).cov_out.elem 2 2 = s.cov6 2 2 := by
  unfold dcaFrameCall
  simp only
  rw [pos_cov_XYZ_to_RZ_ok F _ _ _ _ _ rfl rfl rfl rfl hn]
  simp only
  refine ⟨?_, ?_, ?_⟩
  · rw [(rotation_mul_pos F _ _ 0).1]
    simp [TMatrixF.set, TMatrixF.zero]
  · rw [(rotation_mul_pos F _ _ 0).2.2]
    simp [TMatrixF.set, TMatrixF.zero]
  · rw [(rotation_conj_elem F _ _ rfl).2.2]
    simp [TMatrixF.zero]

/-- C18: the rotation of `pos_cov_XYZ_to_RZ` is the identity on the longitudinal axis:
for a momentum off the beam axis `pos_out[2] = pos_in[2]` and `cov_out[2][2] =
cov_in[2][2]`; so the `dca3d_z` of an output track is the z coordinate of the state
extrapolated to the origin, and `dca3d_z_error` the square root of its z-z covariance. -/
theorem rotation_keeps_longitudinal_axis (cfg : Config α) (env : Env α)
    (n : TVector3 α) (pos_in cov_in pos_out cov_out : TMatrixF α)
    (svtx_track : SvtxTrack α) (phgf_track : FittedTrack α)
    (s_line s_vertex : MeasuredStateOnPlane α) (o : SvtxTrack α)
    (hpr : pos_in.nrows = 3) (hpc : pos_in.ncols = 1)
    (hcr : cov_in.nrows = 3) (hcc : cov_in.ncols = 3)
    (hn : 0.00001 ≤ (n.Cross ⟨0, 0, 1⟩).Mag env.F)
    (hline : phgf_track.gf.extrapolateToLine ⟨0, 0, 0⟩ ⟨0, 0, 1⟩ = Except.ok (some s_line))
    (hpoint : phgf_track.gf.extrapolateToPoint ⟨0, 0, 0⟩ = Except.ok (some s_vertex))
    (hmom : 0.00001 ≤ (s_vertex.mom.Cross ⟨0, 0, 1⟩).Mag env.F)
    (ho : MakeSvtxTrack cfg env svtx_track phgf_track = some o) :
    ((pos_cov_XYZ_to_RZ env.F n pos_in cov_in pos_out cov_out).pos_out.elem 2 0 =
        pos_in.elem 2 0 ∧
      (pos_cov_XYZ_to_RZ env.F n pos_in cov_in pos_out cov_out).cov_out.elem 2 2 =
        cov_in.elem 2 2) ∧
    o.dca3d_z = FloatVal.num s_vertex.pos.z ∧
    o.dca3d_z_error = FloatVal.sqrt env.F (s_vertex.cov6 2 2) := by
  refine ⟨?_, ?_, ?_⟩
  · rw [pos_cov_XYZ_to_RZ_ok env.F n pos_in cov_in pos_out cov_out hpr hpc hcr hcc hn]
    exact ⟨(rotation_mul_pos env.F _ _ 0).2.2, (rotation_conj_elem env.F _ _ hcc).2.2⟩
  · rw [(MakeSvtxTrack_fields cfg env svtx_track phgf_track s_line s_vertex o hline hpoint
      ho).2.1]
    simp only [dcaFrame]
    rw [(dcaFrameCall_ok env.F s_vertex hmom).2.1]
  · rw [(MakeSvtxTrack_fields cfg env svtx_track phgf_track s_line s_vertex o hline hpoint
      ho).2.2.2.1]
    simp only [dcaFrame]
    rw [(dcaFrameCall_ok env.F s_vertex hmom).2.2]

/-- The quadratic form of `R * c * R^T` at `v` is that of `c` at `R^T v`. -/
theorem rotation_conj_quadForm (F : FloatOps α) (phi : α) (c : TMatrixF α)
    (hcc : c.ncols = 3) (v0 v1 v2 : α) :
    (((rotationMatrix F phi).mul c).mul (rotationMatrix F phi).Transpose).quadForm3 v0 v1 v2 =
      c.quadForm3 (F.cos phi * v0 + F.sin phi * v1) (-F.sin phi * v0 + F.cos phi * v1) v2 := by
  simp [TMatrixF.quadForm3, TMatrixF.mul, rotationMatrix, TMatrixF.set, TMatrixF.zero,
    TMatrixF.Transpose, hcc, List.range_succ]
  ring

/-- For a symmetric `c`, `R * c * R^T` is symmetric. -/
theorem rotation_conj_symm (F : FloatOps α) (phi : α) (c : TMatrixF α)
    (hcc : c.ncols = 3) (hs : c.IsSymm3) :
    (((rotationMatrix F phi).mul c).mul (rotationMatrix F phi).Transpose).IsSymm3 := by
  have h01 := hs 0 1 (by norm_num) (by norm_num)
  have h02 := hs 0 2 (by norm_num) (by norm_num)
  have h12 := hs 1 2 (by norm_num) (by norm_num)
  intro i j hi hj
  interval_cases i <;> interval_cases j <;>
    simp [TMatrixF.mul, rotationMatrix, TMatrixF.set, TMatrixF.zero, TMatrixF.Transpose, hcc,
      List.range_succ, h01, h02, h12] <;> ring

/-- C12: for a momentum off the beam axis and a symmetric positive semi-definite 3x3
`cov_in`, the `cov_out = R * cov_in * R^T` of `pos_cov_XYZ_to_RZ` is symmetric and
positive semi-definite; its diagonal entries, whose square roots become `dca3d_xy_error`
and `dca3d_z_error`, are not negative.  (Any ordered field, the reals among them.) -/
theorem rotation_keeps_symmetric_psd (F : FloatOps α) (n : TVector3 α)
    (pos_in cov_in pos_out cov_out : TMatrixF α)
    (hpr : pos_in.nrows = 3) (hpc : pos_in.ncols = 1)
    (hcr : cov_in.nrows = 3) (hcc : cov_in.ncols = 3)
    (hn : 0.00001 ≤ (n.Cross ⟨0, 0, 1⟩).Mag F)
    (hs : cov_in.IsSymm3) (hpsd : cov_in.IsPSD3) :
    (pos_cov_XYZ_to_RZ F n pos_in cov_in pos_out cov_out).cov_out.IsSymm3 ∧
    (pos_cov_XYZ_to_RZ F n pos_in cov_in pos_out cov_out).cov_out.IsPSD3 ∧
    0 ≤ (pos_cov_XYZ_to_RZ F n pos_in cov_in pos_out cov_out).cov_out.elem 0 0 ∧
    0 ≤ (pos_cov_XYZ_to_RZ F n pos_in cov_in pos_out cov_out).cov_out.elem 1 1 ∧
    0 ≤ (pos_cov_XYZ_to_RZ F n pos_in cov_in pos_out cov_out).cov_out.elem 2 2 := by
  rw [pos_cov_XYZ_to_RZ_ok F n pos_in cov_in pos_out cov_out hpr hpc hcr hcc hn]
  simp only
  have hq : (((rotationMatrix F (rotationAngle F n)).mul cov_in).mul
      (rotationMatrix F (rotationAngle F n)).Transpose).IsPSD3 := by
    intro v0 v1 v2
    rw [rotation_conj_quadForm F _ _ hcc]
    exact hpsd _ _ _
  refine ⟨rotation_conj_symm F _ _ hcc hs, hq, ?_, ?_, ?_⟩
  · have := hq 1 0 0
    simpa [TMatrixF.quadForm3] using this
  · have := hq 0 1 0
    simpa [TMatrixF.quadForm3] using this
  · have := hq 0 0 1
    simpa [TMatrixF.quadForm3] using this

end RotationClaims

/-! ## Exact real arithmetic: orthogonality, projections, the seed direction -/

section ExactProofs

/-- With exact real arithmetic, `cos^2 + sin^2 = 1`. -/
theorem exact_cos_sq_add_sin_sq (F : FloatOps ℝ) (hF : F.Exact) (a : ℝ) :
    F.cos a * F.cos a + F.sin a * F.sin a = 1 := by
  obtain ⟨-, -, hc, hs⟩ := hF
  rw [hc, hs]
  have := Real.cos_sq_add_sin_sq a
  nlinarith [this]

/-- With exact real arithmetic, the cosine and sine of `ATan2(y, x)` are `x` and `y` over
`sqrt(x^2 + y^2)`, away from the origin. -/
theorem exact_cos_sin_atan2 (F : FloatOps ℝ) (hF : F.Exact) (x y : ℝ) (h : x ≠ 0 ∨ y ≠ 0) :
    F.cos (F.atan2 y x) = x / F.sqrt (x * x + y * y) ∧
    F.sin (F.atan2 y x) = y / F.sqrt (x * x + y * y) := by
  obtain ⟨hq, ha, hc, hs⟩ := hF
  rw [hc, hs, hq, ha]
  have hz : (⟨x, y⟩ : ℂ) ≠ 0 := by
    intro h0
    have hx := congrArg Complex.re h0
    have hy := congrArg Complex.im h0
    simp at hx hy
    rcases h with h | h
    · exact h hx
    · exact h hy
  rw [Complex.cos_arg hz, Complex.sin_arg, Complex.abs_apply, Complex.normSq_apply]
  exact ⟨rfl, rfl⟩

/-- With exact real arithmetic, cosine is even and sine is odd. -/
theorem exact_cos_sin_neg (F : FloatOps ℝ) (hF : F.Exact) (a : ℝ) :
    F.cos (-a) = F.cos a ∧ F.sin (-a) = -F.sin a := by
  obtain ⟨-, -, hc, hs⟩ := hF
  rw [hc, hs]
  exact ⟨Real.cos_neg a, Real.sin_neg a⟩

/-- The cosine and sine of the rotation angle for a momentum off the beam axis. -/
theorem exact_rotation_cos_sin (F : FloatOps ℝ) (hF : F.Exact) (n : TVector3 ℝ)
    (hn : 0.00001 ≤ (n.Cross ⟨0, 0, 1⟩).Mag F) :
    0 < F.sqrt (n.x ^ 2 + n.y ^ 2) ∧
    F.cos (rotationAngle F n) = n.y / F.sqrt (n.x ^ 2 + n.y ^ 2) ∧
    F.sin (rotationAngle F n) = n.x / F.sqrt (n.x ^ 2 + n.y ^ 2) := by
  rw [cross_z_Mag] at hn
  have hpos : 0 < F.sqrt (n.x ^ 2 + n.y ^ 2) := lt_of_lt_of_le (by norm_num) hn
  have hne : n.y ≠ 0 ∨ -n.x ≠ 0 := by
    by_contra hcon
    push_neg at hcon
    have hx : n.x = 0 := by linarith [hcon.2]
    rw [hx, hcon.1, hF.1] at hpos
    simp at hpos
  have hr : (n.Cross ⟨0, 0, 1⟩).x = n.y ∧ (n.Cross ⟨0, 0, 1⟩).y = -n.x := by
    simp [TVector3.Cross]
  obtain ⟨hc, hs⟩ := exact_cos_sin_atan2 F hF n.y (-n.x) hne
  have harg : n.y * n.y + -n.x * -n.x = n.x ^ 2 + n.y ^ 2 := by ring
  rw [harg] at hc hs
  refine ⟨hpos, ?_, ?_⟩
  · unfold rotationAngle
    rw [(exact_cos_sin_neg F hF _).1, hr.1, hr.2, hc]
  · unfold rotationAngle
    rw [(exact_cos_sin_neg F hF _).2, hr.1, hr.2, hs]
    ring

/-- With exact real arithmetic `R * R^T` is the identity. -/
theorem exact_rotation_orthogonal (F : FloatOps ℝ) (hF : F.Exact) (phi : ℝ) (i j : Nat)
    (hi : i < 3) (hj : j < 3) :
    ((rotationMatrix F phi).mul (rotationMatrix F phi).Transpose).elem i j =
      if i = j then 1 else 0 := by
  have h := exact_cos_sq_add_sin_sq F hF phi
  interval_cases i <;> interval_cases j <;>
    simp [TMatrixF.mul, rotationMatrix, TMatrixF.set, TMatrixF.zero, TMatrixF.Transpose,
      List.range_succ]
  · linarith
  · ring
  · ring
  · linarith

end ExactProofs

section ExactClaims

/-- C11: over exact real arithmetic and for a momentum `n` with `|n x z| >= 1e-5`, the
matrix `R` built by `pos_cov_XYZ_to_RZ` is orthogonal, `R * R^T` is the identity, and
the output `cov_out = R * cov_in * R^T` has the trace of the 3x3 `cov_in`. -/
theorem rotation_orthogonal_keeps_trace (F : FloatOps ℝ) (hF : F.Exact) (n : TVector3 ℝ)
    (pos_in cov_in pos_out cov_out : TMatrixF ℝ)
    (hpr : pos_in.nrows = 3) (hpc : pos_in.ncols = 1)
    (hcr : cov_in.nrows = 3) (hcc : cov_in.ncols = 3)
    (hn : 0.00001 ≤ (n.Cross ⟨0, 0, 1⟩).Mag F) :
    (∀ i j, i < 3 → j < 3 →
      ((rotationMatrix F (rotationAngle F n)).mul
        (rotationMatrix F (rotationAngle F n)).Transpose).elem i j = if i = j then 1 else 0) ∧
    (pos_cov_XYZ_to_RZ F n pos_in cov_in pos_out cov_out).cov_out =
      ((rotationMatrix F (rotationAngle F n)).mul cov_in).mul
        (rotationMatrix F (rotationAngle F n)).Transpose ∧
    (pos_cov_XYZ_to_RZ F n pos_in cov_in pos_out cov_out).cov_out.trace3 = cov_in.trace3 := by
  refine ⟨fun i j hi hj => exact_rotation_orthogonal F hF _ i j hi hj, ?_, ?_⟩
  · rw [pos_cov_XYZ_to_RZ_ok F n pos_in cov_in pos_out cov_out hpr hpc hcr hcc hn]
  · rw [pos_cov_XYZ_to_RZ_ok F n pos_in cov_in pos_out cov_out hpr hpc hcr hcc hn]
    simp only [TMatrixF.trace3]
    obtain ⟨h00, h11, h22⟩ := rotation_conj_elem F (rotationAngle F n) cov_in hcc
    rw [h00, h11, h22]
    have h := exact_cos_sq_add_sin_sq F hF (rotationAngle F n)
    linear_combination (cov_in.elem 0 0 + cov_in.elem 1 1) * h

end ExactClaims

section ProjectionClaims

/-- With exact real arithmetic the square root of a sum of two squares squares back. -/
theorem exact_sqrt_mul_self (F : FloatOps ℝ) (hF : F.Exact) (x y : ℝ) :
    F.sqrt (x ^ 2 + y ^ 2) * F.sqrt (x ^ 2 + y ^ 2) = x ^ 2 + y ^ 2 := by
  rw [hF.1]
  exact Real.mul_self_sqrt (by positivity)

/-- C17: over exact real arithmetic, for a momentum `n` off the beam axis and a position
difference `p = (x, y, z)`, the first component of `pos_out` (stored as `dca3d_xy`) is
`(x n_y - y n_x) / sqrt(n_x^2 + n_y^2)`, the projection of `p` on the unit vector along
`r = n x (0, 0, 1)`, the second is `(x n_x + y n_y) / sqrt(n_x^2 + n_y^2)`, and `R` maps
`r` to `(|r|, 0, 0)`. -/
theorem rotation_projects_on_r (cfg : Config ℝ) (env : Env ℝ) (hF : env.F.Exact)
    (n : TVector3 ℝ) (pos_in cov_in pos_out cov_out : TMatrixF ℝ)
    (svtx_track : SvtxTrack ℝ) (phgf_track : FittedTrack ℝ)
    (s_line s_vertex : MeasuredStateOnPlane ℝ) (o : SvtxTrack ℝ)
    (hpr : pos_in.nrows = 3) (hpc : pos_in.ncols = 1)
    (hcr : cov_in.nrows = 3) (hcc : cov_in.ncols = 3)
    (hn : 0.00001 ≤ (n.Cross ⟨0, 0, 1⟩).Mag env.F)
    (hline : phgf_track.gf.extrapolateToLine ⟨0, 0, 0⟩ ⟨0, 0, 1⟩ = Except.ok (some s_line))
    (hpoint : phgf_track.gf.extrapolateToPoint ⟨0, 0, 0⟩ = Except.ok (some s_vertex))
    (hmom : 0.00001 ≤ (s_vertex.mom.Cross ⟨0, 0, 1⟩).Mag env.F)
    (ho : MakeSvtxTrack cfg env svtx_track phgf_track = some o) :
    ((pos_cov_XYZ_to_RZ env.F n pos_in cov_in pos_out cov_out).pos_out.elem 0 0 =
        (pos_in.elem 0 0 * n.y - pos_in.elem 1 0 * n.x) / env.F.sqrt (n.x ^ 2 + n.y ^ 2) ∧
      (pos_cov_XYZ_to_RZ env.F n pos_in cov_in pos_out cov_out).pos_out.elem 1 0 =
        (pos_in.elem 0 0 * n.x + pos_in.elem 1 0 * n.y) / env.F.sqrt (n.x ^ 2 + n.y ^ 2)) ∧
    (((rotationMatrix env.F (rotationAngle env.F n)).mul
        ((((TMatrixF.zero 3 1).set 0 0 (n.Cross ⟨0, 0, 1⟩).x).set 1 0
          (n.Cross ⟨0, 0, 1⟩).y).set 2 0 (n.Cross ⟨0, 0, 1⟩).z)).elem 0 0 =
        (n.Cross ⟨0, 0, 1⟩).Mag env.F ∧
      ((rotationMatrix env.F (rotationAngle env.F n)).mul
        ((((TMatrixF.zero 3 1).set 0 0 (n.Cross ⟨0, 0, 1⟩).x).set 1 0
          (n.Cross ⟨0, 0, 1⟩).y).set 2 0 (n.Cross ⟨0, 0, 1⟩).z)).elem 1 0 = 0 ∧
      ((rotationMatrix env.F (rotationAngle env.F n)).mul
        ((((TMatrixF.zero 3 1).set 0 0 (n.Cross ⟨0, 0, 1⟩).x).set 1 0
          (n.Cross ⟨0, 0, 1⟩).y).set 2 0 (n.Cross ⟨0, 0, 1⟩).z)).elem 2 0 = 0) ∧
    o.dca3d_xy = FloatVal.num
      ((s_vertex.pos.x * s_vertex.mom.y - s_vertex.pos.y * s_vertex.mom.x) /
        env.F.sqrt (s_vertex.mom.x ^ 2 + s_vertex.mom.y ^ 2)) := by
  obtain ⟨hpos, hc, hs⟩ := exact_rotation_cos_sin env.F hF n hn
  have hsq := exact_sqrt_mul_self env.F hF n.x n.y
  refine ⟨?_, ?_, ?_⟩
  · rw [pos_cov_XYZ_to_RZ_ok env.F n pos_in cov_in pos_out cov_out hpr hpc hcr hcc hn]
    simp only
    rw [(rotation_mul_pos env.F _ _ 0).1, (rotation_mul_pos env.F _ _ 0).2.1, hc, hs]
    constructor <;> ring
  · rw [(rotation_mul_pos env.F _ _ 0).1, (rotation_mul_pos env.F _ _ 0).2.1,
      (rotation_mul_pos env.F _ _ 0).2.2, hc, hs, cross_z_Mag]
    simp only [TMatrixF.set, TMatrixF.zero, TVector3.Cross]
    simp
    constructor
    · field_simp
      nlinarith [hsq]
    · ring
  · obtain ⟨-, hc2, hs2⟩ := exact_rotation_cos_sin env.F hF s_vertex.mom hmom
    rw [(MakeSvtxTrack_fields cfg env svtx_track phgf_track s_line s_vertex o hline hpoint
      ho).1]
    simp only [dcaFrame]
    rw [(dcaFrameCall_ok env.F s_vertex hmom).1, hc2, hs2]
    congr 1
    ring

end ProjectionClaims

section SeedProofs

/-- With exact real arithmetic, the square root is the positive number with that square. -/
theorem exact_sqrt_eq (F : FloatOps ℝ) (hF : F.Exact) (a v : ℝ) (hv : 0 < v)
    (h : v * v = a) : F.sqrt a = v := by
  rw [hF.1]
  exact (Real.sqrt_eq_iff_mul_self_eq_of_pos hv).2 h

/-- With exact real arithmetic, a positive square root squares back to its argument. -/
theorem exact_sqrt_pos (F : FloatOps ℝ) (hF : F.Exact) (a : ℝ) (h : 0 < F.sqrt a) :
    F.sqrt a * F.sqrt a = a := by
  rw [hF.1] at h ⊢
  exact Real.mul_self_sqrt (le_of_lt (Real.sqrt_pos.1 h))

/-- A point off the beam axis has a positive transverse radius and a positive magnitude,
and the magnitude squares to the transverse radius squared plus `z^2`. -/
theorem exact_perp_mag (F : FloatOps ℝ) (hF : F.Exact) (p : TVector3 ℝ)
    (hp : p.x ≠ 0 ∨ p.y ≠ 0) :
    0 < p.Perp F ∧ 0 < p.Mag F ∧ p.Perp F * p.Perp F = p.x * p.x + p.y * p.y ∧
    p.Mag F * p.Mag F = p.x * p.x + p.y * p.y + p.z * p.z := by
  have h2 : 0 < p.x * p.x + p.y * p.y := by
    rcases hp with h | h
    · have := mul_self_pos.2 h
      nlinarith [mul_self_nonneg p.y]
    · have := mul_self_pos.2 h
      nlinarith [mul_self_nonneg p.x]
  have h3 : 0 < p.x * p.x + p.y * p.y + p.z * p.z := by nlinarith [mul_self_nonneg p.z]
  unfold TVector3.Perp TVector3.Mag TVector3.Perp2 TVector3.Mag2
  rw [hF.1]
  exact ⟨Real.sqrt_pos.2 h2, Real.sqrt_pos.2 h3, Real.mul_self_sqrt (le_of_lt h2),
    Real.mul_self_sqrt (le_of_lt h3)⟩

/-- One update of the seed momentum in the second loop of `ReFitTrack`, over exact real
arithmetic: a seed of magnitude `M` off the beam axis, given the azimuth and then the polar
angle of a position `p` off the beam axis, becomes the vector of magnitude `M` along `p`. -/
theorem exact_seed_update (F : FloatOps ℝ) (hF : F.Exact) (s p : TVector3 ℝ)
    (hs : 0 < s.Perp F) (hp : p.x ≠ 0 ∨ p.y ≠ 0) :
    (s.SetPhi F (p.Phi F)).SetTheta F (p.Theta F) = directionOf F (s.Mag F) p ∧
    0 < (directionOf F (s.Mag F) p).Perp F ∧
    (directionOf F (s.Mag F) p).Mag F = s.Mag F := by
  obtain ⟨hρ, hm, hρ2, hm2⟩ := exact_perp_mag F hF p hp
  have hσ2 : s.Perp F * s.Perp F = s.x * s.x + s.y * s.y := exact_sqrt_pos F hF _ hs
  have hM : 0 < s.Mag F := by
    unfold TVector3.Mag TVector3.Mag2
    rw [hF.1]
    unfold TVector3.Perp TVector3.Perp2 at hs
    rw [hF.1] at hs
    have := Real.sqrt_pos.1 hs
    exact Real.sqrt_pos.2 (by nlinarith [mul_self_nonneg s.z])
  have hM2 : s.Mag F * s.Mag F = s.x * s.x + s.y * s.y + s.z * s.z := exact_sqrt_pos F hF _ hM
  -- the angles of `p`
  have hphi : p.Phi F = F.atan2 p.y p.x := by
    unfold TVector3.Phi
    rw [if_neg]
    intro h
    rcases hp with h1 | h1
    · exact h1 h.1
    · exact h1 h.2
  have htheta : p.Theta F = F.atan2 (p.Perp F) p.z := by
    unfold TVector3.Theta
    rw [if_neg]
    intro h
    rcases hp with h1 | h1
    · exact h1 h.1
    · exact h1 h.2.1
  obtain ⟨hcφ, hsφ⟩ := exact_cos_sin_atan2 F hF p.x p.y hp
  obtain ⟨hcθ, hsθ⟩ := exact_cos_sin_atan2 F hF p.z (p.Perp F) (Or.inr (ne_of_gt hρ))
  have hmag : F.sqrt (p.z * p.z + p.Perp F * p.Perp F) = p.Mag F :=
    exact_sqrt_eq F hF _ _ hm (by rw [hm2, hρ2]; ring)
  rw [hmag] at hcθ hsθ
  have hperp : F.sqrt (p.x * p.x + p.y * p.y) = p.Perp F := rfl
  rw [hperp] at hcφ hsφ
  -- name the four lengths
  generalize hρdef : p.Perp F = ρ at hρ hρ2 hcφ hsφ hcθ hsθ htheta
  generalize hmdef : p.Mag F = m at hm hm2 hcθ hsθ
  generalize hσ : s.Perp F = σ at hs hσ2
  generalize hMdef : s.Mag F = M at hM hM2
  have hρne : ρ ≠ 0 := ne_of_gt hρ
  have hmne : m ≠ 0 := ne_of_gt hm
  have hσne : σ ≠ 0 := ne_of_gt hs
  -- the seed after `SetPhi`
  have h1 : s.SetPhi F (p.Phi F) = ⟨σ * (p.x / ρ), σ * (p.y / ρ), s.z⟩ := by
    unfold TVector3.SetPhi
    simp only [hphi, hcφ, hsφ, hσ]
  have h1sq : σ * (p.x / ρ) * (σ * (p.x / ρ)) + σ * (p.y / ρ) * (σ * (p.y / ρ)) = σ * σ := by
    field_simp
    linear_combination (-(σ * σ)) * hρ2
  have h1perp : F.sqrt (σ * (p.x / ρ) * (σ * (p.x / ρ)) + σ * (p.y / ρ) * (σ * (p.y / ρ))) =
      σ := exact_sqrt_eq F hF _ _ hs h1sq.symm
  have h1mag : F.sqrt (σ * (p.x / ρ) * (σ * (p.x / ρ)) + σ * (p.y / ρ) * (σ * (p.y / ρ)) +
      s.z * s.z) = M :=
    exact_sqrt_eq F hF _ _ hM (by rw [h1sq, hM2, hσ2])
  have h1ne : σ * (p.x / ρ) ≠ 0 ∨ σ * (p.y / ρ) ≠ 0 := by
    rcases hp with h | h
    · exact Or.inl (mul_ne_zero hσne (div_ne_zero h hρne))
    · exact Or.inr (mul_ne_zero hσne (div_ne_zero h hρne))
  obtain ⟨hc1, hs1⟩ := exact_cos_sin_atan2 F hF _ _ h1ne
  rw [h1perp] at hc1 hs1
  have h2 : (s.SetPhi F (p.Phi F)).SetTheta F (p.Theta F) =
      ⟨M * (ρ / m) * (σ * (p.x / ρ) / σ), M * (ρ / m) * (σ * (p.y / ρ) / σ), M * (p.z / m)⟩ := by
    rw [h1]
    unfold TVector3.SetTheta TVector3.Mag TVector3.Mag2 TVector3.Phi
    simp only [h1mag, htheta, hcθ, hsθ]
    rw [if_neg (by
      intro h
      rcases h1ne with h3 | h3
      · exact h3 h.1
      · exact h3 h.2)]
    rw [hc1, hs1]
  have hdir : directionOf F M p = ⟨M * p.x / m, M * p.y / m, M * p.z / m⟩ := by
    unfold directionOf
    rw [hmdef]
  have hdsq : M * p.x / m * (M * p.x / m) + M * p.y / m * (M * p.y / m) =
      M * ρ / m * (M * ρ / m) := by
    field_simp
    linear_combination (M * M) * hρ2.symm
  have hdsq3 : M * p.x / m * (M * p.x / m) + M * p.y / m * (M * p.y / m) +
      M * p.z / m * (M * p.z / m) = M * M := by
    field_simp
    linear_combination (-(M * M)) * hm2
  refine ⟨?_, ?_, ?_⟩
  · rw [h2, hdir]
    congr 1 <;> field_simp <;> ring
  · rw [hdir]
    unfold TVector3.Perp TVector3.Perp2
    simp only
    rw [exact_sqrt_eq F hF _ (M * ρ / m) (by positivity) hdsq.symm]
    positivity
  · rw [hdir]
    unfold TVector3.Mag TVector3.Mag2
    simp only
    exact exact_sqrt_eq F hF _ M hM hdsq3.symm

end SeedProofs

/-! ## The seed state of `ReFitTrack` -/

section SeedClaims

/-- One pass of the second loop on an entry without measurement leaves the locals alone. -/
theorem buildStep_of_none {α : Type} [LinearOrderedField α] (cfg : Config α) (env : Env α)
    (crossing : Int) (st : MeasurementBuild α) (e : α × cluskey)
    (h : measurementOf cfg env crossing e = none) : buildStep cfg env crossing st e = st := by
  unfold measurementOf at h
  unfold buildStep
  by_cases hd : (env.getLayer e.2 : Int) ∈ cfg._disabled_layers
  · simp [hd]
  · cases hc : env.findCluster e.2 with
    | none => simp [hd, hc]
    | some c => simp [hd, hc] at h

/-- One pass of the second loop on an entry with a measurement turns the seed momentum to
the angles of the measurement's position. -/
theorem buildStep_of_some {α : Type} [LinearOrderedField α] (cfg : Config α) (env : Env α)
    (crossing : Int) (st : MeasurementBuild α) (e : α × cluskey) (m : Measurement α)
    (h : measurementOf cfg env crossing e = some m) :
    (buildStep cfg env crossing st e).seed_mom =
      (st.seed_mom.SetPhi env.F (m.pos.Phi env.F)).SetTheta env.F (m.pos.Theta env.F) := by
  unfold measurementOf at h
  unfold buildStep
  by_cases hd : (env.getLayer e.2 : Int) ∈ cfg._disabled_layers
  · simp [hd] at h
  · cases hc : env.findCluster e.2 with
    | none => simp [hd, hc] at h
    | some c =>
      simp [hd, hc] at h
      subst h
      simp [hd, hc, makeMeasurement_pos]

/-- The seed momentum after the second loop, over exact real arithmetic: it keeps its
magnitude and points along the position of the last measurement built. -/
theorem buildMeasurements_seed (cfg : Config ℝ) (env : Env ℝ) (hF : env.F.Exact)
    (crossing : Int) (l : List (ℝ × cluskey)) (st : MeasurementBuild ℝ)
    (hs : 0 < st.seed_mom.Perp env.F)
    (hoff : ∀ m ∈ l.filterMap (measurementOf cfg env crossing), m.pos.x ≠ 0 ∨ m.pos.y ≠ 0) :
    (l.foldl (buildStep cfg env crossing) st).seed_mom =
      (match (l.filterMap (measurementOf cfg env crossing)).getLast? with
        | none => st.seed_mom
        | some m => directionOf env.F (st.seed_mom.Mag env.F) m.pos) ∧
    0 < (l.foldl (buildStep cfg env crossing) st).seed_mom.Perp env.F ∧
    (l.foldl (buildStep cfg env crossing) st).seed_mom.Mag env.F = st.seed_mom.Mag env.F := by
  induction l using List.reverseRecOn with
  | nil => simp [hs]
  | append_singleton init e ih =>
    rw [List.foldl_append, List.foldl_cons, List.foldl_nil]
    rw [List.filterMap_append] at hoff ⊢
    obtain ⟨-, ihp, ihm⟩ := ih (fun m hm => hoff m (List.mem_append_left _ hm))
    cases he : measurementOf cfg env crossing e with
    | none =>
      rw [buildStep_of_none cfg env crossing _ e he]
      have := ih (fun m hm => hoff m (List.mem_append_left _ hm))
      simpa [List.filterMap_cons, he] using this
    | some m =>
      rw [buildStep_of_some cfg env crossing _ e m he]
      have hm : m.pos.x ≠ 0 ∨ m.pos.y ≠ 0 :=
        hoff m (List.mem_append_right _ (by simp [List.filterMap_cons, he]))
      obtain ⟨h1, h2, h3⟩ := exact_seed_update env.F hF _ m.pos ihp hm
      rw [h1, ihm] at *
      refine ⟨?_, h2, h3⟩
      simp [List.filterMap_cons, he]

/-- The seed state of a track handed to the engine: the position is the origin, the
momentum is the one the second loop ends with. -/
theorem ReFitTrack_calls_seed {α : Type} [LinearOrderedField α] (cfg : Config α) (env : Env α)
    (intrack : SvtxTrack α) (t : PHGenFitTrack α)
    (ht : t ∈ (ReFitTrack cfg env (some intrack)).processTrack_calls) :
    t.seed_pos = ⟨0, 0, 0⟩ ∧
    t.seed_mom = (buildMeasurements cfg env intrack.crossing ⟨100, 0, 0⟩
      (scanClusters env intrack.crossing (get_cluster_keys intrack)).m_r_cluster_id).seed_mom := by
  unfold ReFitTrack at ht
  simp only at ht
  split_ifs at ht with h1 h2 h3
  · simp at ht
  · simp at ht
  · simp at ht
    subst ht
    simp [PHGenFitTrack.addMeasurements]
  · simp at ht
    subst ht
    simp [PHGenFitTrack.addMeasurements]

/-- The second loop started with the seed momentum (100, 0, 0), over exact real
arithmetic: the momentum keeps the magnitude 100 and ends along the position of the last
measurement built. -/
theorem buildMeasurements_seed_init (cfg : Config ℝ) (env : Env ℝ) (hF : env.F.Exact)
    (crossing : Int) (l : List (ℝ × cluskey))
    (hoff : ∀ m ∈ l.filterMap (measurementOf cfg env crossing), m.pos.x ≠ 0 ∨ m.pos.y ≠ 0) :
    (buildMeasurements cfg env crossing ⟨100, 0, 0⟩ l).seed_mom.Mag env.F = 100 ∧
    (buildMeasurements cfg env crossing ⟨100, 0, 0⟩ l).seed_mom =
      (match (l.filterMap (measurementOf cfg env crossing)).getLast? with
        | none => ⟨100, 0, 0⟩
        | some m => directionOf env.F 100 m.pos) := by
  have h100 : (⟨100, 0, 0⟩ : TVector3 ℝ).Mag env.F = 100 := by
    unfold TVector3.Mag TVector3.Mag2
    exact exact_sqrt_eq env.F hF _ 100 (by norm_num) (by norm_num)
  have hperp : 0 < (⟨100, 0, 0⟩ : TVector3 ℝ).Perp env.F := by
    unfold TVector3.Perp TVector3.Perp2
    rw [exact_sqrt_eq env.F hF _ 100 (by norm_num) (by norm_num)]
    norm_num
  obtain ⟨h1, -, h3⟩ := buildMeasurements_seed cfg env hF crossing l ⟨⟨100, 0, 0⟩, []⟩ hperp hoff
  rw [h100] at h1 h3
  exact ⟨h3, h1⟩

/-- C16 (amended): over exact real arithmetic, and with every measurement off the beam
axis, the seed state `ReFitTrack` hands to the engine has position (0, 0, 0) and a
momentum of magnitude 100 that points along the global position of the last measurement
built, the one of the outermost cluster; without measurements it is (100, 0, 0). -/
theorem ReFitTrack_seed_direction (cfg : Config ℝ) (env : Env ℝ) (hF : env.F.Exact)
    (intrack : SvtxTrack ℝ) (t : PHGenFitTrack ℝ)
    (ht : t ∈ (ReFitTrack cfg env (some intrack)).processTrack_calls)
    (hoff : ∀ m ∈ t.measurements, m.pos.x ≠ 0 ∨ m.pos.y ≠ 0) :
    t.seed_pos = ⟨0, 0, 0⟩ ∧ t.seed_mom.Mag env.F = 100 ∧
    t.seed_mom =
      (match t.measurements.getLast? with
        | none => ⟨100, 0, 0⟩
        | some m => directionOf env.F 100 m.pos) := by
  obtain ⟨hpos, hmom⟩ := ReFitTrack_calls_seed cfg env intrack t ht
  have hmeas := ReFitTrack_calls cfg env intrack t ht
  rw [hmeas] at hoff ⊢
  rw [hmom]
  exact ⟨hpos, buildMeasurements_seed_init cfg env hF intrack.crossing _ hoff⟩

end SeedClaims

section SeedExamples

/-- Over exact real arithmetic, the candidate with the silicon keys 1 and 2 is handed to
the engine with two measurements, at (2, 0, 0) and then at (0, 3, 0). -/
theorem ReFitTrack_seed_example :
    ∃ t, (ReFitTrack (⟨false, true, ∅, 0, 211⟩ : Config ℝ)
        (exampleEnvOver (FloatOps.mk Real.sqrt (fun y x => Complex.arg ⟨x, y⟩) Real.cos Real.sin))
        (some (exampleTrackOver [1, 2] []))).processTrack_calls = [t] ∧
      ∃ m1 m2, t.measurements = [m1, m2] ∧ m1.pos = ⟨2, 0, 0⟩ ∧ m2.pos = ⟨0, 3, 0⟩ := by
  obtain ⟨t, hcalls, -⟩ := ReFitTrack_pass (⟨false, true, ∅, 0, 211⟩ : Config ℝ)
    (exampleEnvOver (FloatOps.mk Real.sqrt (fun y x => Complex.arg ⟨x, y⟩) Real.cos Real.sin))
    (exampleTrackOver [1, 2] []) (by simp)
  refine ⟨t, hcalls, ?_⟩
  have ht := ReFitTrack_calls _ _ _ t (by rw [hcalls]; exact List.mem_singleton.2 rfl)
  rw [ht]
  have h4 : Real.sqrt (square 2 + square 0) = 2 :=
    (Real.sqrt_eq_iff_mul_self_eq_of_pos (by norm_num)).2 (by norm_num [square])
  have h9 : Real.sqrt (square 0 + square 3) = 3 :=
    (Real.sqrt_eq_iff_mul_self_eq_of_pos (by norm_num)).2 (by norm_num [square])
  have hscan : (scanClusters
      (exampleEnvOver (FloatOps.mk Real.sqrt (fun y x => Complex.arg ⟨x, y⟩) Real.cos Real.sin))
      (exampleTrackOver [1, 2] [] : SvtxTrack ℝ).crossing
      (get_cluster_keys (exampleTrackOver [1, 2] [] : SvtxTrack ℝ))).m_r_cluster_id =
      [(2, 1), (3, 2)] := by
    simp [scanClusters, scanCluster, get_cluster_keys, exampleTrackOver, exampleEnvOver,
      examplePositionOver, exampleTrkrId, get_r, emplace, h4, h9]
    norm_num
  rw [hscan]
  refine ⟨_, _, by simp [measurementOf, exampleEnvOver]; exact ⟨rfl, rfl⟩, ?_, ?_⟩
  · rw [makeMeasurement_pos]; simp [examplePositionOver]
  · rw [makeMeasurement_pos]; simp [examplePositionOver]

/-- The vectors of magnitude 100 along (2, 0, 0) and along (0, 3, 0), over exact real
arithmetic. -/
theorem directionOf_example :
    directionOf (FloatOps.mk Real.sqrt (fun y x => Complex.arg ⟨x, y⟩) Real.cos Real.sin)
      100 ⟨2, 0, 0⟩ = ⟨100, 0, 0⟩ ∧
    directionOf (FloatOps.mk Real.sqrt (fun y x => Complex.arg ⟨x, y⟩) Real.cos Real.sin)
      100 ⟨0, 3, 0⟩ = ⟨0, 100, 0⟩ := by
  have h2 : Real.sqrt (2 * 2 + 0 * 0 + 0 * 0) = 2 :=
    (Real.sqrt_eq_iff_mul_self_eq_of_pos (by norm_num)).2 (by norm_num)
  have h3 : Real.sqrt (0 * 0 + 3 * 3 + 0 * 0) = 3 :=
    (Real.sqrt_eq_iff_mul_self_eq_of_pos (by norm_num)).2 (by norm_num)
  constructor
  · unfold directionOf TVector3.Mag TVector3.Mag2
    simp only [h2]
    norm_num
  · unfold directionOf TVector3.Mag TVector3.Mag2
    simp only [h3]
    norm_num

/-- C16 (counterexample): over exact real arithmetic, a candidate with two silicon
clusters, the inner one at (2, 0, 0) and the outer one at (0, 3, 0): the seed momentum
handed to the engine is (0, 100, 0), along the outer cluster, and not (100, 0, 0), the
vector of magnitude 100 with the angles of the first, innermost cluster. -/
theorem ReFitTrack_seed_direction_counterexample :
    ∃ t, (ReFitTrack (⟨false, true, ∅, 0, 211⟩ : Config ℝ)
        (exampleEnvOver (FloatOps.mk Real.sqrt (fun y x => Complex.arg ⟨x, y⟩) Real.cos Real.sin))
        (some (exampleTrackOver [1, 2] []))).processTrack_calls = [t] ∧
      t.measurements.map (fun m => m.pos) = [⟨2, 0, 0⟩, ⟨0, 3, 0⟩] ∧
      t.seed_mom = ⟨0, 100, 0⟩ ∧
      directionOf (FloatOps.mk Real.sqrt (fun y x => Complex.arg ⟨x, y⟩) Real.cos Real.sin)
        100 ⟨2, 0, 0⟩ = ⟨100, 0, 0⟩ ∧
      t.seed_mom ≠
        directionOf (FloatOps.mk Real.sqrt (fun y x => Complex.arg ⟨x, y⟩) Real.cos Real.sin)
          100 ⟨2, 0, 0⟩ := by
  obtain ⟨t, hcalls, m1, m2, hm, h1, h2⟩ := ReFitTrack_seed_example
  have ht : t ∈ (ReFitTrack (⟨false, true, ∅, 0, 211⟩ : Config ℝ)
      (exampleEnvOver (FloatOps.mk Real.sqrt (fun y x => Complex.arg ⟨x, y⟩) Real.cos Real.sin))
      (some (exampleTrackOver [1, 2] []))).processTrack_calls := by
    rw [hcalls]; exact List.mem_singleton.2 rfl
  have hmeas := ReFitTrack_calls _ _ _ t ht
  obtain ⟨-, hseed⟩ := buildMeasurements_seed_init (⟨false, true, ∅, 0, 211⟩ : Config ℝ)
    (exampleEnvOver (FloatOps.mk Real.sqrt (fun y x => Complex.arg ⟨x, y⟩) Real.cos Real.sin))
    ⟨rfl, fun _ _ => rfl, rfl, rfl⟩ (exampleTrackOver [1, 2] [] : SvtxTrack ℝ).crossing _
    (by
      rw [← hmeas, hm]
      intro m hmem
      simp only [List.mem_cons, List.mem_singleton, List.not_mem_nil, or_false] at hmem
      rcases hmem with rfl | rfl
      · rw [h1]; exact Or.inl (by norm_num)
      · rw [h2]; exact Or.inr (by norm_num))
  have hseed2 : t.seed_mom = ⟨0, 100, 0⟩ := by
    rw [(ReFitTrack_calls_seed _ _ _ t ht).2, hseed, ← hmeas, hm]
    simp only [List.getLast?_cons_cons, List.getLast?_singleton]
    rw [h2]
    exact directionOf_example.2
  refine ⟨t, hcalls, by rw [hm]; simp [h1, h2], hseed2, directionOf_example.1, ?_⟩
  rw [hseed2, directionOf_example.1]
  intro h
  have := congrArg TVector3.x h
  norm_num at this

theorem ReFitTrack_seed_direction_witness :
    ∃ t, (ReFitTrack (⟨false, true, ∅, 0, 211⟩ : Config ℝ)
        (exampleEnvOver (FloatOps.mk Real.sqrt (fun y x => Complex.arg ⟨x, y⟩) Real.cos Real.sin))
        (some (exampleTrackOver [1, 2] []))).processTrack_calls = [t] ∧
      (∀ m ∈ t.measurements, m.pos.x ≠ 0 ∨ m.pos.y ≠ 0) ∧
      t.seed_pos = ⟨0, 0, 0⟩ ∧
      t.seed_mom.Mag (FloatOps.mk Real.sqrt (fun y x => Complex.arg ⟨x, y⟩) Real.cos Real.sin) =
        100 ∧
      t.seed_mom =
        (match t.measurements.getLast? with
          | none => ⟨100, 0, 0⟩
          | some m =>
            directionOf (FloatOps.mk Real.sqrt (fun y x => Complex.arg ⟨x, y⟩) Real.cos Real.sin)
              100 m.pos) := by
  obtain ⟨t, hcalls, m1, m2, hm, h1, h2⟩ := ReFitTrack_seed_example
  have hoff : ∀ m ∈ t.measurements, m.pos.x ≠ 0 ∨ m.pos.y ≠ 0 := by
    rw [hm]
    intro m hmem
    simp only [List.mem_cons, List.mem_singleton, List.not_mem_nil, or_false] at hmem
    rcases hmem with rfl | rfl
    · rw [h1]; exact Or.inl (by norm_num)
    · rw [h2]; exact Or.inr (by norm_num)
  exact ⟨t, hcalls, hoff,
    ReFitTrack_seed_direction (⟨false, true, ∅, 0, 211⟩ : Config ℝ)
      (exampleEnvOver (FloatOps.mk Real.sqrt (fun y x => Complex.arg ⟨x, y⟩) Real.cos Real.sin))
      ⟨rfl, fun _ _ => rfl, rfl, rfl⟩ (exampleTrackOver [1, 2] []) t
      (by rw [hcalls]; exact List.mem_singleton.2 rfl) hoff⟩

end SeedExamples

/-! ## Distinct cluster keys, and the anchor of the disabled-layer loop -/

section KeyClaims

variable {α : Type} [LinearOrderedField α]

/-- C15: the cluster keys of the measurements `ReFitTrack` hands to the engine are
pairwise distinct, whatever the candidate: the radius map files a key under the radius of
its cluster, so a key listed twice meets its own entry and is filed once. -/
theorem ReFitTrack_measurement_keys_distinct (cfg : Config α) (env : Env α)
    (intrack : SvtxTrack α) (t : PHGenFitTrack α)
    (ht : t ∈ (ReFitTrack cfg env (some intrack)).processTrack_calls) :
    (t.measurements.map (fun m => m.cluster_key)).Nodup := by
  obtain ⟨hsorted, hentries⟩ :=
    scanClusters_map env intrack.crossing (get_cluster_keys intrack)
  rw [ReFitTrack_calls cfg env intrack t ht]
  unfold List.Nodup
  rw [List.pairwise_map, List.pairwise_filterMap]
  refine List.Pairwise.imp_of_mem ?_ hsorted
  intro a b ha hb hab m hm m2 hm2 hkey
  obtain ⟨hk, -, -, -⟩ := measurementOf_spec cfg env intrack.crossing a m hm
  obtain ⟨hk2, -, -, -⟩ := measurementOf_spec cfg env intrack.crossing b m2 hm2
  have h1 := (hentries a ha).1
  have h2 := (hentries b hb).1
  rw [hk, hk2] at hkey
  rw [h1, h2, hkey] at hab
  exact lt_irrefl _ hab

end KeyClaims

section KeyExamples

theorem ReFitTrack_measurement_keys_distinct_witness :
    exampleHanded false ∈ (ReFitTrack (exampleConfig false true) (exampleEnv ⟨0, 0, 1⟩)
        (some (exampleTrack [2, 1] [40, 30, 1]))).processTrack_calls ∧
    ((exampleHanded false).measurements.map (fun m => m.cluster_key)).Nodup :=
  ⟨by decide!,
    ReFitTrack_measurement_keys_distinct (exampleConfig false true) (exampleEnv ⟨0, 0, 1⟩)
      (exampleTrack [2, 1] [40, 30, 1]) (exampleHanded false) (by decide!)⟩

end KeyExamples

section AnchorProofs

variable {α : Type} [LinearOrderedField α]

/-- The radius search never moves backwards and runs at most `fuel` points on. -/
theorem radiusSearch_bounds (F : FloatOps α) (gf : GenFitTrack α) (r_cluster : α)
    (fuel id : Nat) :
    id ≤ radiusSearch F gf r_cluster fuel id ∧ radiusSearch F gf r_cluster fuel id ≤ id + fuel := by
  induction fuel generalizing id with
  | zero => simp [radiusSearch]
  | succ fuel ih =>
    unfold radiusSearch
    split_ifs with h
    · omega
    · obtain ⟨h1, h2⟩ := ih (id + 1)
      omega

/-- The radius search of one pass ends between the carried anchor and the number of fit
points (or at the anchor, should it lie beyond). -/
theorem clusterSearch_bounds (env : Env α) (gf : GenFitTrack α) (crossing : Int)
    (id_min : Nat) (cluster_key : cluskey) :
    id_min ≤ clusterSearch env gf crossing id_min cluster_key ∧
    clusterSearch env gf crossing id_min cluster_key ≤
      max id_min gf.getNumPointsWithMeasurement := by
  unfold clusterSearch
  simp only
  obtain ⟨h1, h2⟩ := radiusSearch_bounds env.F gf
    (env.F.sqrt
      (square (env.getGlobalPositionDistortionCorrected cluster_key
        (env.findCluster cluster_key) crossing).x +
       square (env.getGlobalPositionDistortionCorrected cluster_key
        (env.findCluster cluster_key) crossing).y))
    (gf.getNumPointsWithMeasurement - id_min) id_min
  refine ⟨h1, ?_⟩
  rcases le_total id_min gf.getNumPointsWithMeasurement with h | h
  · rw [max_eq_right h]; omega
  · rw [max_eq_left h]; omega

/-- What one pass of the loop over the disabled layers does to the carried anchor: nothing
for a cluster of an enabled layer, `if (id > 0) id_min = id - 1;` otherwise. -/
theorem disabledLayerStep_id_min (cfg : Config α) (env : Env α) (gf : GenFitTrack α)
    (crossing : Int) (vertex_position : TVector3 α) (st : LayerLoop α) (cluster_key : cluskey) :
    (disabledLayerStep cfg env gf crossing vertex_position st cluster_key).id_min =
      if (env.getLayer cluster_key : Int) ∈ cfg._disabled_layers then
        forwardAnchor (clusterSearch env gf crossing st.id_min cluster_key) st.id_min
      else st.id_min := by
  unfold disabledLayerStep
  simp only
  by_cases hd : (env.getLayer cluster_key : Int) ∈ cfg._disabled_layers
  · rw [if_neg (not_not.2 hd), if_pos hd]
    cases forwardExtrapolate env gf
        (forwardAnchor (clusterSearch env gf crossing st.id_min cluster_key) st.id_min)
        ⟨(env.getGlobalPositionDistortionCorrected cluster_key
            (env.findCluster cluster_key) crossing).x,
          (env.getGlobalPositionDistortionCorrected cluster_key
            (env.findCluster cluster_key) crossing).y,
          (env.getGlobalPositionDistortionCorrected cluster_key
            (env.findCluster cluster_key) crossing).z⟩ vertex_position with
    | none => rfl
    | some fwd =>
      simp only
      split_ifs with h1
      · cases backwardAverage env gf (clusterSearch env gf crossing st.id_min cluster_key)
          fwd.2 <;> rfl
      · rfl
  · rw [if_pos hd, if_neg hd]

/-- The anchor carried through the loop over the disabled layers stays at or below the last
fit point. -/
theorem disabledLayerLoop_id_min (cfg : Config α) (env : Env α) (gf : GenFitTrack α)
    (crossing : Int) (vertex_position : TVector3 α) (keys : List cluskey) :
    (keys.foldl (disabledLayerStep cfg env gf crossing vertex_position) ⟨0, []⟩).id_min ≤
      gf.getNumPointsWithMeasurement - 1 := by
  have key : ∀ (l : List cluskey) (st : LayerLoop α),
      st.id_min ≤ gf.getNumPointsWithMeasurement - 1 →
      (l.foldl (disabledLayerStep cfg env gf crossing vertex_position) st).id_min ≤
        gf.getNumPointsWithMeasurement - 1 := by
    intro l
    induction l with
    | nil => intro st h; simpa using h
    | cons k rest ih =>
      intro st h
      rw [List.foldl_cons]
      apply ih
      rw [disabledLayerStep_id_min]
      split_ifs with hd
      · obtain ⟨h1, h2⟩ := clusterSearch_bounds env gf crossing st.id_min k
        unfold forwardAnchor
        split_ifs with h0
        · have : max st.id_min gf.getNumPointsWithMeasurement ≤
              max (gf.getNumPointsWithMeasurement - 1) gf.getNumPointsWithMeasurement :=
            max_le_max h (le_refl _)
          rw [max_eq_right (Nat.sub_le _ _)] at this
          omega
        · exact h
      · exact h
  exact key keys ⟨0, []⟩ (Nat.zero_le _)

end AnchorProofs


/-! ## The states of the output track -/

section StateProofs

variable {α : Type} [LinearOrderedField α]

/-- The `insert_state` calls behind an output track: the placeholder, then the states of
the fit points, then those of the disabled layers; the states of the candidate are gone. -/
theorem MakeSvtxTrack_states (cfg : Config α) (env : Env α) (svtx_track : SvtxTrack α)
    (phgf_track : FittedTrack α) (o : SvtxTrack α)
    (ho : MakeSvtxTrack cfg env svtx_track phgf_track = some o) :
    o.states = SvtxTrackState.new 0 ::
      (fitPointStates phgf_track ⟨0, 0, 0⟩ ++
        disabledLayerStates cfg env svtx_track phgf_track ⟨0, 0, 0⟩) := by
  unfold MakeSvtxTrack at ho
  simp only at ho
  cases hline : caught (phgf_track.gf.extrapolateToLine ⟨0, 0, 0⟩ ⟨0, 0, 1⟩) with
  | none => simp [hline] at ho
  | some s_line =>
    cases hpoint : caught (phgf_track.gf.extrapolateToPoint ⟨0, 0, 0⟩) with
    | none => simp [hline, hpoint] at ho
    | some s_vertex =>
      simp only [hline, hpoint, Option.some.injEq] at ho
      subst ho
      simp

/-- One pass of the loop over the fit points inserts a state exactly when the smoothed
state of the point is available. -/
theorem fitPointState_eq (phgf_track : FittedTrack α) (vertex_position : TVector3 α)
    (id : Nat) :
    fitPointState phgf_track vertex_position id =
      (smoothedStateAt phgf_track.gf id).map (fun gf_state =>
        { create_track_state (-phgf_track.gf.extrapolateToPointFrom vertex_position id)
            gf_state with cluskey := phgf_track.get_cluster_keys[id]? }) := by
  unfold fitPointState smoothedStateAt
  cases h1 : phgf_track.gf.getPointWithMeasurementAndFitterInfo id with
  | none => rfl
  | some trpoint =>
    simp only
    cases h2 : trpoint.getFitterInfo with
    | none => rfl
    | some kfi =>
      simp only
      cases h3 : kfi.getFittedState with
      | error e => rfl
      | ok gf_state => rfl

/-- The loop over the fit points inserts one state for each point with an available
smoothed state, and nothing for the others. -/
theorem fitPointStates_length (phgf_track : FittedTrack α) (vertex_position : TVector3 α) :
    (fitPointStates phgf_track vertex_position).length =
      ((List.range phgf_track.gf.getNumPointsWithMeasurement).filter
        (fun id => (smoothedStateAt phgf_track.gf id).isSome)).length := by
  unfold fitPointStates
  induction List.range phgf_track.gf.getNumPointsWithMeasurement with
  | nil => rfl
  | cons id rest ih =>
    rw [List.filterMap_cons, List.filter_cons, fitPointState_eq]
    cases smoothedStateAt phgf_track.gf id with
    | none => simpa using ih
    | some s => simpa using ih

end StateProofs

section StateClaims

variable {α : Type} [LinearOrderedField α]

/-- C19: for every fit point `id` whose track point, Kalman fitter info and smoothed state
are all available, `MakeSvtxTrack` calls `insert_state` with a state that copies the
position, the momentum and the 6x6 covariance of that smoothed state and carries the
`id`-th cluster key of the fitted track; the other points are passed over, and the calls
for the fit points number as many as the points with an available smoothed state. -/
theorem MakeSvtxTrack_fit_point_state (cfg : Config α) (env : Env α) (svtx_track : SvtxTrack α)
    (phgf_track : FittedTrack α) (o : SvtxTrack α)
    (ho : MakeSvtxTrack cfg env svtx_track phgf_track = some o)
    (id : Nat) (gf_state : MeasuredStateOnPlane α)
    (hid : id < phgf_track.gf.getNumPointsWithMeasurement)
    (hs : smoothedStateAt phgf_track.gf id = some gf_state) :
    (∃ state ∈ o.states,
      state.x = gf_state.pos.x ∧ state.y = gf_state.pos.y ∧ state.z = gf_state.pos.z ∧
      state.px = gf_state.mom.x ∧ state.py = gf_state.mom.y ∧ state.pz = gf_state.mom.z ∧
      (∀ i j, i ≤ j → state.error i j = gf_state.cov6 i j ∧
        state.error j i = gf_state.cov6 i j) ∧
      state.cluskey = phgf_track.get_cluster_keys[id]? ∧
      state.pathlength = -phgf_track.gf.extrapolateToPointFrom ⟨0, 0, 0⟩ id) ∧
    o.states.length =
      1 + ((List.range phgf_track.gf.getNumPointsWithMeasurement).filter
            (fun id => (smoothedStateAt phgf_track.gf id).isSome)).length +
        (disabledLayerStates cfg env svtx_track phgf_track ⟨0, 0, 0⟩).length := by
  have hstates := MakeSvtxTrack_states cfg env svtx_track phgf_track o ho
  refine ⟨⟨{ create_track_state (-phgf_track.gf.extrapolateToPointFrom ⟨0, 0, 0⟩ id)
      gf_state with cluskey := phgf_track.get_cluster_keys[id]? }, ?_, rfl, rfl, rfl, rfl, rfl,
      rfl, ?_, rfl, rfl⟩, ?_⟩
  · rw [hstates]
    refine List.mem_cons_of_mem _ (List.mem_append_left _ ?_)
    unfold fitPointStates
    refine List.mem_filterMap.2 ⟨id, List.mem_range.2 hid, ?_⟩
    rw [fitPointState_eq, hs]
    rfl
  · intro i j hij
    simp only [create_track_state, symmetricError, if_pos hij]
    refine ⟨trivial, ?_⟩
    split_ifs with hji
    · rw [le_antisymm hij hji]
    · rfl
  · rw [hstates, List.length_cons, List.length_append, fitPointStates_length]
    omega

end StateClaims

section StateExamples

theorem MakeSvtxTrack_fit_point_state_witness :
    ∃ o, MakeSvtxTrack (exampleConfig false true) (exampleEnv ⟨1, 0, 0⟩)
        (exampleTrack [2, 1] [40, 30]) (exampleFitted ⟨1, 0, 0⟩) = some o ∧
      1 < (exampleFitted ⟨1, 0, 0⟩).gf.getNumPointsWithMeasurement ∧
      smoothedStateAt (exampleFitted ⟨1, 0, 0⟩).gf 1 = some (exampleState ⟨0, 3, 0⟩ ⟨1, 0, 0⟩) ∧
      (∃ state ∈ o.states,
        state.x = 0 ∧ state.y = 3 ∧ state.z = 0 ∧ state.px = 1 ∧ state.py = 0 ∧ state.pz = 0 ∧
        state.cluskey = some 2 ∧ state.pathlength = 2) := by
  obtain ⟨o, ho⟩ := Option.isSome_iff_exists.1
    (by decide! : (MakeSvtxTrack (exampleConfig false true) (exampleEnv ⟨1, 0, 0⟩)
        (exampleTrack [2, 1] [40, 30]) (exampleFitted ⟨1, 0, 0⟩)).isSome = true)
  obtain ⟨⟨state, hmem, hx, hy, hz, hpx, hpy, hpz, -, hkey, hlen⟩, -⟩ :=
    MakeSvtxTrack_fit_point_state (exampleConfig false true) (exampleEnv ⟨1, 0, 0⟩)
      (exampleTrack [2, 1] [40, 30]) (exampleFitted ⟨1, 0, 0⟩) o ho 1
      (exampleState ⟨0, 3, 0⟩ ⟨1, 0, 0⟩) (by decide!) rfl
  refine ⟨o, ho, by decide!, rfl, state, hmem, hx, hy, hz, hpx, hpy, hpz, ?_, ?_⟩
  · rw [hkey]; rfl
  · rw [hlen]; decide!

end StateExamples

/-! ## The state container of the output track -/

section ContainerProofs

variable {α : Type} [LinearOrderedField α]

/-- An entry of the map stays in it when another one is emplaced. -/
theorem mem_emplace_of_mem {κ ν : Type} [LinearOrder κ] (k : κ) (v : ν) {l : List (κ × ν)}
    {x : κ × ν} (hx : x ∈ l) : x ∈ emplace k v l := by
  induction l with
  | nil => simp at hx
  | cons e rest ih =>
    unfold emplace
    split_ifs with h1 h2
    · exact List.mem_cons_of_mem _ hx
    · rcases List.mem_cons.1 hx with h | h
      · exact h ▸ List.mem_cons_self _ _
      · exact List.mem_cons_of_mem _ (ih h)
    · exact hx

/-- After `emplace` the key is in the map, under the new value or an older one. -/
theorem emplace_key_mem {κ ν : Type} [LinearOrder κ] (k : κ) (v : ν) (l : List (κ × ν)) :
    ∃ v2, (k, v2) ∈ emplace k v l := by
  induction l with
  | nil => exact ⟨v, by simp [emplace]⟩
  | cons e rest ih =>
    unfold emplace
    split_ifs with h1 h2
    · exact ⟨v, List.mem_cons_self _ _⟩
    · obtain ⟨v2, hv2⟩ := ih
      exact ⟨v2, List.mem_cons_of_mem _ hv2⟩
    · have hk : e.1 = k := le_antisymm (not_lt.1 h1) (not_lt.1 h2)
      exact ⟨e.2, by rw [← hk]; exact List.mem_cons_self _ _⟩

/-- The container after a run of `insert_state` calls: ordered by path length, it keeps
what it held, holds the path length of every inserted state, and holds nothing else. -/
theorem insert_states_spec (states : List (SvtxTrackState α))
    (m : List (α × SvtxTrackState α)) (hm : m.Pairwise (fun a b => a.1 < b.1)) :
    (states.foldl (fun m state => insert_state state m) m).Pairwise (fun a b => a.1 < b.1) ∧
    (∀ x ∈ m, x ∈ states.foldl (fun m state => insert_state state m) m) ∧
    (∀ s ∈ states, ∃ v, (s.pathlength, v) ∈
      states.foldl (fun m state => insert_state state m) m) ∧
    (∀ x ∈ states.foldl (fun m state => insert_state state m) m,
      x ∈ m ∨ ∃ s ∈ states, x = (s.pathlength, s)) := by
  induction states generalizing m with
  | nil => exact ⟨hm, fun x hx => hx, fun s hs => by simp at hs, fun x hx => Or.inl hx⟩
  | cons s rest ih =>
    rw [List.foldl_cons]
    obtain ⟨h1, h2, h3, h4⟩ := ih (insert_state s m) (emplace_keys_sorted _ _ _ hm)
    refine ⟨h1, ?_, ?_, ?_⟩
    · intro x hx
      exact h2 x (mem_emplace_of_mem _ _ hx)
    · intro t ht
      rcases List.mem_cons.1 ht with rfl | ht
      · obtain ⟨v, hv⟩ := emplace_key_mem t.pathlength t m
        exact ⟨v, h2 _ hv⟩
      · exact h3 t ht
    · intro x hx
      rcases h4 x hx with h | ⟨t, ht, hxt⟩
      · rcases mem_emplace h with h | h
        · exact Or.inr ⟨s, List.mem_cons_self _ _, h⟩
        · exact Or.inl h
      · exact Or.inr ⟨t, List.mem_cons_of_mem _ ht, hxt⟩

/-- The first entry of a map ordered by key is the entry of a key that lies below no
other key. -/
theorem head_of_keys_sorted {κ ν : Type} [LinearOrder κ] (l : List (κ × ν))
    (hl : l.Pairwise (fun a b => a.1 < b.1)) (x : κ × ν) (hx : x ∈ l)
    (hmin : ∀ y ∈ l, x.1 ≤ y.1) : l.head? = some x := by
  cases l with
  | nil => simp at hx
  | cons e rest =>
    rcases List.mem_cons.1 hx with h | h
    · rw [h]; rfl
    · have := (List.pairwise_cons.1 hl).1 x h
      exact absurd (hmin e (List.mem_cons_self _ _)) (not_le.2 this)

end ContainerProofs

section ContainerClaims

variable {α : Type} [LinearOrderedField α]

/-- C13 (amended): the `insert_state` calls behind an output track of `MakeSvtxTrack` start
with the placeholder at path length 0 and go on with the states of the fit points and of
the disabled layers only, none of the candidate; the container is therefore not empty and
keeps the placeholder under path length 0, and the placeholder is its first state in
path-length order exactly when no inserted state has a negative path length. -/
theorem MakeSvtxTrack_placeholder (cfg : Config α) (env : Env α) (svtx_track : SvtxTrack α)
    (phgf_track : FittedTrack α) (o : SvtxTrack α)
    (ho : MakeSvtxTrack cfg env svtx_track phgf_track = some o) :
    o.states = SvtxTrackState.new 0 ::
      (fitPointStates phgf_track ⟨0, 0, 0⟩ ++
        disabledLayerStates cfg env svtx_track phgf_track ⟨0, 0, 0⟩) ∧
    o.stateMap ≠ [] ∧
    (0, SvtxTrackState.new 0) ∈ o.stateMap ∧
    (o.stateMap.head? = some (0, SvtxTrackState.new 0) ↔
      ∀ s ∈ o.states, 0 ≤ s.pathlength) := by
  have hstates := MakeSvtxTrack_states cfg env svtx_track phgf_track o ho
  have hmap : o.stateMap =
      (fitPointStates phgf_track ⟨0, 0, 0⟩ ++
        disabledLayerStates cfg env svtx_track phgf_track ⟨0, 0, 0⟩).foldl
        (fun m state => insert_state state m) [(0, SvtxTrackState.new 0)] := by
    unfold SvtxTrack.stateMap
    rw [hstates, List.foldl_cons]
    rfl
  obtain ⟨h1, h2, h3, h4⟩ := insert_states_spec
    (fitPointStates phgf_track ⟨0, 0, 0⟩ ++
      disabledLayerStates cfg env svtx_track phgf_track ⟨0, 0, 0⟩)
    [((0 : α), SvtxTrackState.new 0)] (List.pairwise_singleton _ _)
  rw [← hmap] at h1 h2 h3 h4
  have hph : ((0 : α), SvtxTrackState.new 0) ∈ o.stateMap := h2 _ (List.mem_singleton.2 rfl)
  refine ⟨hstates, List.ne_nil_of_mem hph, hph, ?_, ?_⟩
  · intro hhead s hs
    have hkey : ∃ v, (s.pathlength, v) ∈ o.stateMap := by
      rw [hstates] at hs
      rcases List.mem_cons.1 hs with rfl | hs
      · exact ⟨_, hph⟩
      · exact h3 s hs
    obtain ⟨v, hv⟩ := hkey
    cases hl : o.stateMap with
    | nil => rw [hl] at hph; simp at hph
    | cons e rest =>
      rw [hl] at hhead hv h1
      have he : e = (0, SvtxTrackState.new 0) := by simpa using hhead
      rcases List.mem_cons.1 hv with h | h
      · rw [he] at h
        exact le_of_eq (congrArg Prod.fst h).symm
      · have := (List.pairwise_cons.1 h1).1 _ h
        rw [he] at this
        exact le_of_lt this
  · intro hpos
    refine head_of_keys_sorted _ h1 _ hph ?_
    intro y hy
    rcases h4 y hy with h | ⟨s, hs, rfl⟩
    · rw [List.mem_singleton.1 h]
    · exact hpos s (by rw [hstates]; exact List.mem_cons_of_mem _ hs)

end ContainerClaims

section ContainerExamples

/-- C13 (counterexample): a fitted track whose first fit point lies ahead of the point of
closest approach to the origin, so that the engine reports the extrapolation length 1 from
that point to the vertex: the state of the point gets the path length -1 and sorts before
the placeholder. -/
theorem placeholder_first_counterexample :
    (exampleFittedAhead.gf.extrapolateToPointFrom ⟨0, 0, 0⟩ 0 = 1) ∧
    (MakeSvtxTrack (exampleConfig false true) (exampleEnv ⟨1, 0, 0⟩)
        (exampleTrack [2, 1] [40, 30]) exampleFittedAhead).map
      (fun o => o.stateMap.map (fun e => (e.1, e.2.cluskey))) =
      some [(-1, some 1), (0, none), (1, some 2), (3, some 30), (5, some 40)] := by
  decide!

theorem MakeSvtxTrack_placeholder_witness :
    ∃ o, MakeSvtxTrack (exampleConfig false true) (exampleEnv ⟨1, 0, 0⟩)
        (exampleTrack [2, 1] [40, 30]) (exampleFitted ⟨1, 0, 0⟩) = some o ∧
      o.stateMap ≠ [] ∧
      ((0 : ℚ), SvtxTrackState.new 0) ∈ o.stateMap ∧
      (o.stateMap.head? = some (0, SvtxTrackState.new 0) ↔
        ∀ s ∈ o.states, 0 ≤ s.pathlength) := by
  obtain ⟨o, ho⟩ := Option.isSome_iff_exists.1
    (by decide! : (MakeSvtxTrack (exampleConfig false true) (exampleEnv ⟨1, 0, 0⟩)
        (exampleTrack [2, 1] [40, 30]) (exampleFitted ⟨1, 0, 0⟩)).isSome = true)
  exact ⟨o, ho,
    (MakeSvtxTrack_placeholder (exampleConfig false true) (exampleEnv ⟨1, 0, 0⟩)
      (exampleTrack [2, 1] [40, 30]) (exampleFitted ⟨1, 0, 0⟩) o ho).2⟩

end ContainerExamples

/-! ## The states of the disabled layers -/

section LayerProofs

variable {α : Type} [LinearOrderedField α]

/-- The cluster keys a track handed to the engine stores are those of its measurements. -/
theorem ReFitTrack_calls_keys (cfg : Config α) (env : Env α) (intrack : SvtxTrack α)
    (t : PHGenFitTrack α)
    (ht : t ∈ (ReFitTrack cfg env (some intrack)).processTrack_calls) :
    t.cluster_keys = t.measurements.map (fun m => m.cluster_key) := by
  unfold ReFitTrack at ht
  simp only at ht
  split_ifs at ht with h1 h2 h3
  · simp at ht
  · simp at ht
  · simp at ht
    subst ht
    simp [PHGenFitTrack.addMeasurements]
  · simp at ht
    subst ht
    simp [PHGenFitTrack.addMeasurements]

/-- One pass of the loop over the disabled layers inserts nothing for a cluster of an
enabled layer and at most one state, with the key of the cluster, otherwise. -/
theorem disabledLayerStep_inserted (cfg : Config α) (env : Env α) (gf : GenFitTrack α)
    (crossing : Int) (vertex_position : TVector3 α) (st : LayerLoop α) (cluster_key : cluskey) :
    ∃ extra, (disabledLayerStep cfg env gf crossing vertex_position st cluster_key).inserted =
        st.inserted ++ extra ∧
      (extra.map (fun s => s.cluskey)).Sublist
        (if (env.getLayer cluster_key : Int) ∈ cfg._disabled_layers then [some cluster_key]
          else []) := by
  unfold disabledLayerStep
  simp only
  by_cases hd : (env.getLayer cluster_key : Int) ∈ cfg._disabled_layers
  · rw [if_neg (not_not.2 hd), if_pos hd]
    cases forwardExtrapolate env gf
        (forwardAnchor (clusterSearch env gf crossing st.id_min cluster_key) st.id_min)
        ⟨(env.getGlobalPositionDistortionCorrected cluster_key
            (env.findCluster cluster_key) crossing).x,
          (env.getGlobalPositionDistortionCorrected cluster_key
            (env.findCluster cluster_key) crossing).y,
          (env.getGlobalPositionDistortionCorrected cluster_key
            (env.findCluster cluster_key) crossing).z⟩ vertex_position with
    | none => exact ⟨[], by simp, by simp⟩
    | some fwd =>
      simp only
      split_ifs with h1
      · cases backwardAverage env gf (clusterSearch env gf crossing st.id_min cluster_key)
          fwd.2 with
        | none => exact ⟨[], by simp, by simp⟩
        | some gf_state => exact ⟨_, rfl, by simp⟩
      · exact ⟨_, rfl, by simp⟩
  · rw [if_pos hd, if_neg hd]
    exact ⟨[], by simp, by simp⟩

/-- The states the loop over the disabled layers inserts carry, in order, keys of the
candidate's clusters on disabled layers, each listed key at most once. -/
theorem disabledLayerStates_keys (cfg : Config α) (env : Env α) (svtx_track : SvtxTrack α)
    (phgf_track : FittedTrack α) (vertex_position : TVector3 α) :
    ((disabledLayerStates cfg env svtx_track phgf_track vertex_position).map
        (fun s => s.cluskey)).Sublist
      (((get_cluster_keys svtx_track).filter
        (fun k => decide ((env.getLayer k : Int) ∈ cfg._disabled_layers))).map some) := by
  have key : ∀ (l : List cluskey) (st : LayerLoop α),
      ∃ extra, (l.foldl (disabledLayerStep cfg env phgf_track.gf svtx_track.crossing
          vertex_position) st).inserted = st.inserted ++ extra ∧
        (extra.map (fun s => s.cluskey)).Sublist
          ((l.filter (fun k => decide ((env.getLayer k : Int) ∈ cfg._disabled_layers))).map
            some) := by
    intro l
    induction l with
    | nil => intro st; exact ⟨[], by simp, by simp⟩
    | cons k rest ih =>
      intro st
      rw [List.foldl_cons]
      obtain ⟨e1, h1, h2⟩ := disabledLayerStep_inserted cfg env phgf_track.gf
        svtx_track.crossing vertex_position st k
      obtain ⟨e2, h3, h4⟩ := ih (disabledLayerStep cfg env phgf_track.gf svtx_track.crossing
        vertex_position st k)
      refine ⟨e1 ++ e2, by rw [h3, h1, List.append_assoc], ?_⟩
      rw [List.map_append, List.filter_cons]
      by_cases hd : (env.getLayer k : Int) ∈ cfg._disabled_layers
      · rw [if_pos hd] at h2
        rw [if_pos (decide_eq_true hd), List.map_cons]
        exact List.Sublist.append h2 h4
      · rw [if_neg hd] at h2
        rw [if_neg (by simpa using hd)]
        rw [List.sublist_nil.1 h2]
        simpa using h4
  unfold disabledLayerStates
  split_ifs with h0
  · simp
  · obtain ⟨extra, h1, h2⟩ := key (get_cluster_keys svtx_track) ⟨0, []⟩
    simp only at h1 ⊢
    rw [h1]
    simpa using h2

end LayerProofs

section LayerClaims

variable {α : Type} [LinearOrderedField α]

/-- C14 (amended): for an output track made from the track `ReFitTrack` handed to the
engine for the same candidate, the states synthesized by the loop over the disabled layers
carry, in order, keys of the candidate's clusters on disabled layers, at most one state for
each listed key (not for each layer); the states of the fit points only carry keys of
clusters on enabled layers, so no synthesized state shares its key with one of them. -/
theorem disabled_layer_states_keys (cfg : Config α) (env : Env α) (svtx_track : SvtxTrack α)
    (phgf_track : FittedTrack α) (o : SvtxTrack α)
    (hfit : phgf_track.phgf ∈ (ReFitTrack cfg env (some svtx_track)).processTrack_calls)
    (ho : MakeSvtxTrack cfg env svtx_track phgf_track = some o) :
    o.states = SvtxTrackState.new 0 ::
      (fitPointStates phgf_track ⟨0, 0, 0⟩ ++
        disabledLayerStates cfg env svtx_track phgf_track ⟨0, 0, 0⟩) ∧
    ((disabledLayerStates cfg env svtx_track phgf_track ⟨0, 0, 0⟩).map
        (fun s => s.cluskey)).Sublist
      (((get_cluster_keys svtx_track).filter
        (fun k => decide ((env.getLayer k : Int) ∈ cfg._disabled_layers))).map some) ∧
    (∀ s ∈ disabledLayerStates cfg env svtx_track phgf_track ⟨0, 0, 0⟩,
      ∃ k, s.cluskey = some k ∧ (env.getLayer k : Int) ∈ cfg._disabled_layers) ∧
    (∀ s ∈ fitPointStates phgf_track ⟨0, 0, 0⟩,
      ∀ k, s.cluskey = some k → (env.getLayer k : Int) ∉ cfg._disabled_layers) ∧
    (∀ s ∈ disabledLayerStates cfg env svtx_track phgf_track ⟨0, 0, 0⟩,
      ∀ s2 ∈ fitPointStates phgf_track ⟨0, 0, 0⟩, s.cluskey ≠ s2.cluskey) := by
  have hsub := disabledLayerStates_keys cfg env svtx_track phgf_track ⟨0, 0, 0⟩
  have hdis : ∀ s ∈ disabledLayerStates cfg env svtx_track phgf_track ⟨0, 0, 0⟩,
      ∃ k, s.cluskey = some k ∧ (env.getLayer k : Int) ∈ cfg._disabled_layers := by
    intro s hs
    have h1 : s.cluskey ∈ ((get_cluster_keys svtx_track).filter
        (fun k => decide ((env.getLayer k : Int) ∈ cfg._disabled_layers))).map some :=
      hsub.subset (List.mem_map.2 ⟨s, hs, rfl⟩)
    obtain ⟨k, hk, hks⟩ := List.mem_map.1 h1
    exact ⟨k, hks.symm, by simpa using (List.mem_filter.1 hk).2⟩
  have hfp : ∀ s ∈ fitPointStates phgf_track ⟨0, 0, 0⟩,
      ∀ k, s.cluskey = some k → (env.getLayer k : Int) ∉ cfg._disabled_layers := by
    intro s hs k hk
    unfold fitPointStates at hs
    obtain ⟨id, -, hid⟩ := List.mem_filterMap.1 hs
    rw [fitPointState_eq] at hid
    obtain ⟨gf_state, -, hgs⟩ := Option.map_eq_some'.1 hid
    rw [← hgs] at hk
    have hmem : k ∈ phgf_track.get_cluster_keys := List.getElem?_mem hk
    unfold FittedTrack.get_cluster_keys at hmem
    rw [ReFitTrack_calls_keys cfg env svtx_track _ hfit] at hmem
    obtain ⟨m, hm, hmk⟩ := List.mem_map.1 hmem
    rw [ReFitTrack_calls cfg env svtx_track _ hfit] at hm
    obtain ⟨e, -, he⟩ := List.mem_filterMap.1 hm
    obtain ⟨hke, -, hd, -⟩ := measurementOf_spec cfg env svtx_track.crossing e m he
    rw [← hmk, hke]
    exact hd
  refine ⟨MakeSvtxTrack_states cfg env svtx_track phgf_track o ho, hsub, hdis, hfp, ?_⟩
  intro s hs s2 hs2 heq
  obtain ⟨k, hk, hd⟩ := hdis s hs
  exact hfp s2 hs2 k (by rw [← heq, hk]) hd

end LayerClaims

section LayerExamples

/-- C14 (counterexample): a candidate with the TPC clusters 30 and 31 on the one disabled
layer 30: the loop over the disabled layers inserts two synthesized states for that layer,
one for each cluster, and the container keeps both. -/
theorem disabled_layer_counterexample :
    (ReFitTrack { exampleConfig false true with _disabled_layers := {30} }
        exampleSharedLayerEnv (some (exampleTrack [2, 1] [40, 30, 31]))).processTrack_calls =
      [exampleHanded true] ∧
    exampleSharedLayerEnv.getLayer 30 = 30 ∧ exampleSharedLayerEnv.getLayer 31 = 30 ∧
    (disabledLayerStates { exampleConfig false true with _disabled_layers := {30} }
        exampleSharedLayerEnv (exampleTrack [2, 1] [40, 30, 31])
        ⟨exampleHanded true, exampleGenFit ⟨1, 0, 0⟩ (exampleHanded true)⟩ ⟨0, 0, 0⟩).map
      (fun s => (s.cluskey, s.pathlength)) = [(some 30, 15 / 8), (some 31, 5 / 2)] ∧
    (MakeSvtxTrack { exampleConfig false true with _disabled_layers := {30} }
        exampleSharedLayerEnv (exampleTrack [2, 1] [40, 30, 31])
        ⟨exampleHanded true, exampleGenFit ⟨1, 0, 0⟩ (exampleHanded true)⟩).map
      (fun o => o.stateMap.map (fun e => (e.1, e.2.cluskey))) =
      some [(0, none), (1, some 1), (15 / 8, some 30), (2, some 2), (5 / 2, some 31),
        (3, some 40)] := by
  decide!

theorem disabled_layer_states_keys_witness :
    ∃ o, MakeSvtxTrack { exampleConfig false true with _disabled_layers := {30} }
        (exampleEnv ⟨1, 0, 0⟩) (exampleTrack [2, 1] [40, 30])
        ⟨exampleHanded true, exampleGenFit ⟨1, 0, 0⟩ (exampleHanded true)⟩ = some o ∧
      exampleHanded true ∈
        (ReFitTrack { exampleConfig false true with _disabled_layers := {30} }
          (exampleEnv ⟨1, 0, 0⟩) (some (exampleTrack [2, 1] [40, 30]))).processTrack_calls ∧
      (disabledLayerStates { exampleConfig false true with _disabled_layers := {30} }
          (exampleEnv ⟨1, 0, 0⟩) (exampleTrack [2, 1] [40, 30])
          ⟨exampleHanded true, exampleGenFit ⟨1, 0, 0⟩ (exampleHanded true)⟩ ⟨0, 0, 0⟩).map
        (fun s => s.cluskey) = [some 30] ∧
      (∀ s ∈ disabledLayerStates { exampleConfig false true with _disabled_layers := {30} }
          (exampleEnv ⟨1, 0, 0⟩) (exampleTrack [2, 1] [40, 30])
          ⟨exampleHanded true, exampleGenFit ⟨1, 0, 0⟩ (exampleHanded true)⟩ ⟨0, 0, 0⟩,
        ∀ s2 ∈ fitPointStates
            ⟨exampleHanded true, exampleGenFit ⟨1, 0, 0⟩ (exampleHanded true)⟩ ⟨0, 0, 0⟩,
          s.cluskey ≠ s2.cluskey) := by
  obtain ⟨o, ho⟩ := Option.isSome_iff_exists.1
    (by decide! : (MakeSvtxTrack { exampleConfig false true with _disabled_layers := {30} }
        (exampleEnv ⟨1, 0, 0⟩) (exampleTrack [2, 1] [40, 30])
        ⟨exampleHanded true, exampleGenFit ⟨1, 0, 0⟩ (exampleHanded true)⟩).isSome = true)
  exact ⟨o, ho, by decide!, by decide!,
    (disabled_layer_states_keys { exampleConfig false true with _disabled_layers := {30} }
      (exampleEnv ⟨1, 0, 0⟩) (exampleTrack [2, 1] [40, 30])
      ⟨exampleHanded true, exampleGenFit ⟨1, 0, 0⟩ (exampleHanded true)⟩ o (by decide!)
      ho).2.2.2.2⟩

end LayerExamples

/-! ## The rotation at concrete inputs -/

section RotationExamples

/-- Over exact real arithmetic the momentum (3, 4, 0) lies off the beam axis: `|n x z|`
is 5. -/
theorem exact_cross_example :
    ((⟨3, 4, 0⟩ : TVector3 ℝ).Cross ⟨0, 0, 1⟩).Mag
      (FloatOps.mk Real.sqrt (fun y x => Complex.arg ⟨x, y⟩) Real.cos Real.sin) = 5 := by
  rw [cross_z_Mag]
  exact (Real.sqrt_eq_iff_mul_self_eq_of_pos (by norm_num)).2 (by norm_num)

/-- Over exact real arithmetic the momentum (3, 4, 0) passes the test `|n x z| >= 1e-5`. -/
theorem exact_cross_off_axis :
    (0.00001 : ℝ) ≤ ((⟨3, 4, 0⟩ : TVector3 ℝ).Cross ⟨0, 0, 1⟩).Mag
      (FloatOps.mk Real.sqrt (fun y x => Complex.arg ⟨x, y⟩) Real.cos Real.sin) := by
  rw [exact_cross_example]
  norm_num

theorem rotation_orthogonal_keeps_trace_witness :
    (FloatOps.mk Real.sqrt (fun y x => Complex.arg ⟨x, y⟩) Real.cos Real.sin).Exact ∧
    (0.00001 : ℝ) ≤ ((⟨3, 4, 0⟩ : TVector3 ℝ).Cross ⟨0, 0, 1⟩).Mag
      (FloatOps.mk Real.sqrt (fun y x => Complex.arg ⟨x, y⟩) Real.cos Real.sin) ∧
    (pos_cov_XYZ_to_RZ
        (FloatOps.mk Real.sqrt (fun y x => Complex.arg ⟨x, y⟩) Real.cos Real.sin) ⟨3, 4, 0⟩
        (TMatrixF.zero 3 1) exampleUnitCov (TMatrixF.zero 3 1)
        (TMatrixF.zero 3 3)).cov_out.trace3 = (exampleUnitCov : TMatrixF ℝ).trace3 :=
  ⟨⟨rfl, fun _ _ => rfl, rfl, rfl⟩, exact_cross_off_axis,
    (rotation_orthogonal_keeps_trace
      (FloatOps.mk Real.sqrt (fun y x => Complex.arg ⟨x, y⟩) Real.cos Real.sin)
      ⟨rfl, fun _ _ => rfl, rfl, rfl⟩ ⟨3, 4, 0⟩ (TMatrixF.zero 3 1) exampleUnitCov
      (TMatrixF.zero 3 1) (TMatrixF.zero 3 3) rfl rfl rfl rfl
      exact_cross_off_axis).2.2⟩

/-- The unit matrix is symmetric and positive semi-definite. -/
theorem exampleUnitCov_symm_psd {α : Type} [LinearOrderedField α] :
    (exampleUnitCov : TMatrixF α).IsSymm3 ∧ (exampleUnitCov : TMatrixF α).IsPSD3 := by
  constructor
  · intro i j _ _
    simp [exampleUnitCov, eq_comm]
  · intro v0 v1 v2
    simp [TMatrixF.quadForm3, exampleUnitCov]
    nlinarith [mul_self_nonneg v0, mul_self_nonneg v1, mul_self_nonneg v2]

theorem rotation_keeps_symmetric_psd_witness :
    (0.00001 : ℚ) ≤ ((⟨3, 4, 0⟩ : TVector3 ℚ).Cross ⟨0, 0, 1⟩).Mag exampleOps ∧
    (exampleUnitCov : TMatrixF ℚ).IsSymm3 ∧ (exampleUnitCov : TMatrixF ℚ).IsPSD3 ∧
    (pos_cov_XYZ_to_RZ exampleOps ⟨3, 4, 0⟩ (TMatrixF.zero 3 1) exampleUnitCov
      (TMatrixF.zero 3 1) (TMatrixF.zero 3 3)).cov_out.IsSymm3 ∧
    (pos_cov_XYZ_to_RZ exampleOps ⟨3, 4, 0⟩ (TMatrixF.zero 3 1) exampleUnitCov
      (TMatrixF.zero 3 1) (TMatrixF.zero 3 3)).cov_out.IsPSD3 :=
  ⟨by decide!, exampleUnitCov_symm_psd.1, exampleUnitCov_symm_psd.2,
    (rotation_keeps_symmetric_psd exampleOps ⟨3, 4, 0⟩ (TMatrixF.zero 3 1) exampleUnitCov
      (TMatrixF.zero 3 1) (TMatrixF.zero 3 3) rfl rfl rfl rfl (by decide!)
      exampleUnitCov_symm_psd.1 exampleUnitCov_symm_psd.2).1,
    (rotation_keeps_symmetric_psd exampleOps ⟨3, 4, 0⟩ (TMatrixF.zero 3 1) exampleUnitCov
      (TMatrixF.zero 3 1) (TMatrixF.zero 3 3) rfl rfl rfl rfl (by decide!)
      exampleUnitCov_symm_psd.1 exampleUnitCov_symm_psd.2).2.1⟩

theorem rotation_keeps_longitudinal_axis_witness :
    ∃ o, MakeSvtxTrack (exampleConfig false true) (exampleEnv ⟨3, 4, 0⟩)
        (exampleTrack [2, 1] [40, 30]) (exampleFitted ⟨3, 4, 0⟩) = some o ∧
      (0.00001 : ℚ) ≤ ((⟨3, 4, 0⟩ : TVector3 ℚ).Cross ⟨0, 0, 1⟩).Mag (exampleEnv ⟨3, 4, 0⟩).F ∧
      o.dca3d_z = FloatVal.num 3 ∧
      o.dca3d_z_error = FloatVal.sqrt (exampleEnv ⟨3, 4, 0⟩).F 1 := by
  obtain ⟨o, ho⟩ := Option.isSome_iff_exists.1
    (by decide! : (MakeSvtxTrack (exampleConfig false true) (exampleEnv ⟨3, 4, 0⟩)
        (exampleTrack [2, 1] [40, 30]) (exampleFitted ⟨3, 4, 0⟩)).isSome = true)
  exact ⟨o, ho, by decide!,
    (rotation_keeps_longitudinal_axis (exampleConfig false true) (exampleEnv ⟨3, 4, 0⟩)
      ⟨3, 4, 0⟩ (TMatrixF.zero 3 1) exampleUnitCov (TMatrixF.zero 3 1) (TMatrixF.zero 3 3)
      (exampleTrack [2, 1] [40, 30]) (exampleFitted ⟨3, 4, 0⟩)
      (exampleState ⟨1, 2, 0⟩ ⟨3, 4, 0⟩) (exampleState ⟨1, 2, 3⟩ ⟨3, 4, 0⟩) o
      rfl rfl rfl rfl (by decide!) rfl rfl (by decide!) ho).2⟩

theorem rotation_projects_on_r_witness :
    ∃ o, MakeSvtxTrack (⟨false, true, ∅, 0, 211⟩ : Config ℝ)
        (exampleEnvOver (FloatOps.mk Real.sqrt (fun y x => Complex.arg ⟨x, y⟩) Real.cos Real.sin))
        (exampleTrackOver [1, 2] []) (exampleVertexFit ⟨3, 4, 0⟩) = some o ∧
      (FloatOps.mk Real.sqrt (fun y x => Complex.arg ⟨x, y⟩) Real.cos Real.sin).Exact ∧
      (0.00001 : ℝ) ≤ ((⟨3, 4, 0⟩ : TVector3 ℝ).Cross ⟨0, 0, 1⟩).Mag
        (FloatOps.mk Real.sqrt (fun y x => Complex.arg ⟨x, y⟩) Real.cos Real.sin) ∧
      o.dca3d_xy = FloatVal.num ((1 * 4 - 2 * 3) / Real.sqrt (3 ^ 2 + 4 ^ 2)) := by
  obtain ⟨o, ho⟩ := MakeSvtxTrack_some (⟨false, true, ∅, 0, 211⟩ : Config ℝ)
    (exampleEnvOver (FloatOps.mk Real.sqrt (fun y x => Complex.arg ⟨x, y⟩) Real.cos Real.sin))
    (exampleTrackOver [1, 2] []) (exampleVertexFit ⟨3, 4, 0⟩)
    (exampleStateOver ⟨1, 2, 0⟩ ⟨3, 4, 0⟩) (exampleStateOver ⟨1, 2, 3⟩ ⟨3, 4, 0⟩) rfl rfl
  exact ⟨o, ho, ⟨rfl, fun _ _ => rfl, rfl, rfl⟩, exact_cross_off_axis,
    (rotation_projects_on_r (⟨false, true, ∅, 0, 211⟩ : Config ℝ)
      (exampleEnvOver (FloatOps.mk Real.sqrt (fun y x => Complex.arg ⟨x, y⟩) Real.cos Real.sin))
      ⟨rfl, fun _ _ => rfl, rfl, rfl⟩ ⟨3, 4, 0⟩ (TMatrixF.zero 3 1) exampleUnitCov
      (TMatrixF.zero 3 1) (TMatrixF.zero 3 3) (exampleTrackOver [1, 2] [])
      (exampleVertexFit ⟨3, 4, 0⟩) (exampleStateOver ⟨1, 2, 0⟩ ⟨3, 4, 0⟩)
      (exampleStateOver ⟨1, 2, 3⟩ ⟨3, 4, 0⟩) o rfl rfl rfl rfl
      exact_cross_off_axis rfl rfl exact_cross_off_axis ho).2.2⟩

end RotationExamples

/-! ## The radius search of the disabled-layer loop -/

section SearchProofs

variable {α : Type} [LinearOrderedField α]

/-- The test of the radius search, in terms of the fitted radius of the point. -/
theorem radiusExceeds_eq (F : FloatOps α) (gf : GenFitTrack α) (r_cluster : α) (id : Nat) :
    radiusExceeds F gf r_cluster id =
      (match fittedRadius F gf id with
        | some r_track => decide (r_cluster < r_track)
        | none => false) := by
  unfold radiusExceeds fittedRadius smoothedStateAt
  cases h1 : gf.getPointWithMeasurementAndFitterInfo id with
  | none => rfl
  | some trpoint =>
    simp only
    cases h2 : trpoint.getFitterInfo with
    | none => rfl
    | some kfi =>
      simp only
      cases h3 : kfi.getFittedState with
      | error e => rfl
      | ok gf_state => rfl

/-- A fit point beyond a cluster is beyond every cluster of a smaller or equal radius. -/
theorem radiusExceeds_mono (F : FloatOps α) (gf : GenFitTrack α) (r1 r2 : α) (h : r1 ≤ r2)
    (id : Nat) (h2 : radiusExceeds F gf r1 id = false) : radiusExceeds F gf r2 id = false := by
  rw [radiusExceeds_eq] at h2 ⊢
  cases hr : fittedRadius F gf id with
  | none => rfl
  | some r =>
    rw [hr] at h2
    simp only [decide_eq_false_iff_not, not_lt] at h2 ⊢
    exact le_trans h2 h

/-- The radius search from `id` with `fuel` passes: every point it passes fails the test,
and the point it stops at before its fuel runs out passes it. -/
theorem radiusSearch_spec (F : FloatOps α) (gf : GenFitTrack α) (r_cluster : α)
    (fuel id : Nat) :
    (∀ i, id ≤ i → i < radiusSearch F gf r_cluster fuel id →
      radiusExceeds F gf r_cluster i = false) ∧
    (radiusSearch F gf r_cluster fuel id < id + fuel →
      radiusExceeds F gf r_cluster (radiusSearch F gf r_cluster fuel id) = true) := by
  induction fuel generalizing id with
  | zero => exact ⟨fun i h1 h2 => by simp [radiusSearch] at h2; omega,
      fun h => by simp [radiusSearch] at h⟩
  | succ fuel ih =>
    unfold radiusSearch
    split_ifs with h
    · exact ⟨fun i h1 h2 => by omega, fun _ => h⟩
    · obtain ⟨h1, h2⟩ := ih (id + 1)
      refine ⟨fun i hi hlt => ?_, fun hlt => h2 (by omega)⟩
      rcases Nat.eq_or_lt_of_le hi with rfl | hgt
      · simpa using h
      · exact h1 i hgt hlt

/-- The first index of `0 .. n-1` that passes a test, found by `find?`. -/
theorem find_range_eq (p : Nat → Bool) (j : Nat) (hlt : ∀ i < j, p i = false) (n : Nat) :
    (n ≤ j → (List.range n).find? p = none) ∧
    (j < n → p j = true → (List.range n).find? p = some j) := by
  induction n with
  | zero => exact ⟨fun _ => rfl, fun h => absurd h (Nat.not_lt_zero _)⟩
  | succ n ih =>
    rw [List.range_succ, List.find?_append]
    constructor
    · intro hn
      rw [ih.1 (by omega)]
      simp [hlt n (by omega)]
    · intro hj hp
      rcases Nat.lt_or_ge j n with h | h
      · rw [ih.2 h hp]
        rfl
      · have hjn : j = n := by omega
        rw [ih.1 (by omega), ← hjn]
        simp [hp]

/-- The index the spec names is the one index that passes the test with none before it. -/
theorem firstPointBeyond_eq (F : FloatOps α) (gf : GenFitTrack α) (r_cluster : α) (j : Nat)
    (hj : j ≤ gf.getNumPointsWithMeasurement)
    (hlt : ∀ i < j, radiusExceeds F gf r_cluster i = false)
    (hat : j < gf.getNumPointsWithMeasurement → radiusExceeds F gf r_cluster j = true) :
    firstPointBeyond F gf r_cluster = j := by
  have hdef : firstPointBeyond F gf r_cluster =
      ((List.range gf.getNumPointsWithMeasurement).find? (radiusExceeds F gf r_cluster)).getD
        gf.getNumPointsWithMeasurement := by
    unfold firstPointBeyond
    congr 2
    funext id
    rw [radiusExceeds_eq]
  rw [hdef]
  obtain ⟨h1, h2⟩ := find_range_eq (radiusExceeds F gf r_cluster) j hlt
    gf.getNumPointsWithMeasurement
  rcases Nat.lt_or_ge j gf.getNumPointsWithMeasurement with h | h
  · rw [h2 h (hat h)]
    rfl
  · rw [h1 h]
    exact (le_antisymm hj h).symm

end SearchProofs

section AnchorSearchProofs

variable {α : Type} [LinearOrderedField α]

/-- The radius search of one pass, as a search for the radius of the cluster. -/
theorem clusterSearch_eq (env : Env α) (gf : GenFitTrack α) (crossing : Int) (id_min : Nat)
    (cluster_key : cluskey) :
    clusterSearch env gf crossing id_min cluster_key =
      radiusSearch env.F gf (clusterRadius env crossing cluster_key)
        (gf.getNumPointsWithMeasurement - id_min) id_min := rfl

/-- The anchor after one more pass of the loop over the disabled layers. -/
theorem carriedAnchor_snoc (cfg : Config α) (env : Env α) (gf : GenFitTrack α)
    (crossing : Int) (vertex_position : TVector3 α) (done : List cluskey) (k : cluskey) :
    carriedAnchor cfg env gf crossing vertex_position (done ++ [k]) =
      if (env.getLayer k : Int) ∈ cfg._disabled_layers then
        forwardAnchor
          (clusterSearch env gf crossing
            (carriedAnchor cfg env gf crossing vertex_position done) k)
          (carriedAnchor cfg env gf crossing vertex_position done)
      else carriedAnchor cfg env gf crossing vertex_position done := by
  unfold carriedAnchor
  rw [List.foldl_append, List.foldl_cons, List.foldl_nil, disabledLayerStep_id_min]

/-- With the clusters of the disabled layers visited in order of radius, no fit point
before the carried anchor lies beyond a cluster still to come. -/
theorem carriedAnchor_below (cfg : Config α) (env : Env α) (gf : GenFitTrack α)
    (crossing : Int) (vertex_position : TVector3 α) (done : List cluskey) :
    ∀ r : α,
      (((done.filter (fun k => decide ((env.getLayer k : Int) ∈ cfg._disabled_layers))).map
        (clusterRadius env crossing)) ++ [r]).Pairwise (· ≤ ·) →
      ∀ i, i < carriedAnchor cfg env gf crossing vertex_position done →
        radiusExceeds env.F gf r i = false := by
  induction done using List.reverseRecOn with
  | nil =>
    intro r _ i hi
    simp [carriedAnchor] at hi
  | append_singleton init k ih =>
    intro r hr i hi
    rw [carriedAnchor_snoc] at hi
    rw [List.filter_append] at hr
    by_cases hd : (env.getLayer k : Int) ∈ cfg._disabled_layers
    · rw [if_pos hd] at hi
      have hf : [k].filter (fun k => decide ((env.getLayer k : Int) ∈ cfg._disabled_layers)) =
          [k] := by simp [hd]
      rw [hf, List.map_append, List.append_assoc] at hr
      have hinit : (((init.filter
          (fun k => decide ((env.getLayer k : Int) ∈ cfg._disabled_layers))).map
          (clusterRadius env crossing)) ++ [clusterRadius env crossing k]).Pairwise (· ≤ ·) := by
        have := hr.sublist (List.Sublist.append (List.Sublist.refl _)
          (List.Sublist.cons₂ _ (List.nil_sublist [r])))
        simpa using this
      have hkr : clusterRadius env crossing k ≤ r := by
        have := (List.pairwise_append.1 hr).2.1
        simpa using this
      have hbelow := ih (clusterRadius env crossing k) hinit
      have hanchor := disabledLayerLoop_id_min cfg env gf crossing vertex_position init
      have hsearch := (radiusSearch_spec env.F gf (clusterRadius env crossing k)
        (gf.getNumPointsWithMeasurement -
          carriedAnchor cfg env gf crossing vertex_position init)
        (carriedAnchor cfg env gf crossing vertex_position init)).1
      rw [← clusterSearch_eq] at hsearch
      obtain ⟨hge, -⟩ := clusterSearch_bounds env gf crossing
        (carriedAnchor cfg env gf crossing vertex_position init) k
      apply radiusExceeds_mono env.F gf _ _ hkr
      unfold forwardAnchor at hi
      by_cases hia : i < carriedAnchor cfg env gf crossing vertex_position init
      · exact hbelow i hia
      · apply hsearch i (not_lt.1 hia)
        split_ifs at hi with h0
        · omega
        · omega
    · rw [if_neg hd] at hi
      have hf : [k].filter (fun k => decide ((env.getLayer k : Int) ∈ cfg._disabled_layers)) =
          [] := by simp [hd]
      rw [hf, List.append_nil] at hr
      exact ih r hr i hi

end AnchorSearchProofs

section SearchClaims

variable {α : Type} [LinearOrderedField α]

/-- C21: in the loop over the disabled layers of `MakeSvtxTrack`, when the clusters of the
disabled layers come in order of non-decreasing radius, the index the radius search leaves
for a cluster, started at the carried anchor, is the smallest index among all fit points
whose fitted radius strictly exceeds the radius of the cluster, or the number of fit
points if there is none.  (A fit point without smoothed state counts as not exceeding.) -/
theorem clusterSearch_finds_first (cfg : Config α) (env : Env α) (gf : GenFitTrack α)
    (crossing : Int) (vertex_position : TVector3 α) (done : List cluskey)
    (cluster_key : cluskey)
    (hd : (env.getLayer cluster_key : Int) ∈ cfg._disabled_layers)
    (hsorted : (((done ++ [cluster_key]).filter
        (fun k => decide ((env.getLayer k : Int) ∈ cfg._disabled_layers))).map
        (clusterRadius env crossing)).Pairwise (· ≤ ·)) :
    clusterSearch env gf crossing
        (carriedAnchor cfg env gf crossing vertex_position done) cluster_key =
      firstPointBeyond env.F gf (clusterRadius env crossing cluster_key) := by
  have hr : (((done.filter
      (fun k => decide ((env.getLayer k : Int) ∈ cfg._disabled_layers))).map
      (clusterRadius env crossing)) ++ [clusterRadius env crossing cluster_key]).Pairwise
      (· ≤ ·) := by
    rw [List.filter_append, List.map_append] at hsorted
    simpa [hd] using hsorted
  have hbelow := carriedAnchor_below cfg env gf crossing vertex_position done _ hr
  have hanchor := disabledLayerLoop_id_min cfg env gf crossing vertex_position done
  obtain ⟨hge, hle⟩ := clusterSearch_bounds env gf crossing
    (carriedAnchor cfg env gf crossing vertex_position done) cluster_key
  obtain ⟨h1, h2⟩ := radiusSearch_spec env.F gf (clusterRadius env crossing cluster_key)
    (gf.getNumPointsWithMeasurement - carriedAnchor cfg env gf crossing vertex_position done)
    (carriedAnchor cfg env gf crossing vertex_position done)
  rw [← clusterSearch_eq] at h1 h2
  have hmax : max (carriedAnchor cfg env gf crossing vertex_position done)
      gf.getNumPointsWithMeasurement = gf.getNumPointsWithMeasurement :=
    max_eq_right (le_trans hanchor (Nat.sub_le _ _))
  rw [hmax] at hle
  symm
  apply firstPointBeyond_eq env.F gf _ _ hle
  · intro i hi
    by_cases hia : i < carriedAnchor cfg env gf crossing vertex_position done
    · exact hbelow i hia
    · exact h1 i (not_lt.1 hia) hi
  · intro hlt
    exact h2 (by omega)

end SearchClaims

section SearchExamples

theorem clusterSearch_finds_first_witness :
    (((exampleEnv ⟨1, 0, 0⟩).getLayer 40 : Int) ∈
      ({ exampleConfig false true with _disabled_layers := {30, 40} } :
        Config ℚ)._disabled_layers) ∧
    ((([2, 1, 30] ++ [40]).filter (fun k => decide (((exampleEnv ⟨1, 0, 0⟩).getLayer k : Int) ∈
        ({ exampleConfig false true with _disabled_layers := {30, 40} } :
          Config ℚ)._disabled_layers))).map
      (clusterRadius (exampleEnv ⟨1, 0, 0⟩) 0)) = [5, 10] ∧
    carriedAnchor { exampleConfig false true with _disabled_layers := {30, 40} }
      (exampleEnv ⟨1, 0, 0⟩) (exampleGenFit ⟨1, 0, 0⟩ (exampleHanded false)) 0 ⟨0, 0, 0⟩
      [2, 1, 30] = 2 ∧
    firstPointBeyond (exampleEnv ⟨1, 0, 0⟩).F (exampleGenFit ⟨1, 0, 0⟩ (exampleHanded false))
      (clusterRadius (exampleEnv ⟨1, 0, 0⟩) 0 40) = 4 ∧
    clusterSearch (exampleEnv ⟨1, 0, 0⟩) (exampleGenFit ⟨1, 0, 0⟩ (exampleHanded false)) 0
        (carriedAnchor { exampleConfig false true with _disabled_layers := {30, 40} }
          (exampleEnv ⟨1, 0, 0⟩) (exampleGenFit ⟨1, 0, 0⟩ (exampleHanded false)) 0 ⟨0, 0, 0⟩
          [2, 1, 30]) 40 =
      firstPointBeyond (exampleEnv ⟨1, 0, 0⟩).F (exampleGenFit ⟨1, 0, 0⟩ (exampleHanded false))
        (clusterRadius (exampleEnv ⟨1, 0, 0⟩) 0 40) :=
  ⟨by decide!, by decide!, by decide!, by decide!,
    clusterSearch_finds_first { exampleConfig false true with _disabled_layers := {30, 40} }
      (exampleEnv ⟨1, 0, 0⟩) (exampleGenFit ⟨1, 0, 0⟩ (exampleHanded false)) 0 ⟨0, 0, 0⟩
      [2, 1, 30] 40 (by decide!) (by decide!)⟩

end SearchExamples

/-! ## The passes of the disabled-layer loop -/

section BackwardProofs

/-- The backward `try` block, spelled out: the backward update of the point `id` is brought
to the plane of the forward state and averaged with it. -/
theorem backwardAverage_spec {α : Type} (env : Env α) (gf : GenFitTrack α) (id : Nat)
    (gf_state avg : MeasuredStateOnPlane α)
    (h : backwardAverage env gf id gf_state = some avg) :
    ∃ trpoint kfi gf_state_backward,
      gf.getPointWithMeasurementAndFitterInfo id = some trpoint ∧
      trpoint.getFitterInfo = some kfi ∧
      env.stateExtrapolateToPlane kfi.getBackwardUpdate gf_state.plane =
        Except.ok gf_state_backward ∧
      env.calcAverageState gf_state gf_state_backward = Except.ok avg := by
  unfold backwardAverage at h
  cases h1 : gf.getPointWithMeasurementAndFitterInfo id with
  | none => simp [h1] at h
  | some trpoint =>
    cases h2 : trpoint.getFitterInfo with
    | none => simp [h1, h2] at h
    | some kfi =>
      cases h3 : env.stateExtrapolateToPlane kfi.getBackwardUpdate gf_state.plane with
      | error e => simp [h1, h2, h3] at h
      | ok b =>
        cases h4 : env.calcAverageState gf_state b with
        | error e => simp [h1, h2, h3, h4] at h
        | ok a =>
          simp [h1, h2, h3, h4] at h
          exact ⟨trpoint, kfi, b, rfl, h2, h3, by rw [h4, h]⟩

end BackwardProofs

section PassProofs

variable {α : Type} [LinearOrderedField α]

/-- What one pass of the loop over the disabled layers inserts: nothing for a cluster of an
enabled layer; otherwise nothing when the forward block or an attempted backward block
leaves by `continue`, and else one state at the forward path length, made from the average
at an interior `id` and from the forward state alone at the other `id`. -/
theorem disabledLayerStep_inserted_eq (cfg : Config α) (env : Env α) (gf : GenFitTrack α)
    (crossing : Int) (vertex_position : TVector3 α) (st : LayerLoop α) (k : cluskey) :
    (disabledLayerStep cfg env gf crossing vertex_position st k).inserted =
      st.inserted ++
        (if (env.getLayer k : Int) ∈ cfg._disabled_layers then
          match forwardExtrapolate env gf
              (forwardAnchor (clusterSearch env gf crossing st.id_min k) st.id_min)
              (clusterPosition env crossing k) vertex_position with
          | none => []
          | some fwd =>
            if 0 < clusterSearch env gf crossing st.id_min k ∧
                clusterSearch env gf crossing st.id_min k < gf.getNumPointsWithMeasurement then
              match backwardAverage env gf (clusterSearch env gf crossing st.id_min k)
                  fwd.2 with
              | none => []
              | some avg => [{ create_track_state fwd.1 avg with cluskey := some k }]
            else [{ create_track_state fwd.1 fwd.2 with cluskey := some k }]
        else []) := by
  unfold disabledLayerStep
  simp only
  by_cases hd : (env.getLayer k : Int) ∈ cfg._disabled_layers
  · rw [if_neg (not_not.2 hd), if_pos hd]
    have hpos : clusterPosition env crossing k =
        ⟨(env.getGlobalPositionDistortionCorrected k (env.findCluster k) crossing).x,
          (env.getGlobalPositionDistortionCorrected k (env.findCluster k) crossing).y,
          (env.getGlobalPositionDistortionCorrected k (env.findCluster k) crossing).z⟩ := rfl
    rw [hpos]
    cases forwardExtrapolate env gf
        (forwardAnchor (clusterSearch env gf crossing st.id_min k) st.id_min)
        ⟨(env.getGlobalPositionDistortionCorrected k (env.findCluster k) crossing).x,
          (env.getGlobalPositionDistortionCorrected k (env.findCluster k) crossing).y,
          (env.getGlobalPositionDistortionCorrected k (env.findCluster k) crossing).z⟩
        vertex_position with
    | none => simp
    | some fwd =>
      simp only
      split_ifs with h1
      · cases backwardAverage env gf (clusterSearch env gf crossing st.id_min k) fwd.2 with
        | none => simp
        | some avg => rfl
      · rfl
  · rw [if_pos hd, if_neg hd]
    simp

/-- The states inserted after one more pass of the loop over the disabled layers. -/
theorem insertedAfter_snoc (cfg : Config α) (env : Env α) (gf : GenFitTrack α)
    (crossing : Int) (vertex_position : TVector3 α) (done : List cluskey) (k : cluskey) :
    insertedAfter cfg env gf crossing vertex_position (done ++ [k]) =
      insertedAfter cfg env gf crossing vertex_position done ++
        (if (env.getLayer k : Int) ∈ cfg._disabled_layers then
          match forwardExtrapolate env gf
              (forwardAnchor
                (clusterSearch env gf crossing
                  (carriedAnchor cfg env gf crossing vertex_position done) k)
                (carriedAnchor cfg env gf crossing vertex_position done))
              (clusterPosition env crossing k) vertex_position with
          | none => []
          | some fwd =>
            if 0 < clusterSearch env gf crossing
                  (carriedAnchor cfg env gf crossing vertex_position done) k ∧
                clusterSearch env gf crossing
                  (carriedAnchor cfg env gf crossing vertex_position done) k <
                  gf.getNumPointsWithMeasurement then
              match backwardAverage env gf
                  (clusterSearch env gf crossing
                    (carriedAnchor cfg env gf crossing vertex_position done) k) fwd.2 with
              | none => []
              | some avg => [{ create_track_state fwd.1 avg with cluskey := some k }]
            else [{ create_track_state fwd.1 fwd.2 with cluskey := some k }]
        else []) := by
  unfold insertedAfter carriedAnchor
  rw [List.foldl_append, List.foldl_cons, List.foldl_nil, disabledLayerStep_inserted_eq]

/-- The forward `try` block, spelled out: the path length is that of the forward update of
the anchor brought to the cluster minus that of its backward update brought to the
vertex; the state is the forward update at the cluster. -/
theorem forwardExtrapolate_spec (env : Env α) (gf : GenFitTrack α) (id_min : Nat)
    (pos_A vertex_position : TVector3 α) (fwd : α × MeasuredStateOnPlane α)
    (h : forwardExtrapolate env gf id_min pos_A vertex_position = some fwd) :
    ∃ trpoint kfi lf lb,
      gf.getPointWithMeasurementAndFitterInfo id_min = some trpoint ∧
      trpoint.getFitterInfo = some kfi ∧
      extrapolationLength env kfi.getForwardUpdate pos_A = some lf ∧
      extrapolationLength env kfi.getBackwardUpdate vertex_position = some lb ∧
      fwd.1 = lf - lb := by
  unfold forwardExtrapolate at h
  cases h1 : gf.getPointWithMeasurementAndFitterInfo id_min with
  | none => simp [h1] at h
  | some trpoint =>
    cases h2 : trpoint.getFitterInfo with
    | none => simp [h1, h2] at h
    | some kfi =>
      cases h3 : env.stateExtrapolateToPoint kfi.getForwardUpdate pos_A with
      | error e => simp [h1, h2, h3] at h
      | ok f =>
        cases h4 : env.stateExtrapolateToPoint kfi.getBackwardUpdate vertex_position with
        | error e => simp [h1, h2, h3, h4] at h
        | ok b =>
          simp [h1, h2, h3, h4] at h
          refine ⟨trpoint, kfi, f.1, b.1, rfl, h2, ?_, ?_, ?_⟩
          · simp [extrapolationLength, h3]
          · simp [extrapolationLength, h4]
          · rw [← h]

/-- Every state the loop over the disabled layers inserts comes from the pass for one
cluster key `k` of a disabled layer, after the passes for the keys `done` before it. -/
theorem insertedAfter_mem (cfg : Config α) (env : Env α) (gf : GenFitTrack α)
    (crossing : Int) (vertex_position : TVector3 α) (keys : List cluskey)
    (s : SvtxTrackState α)
    (hs : s ∈ insertedAfter cfg env gf crossing vertex_position keys) :
    ∃ done k rest, keys = done ++ k :: rest ∧
      s ∉ insertedAfter cfg env gf crossing vertex_position done ∧
      s ∈ insertedAfter cfg env gf crossing vertex_position (done ++ [k]) := by
  induction keys using List.reverseRecOn with
  | nil => simp [insertedAfter] at hs
  | append_singleton init k ih =>
    by_cases hold : s ∈ insertedAfter cfg env gf crossing vertex_position init
    · obtain ⟨done, k2, rest, hkeys, h1, h2⟩ := ih hold
      exact ⟨done, k2, rest ++ [k], by rw [hkeys]; simp, h1, h2⟩
    · exact ⟨init, k, [], by simp, hold, hs⟩

end PassProofs

section PassClaims

variable {α : Type} [LinearOrderedField α]

/-- C22 (amended): every state synthesized for a disabled layer comes from the pass for one
cluster `k` of the candidate, and its path length is the path length of extrapolating the
forward update of the anchor fit point to the global position of `k`, minus the path
length of extrapolating the backward update of that same fit point to the vertex point
(0, 0, 0). -/
theorem synthesized_pathlength (cfg : Config α) (env : Env α) (svtx_track : SvtxTrack α)
    (phgf_track : FittedTrack α) (s : SvtxTrackState α)
    (hs : s ∈ disabledLayerStates cfg env svtx_track phgf_track ⟨0, 0, 0⟩) :
    ∃ done k rest trpoint kfi lf lb,
      get_cluster_keys svtx_track = done ++ k :: rest ∧
      (env.getLayer k : Int) ∈ cfg._disabled_layers ∧
      s.cluskey = some k ∧
      phgf_track.gf.getPointWithMeasurementAndFitterInfo
        (carriedAnchor cfg env phgf_track.gf svtx_track.crossing ⟨0, 0, 0⟩ (done ++ [k])) =
          some trpoint ∧
      trpoint.getFitterInfo = some kfi ∧
      extrapolationLength env kfi.getForwardUpdate
        (clusterPosition env svtx_track.crossing k) = some lf ∧
      extrapolationLength env kfi.getBackwardUpdate ⟨0, 0, 0⟩ = some lb ∧
      s.pathlength = lf - lb := by
  have hs2 : s ∈ insertedAfter cfg env phgf_track.gf svtx_track.crossing ⟨0, 0, 0⟩
      (get_cluster_keys svtx_track) := by
    unfold disabledLayerStates at hs
    split_ifs at hs with h0
    · simp at hs
    · exact hs
  obtain ⟨done, k, rest, hkeys, hold, hnew⟩ := insertedAfter_mem cfg env phgf_track.gf
    svtx_track.crossing ⟨0, 0, 0⟩ _ s hs2
  rw [insertedAfter_snoc] at hnew
  rcases List.mem_append.1 hnew with h | h
  · exact absurd h hold
  · by_cases hd : (env.getLayer k : Int) ∈ cfg._disabled_layers
    · rw [if_pos hd] at h
      have hanchor := carriedAnchor_snoc cfg env phgf_track.gf svtx_track.crossing ⟨0, 0, 0⟩
        done k
      rw [if_pos hd] at hanchor
      rw [← hanchor] at h
      cases hf : forwardExtrapolate env phgf_track.gf
          (carriedAnchor cfg env phgf_track.gf svtx_track.crossing ⟨0, 0, 0⟩ (done ++ [k]))
          (clusterPosition env svtx_track.crossing k) ⟨0, 0, 0⟩ with
      | none => simp [hf] at h
      | some fwd =>
        obtain ⟨trpoint, kfi, lf, lb, h1, h2, h3, h4, h5⟩ :=
          forwardExtrapolate_spec env phgf_track.gf _ _ _ fwd hf
        have hsk : s.cluskey = some k ∧ s.pathlength = fwd.1 := by
          rw [hf] at h
          simp only at h
          split_ifs at h with hi
          · cases hb : backwardAverage env phgf_track.gf
                (clusterSearch env phgf_track.gf svtx_track.crossing
                  (carriedAnchor cfg env phgf_track.gf svtx_track.crossing ⟨0, 0, 0⟩ done) k)
                fwd.2 with
            | none => simp [hb] at h
            | some avg =>
              rw [hb] at h
              rw [List.mem_singleton.1 h]
              exact ⟨rfl, rfl⟩
          · rw [List.mem_singleton.1 h]
            exact ⟨rfl, rfl⟩
        exact ⟨done, k, rest, trpoint, kfi, lf, lb, hkeys, hd, hsk.1, h1, h2, h3, h4,
          by rw [hsk.2, h5]⟩
    · rw [if_neg hd] at h
      simp at h

end PassClaims

section PassExamples

/-- C22 (counterexample): a fit whose backward updates sit one unit further along x than
its forward updates, in a detector with signed path lengths.  For the cluster 30 of the
disabled layer 30 the anchor is fit point 1; its forward update reaches the cluster after
the path length 4 and the vertex after -3, its backward update reaches the vertex after
-4.  The synthesized state carries 8 = 4 - (-4), not 7 = 4 - (-3). -/
theorem synthesized_pathlength_counterexample :
    carriedAnchor { exampleConfig false true with _disabled_layers := {30} } exampleSignedEnv
      (exampleGenFitSplit (exampleHanded true)) 0 ⟨0, 0, 0⟩ [2, 1, 40, 30] = 1 ∧
    ((exampleGenFitSplit (exampleHanded true)).getPointWithMeasurementAndFitterInfo 1).map
      (fun trpoint => trpoint.getFitterInfo.map (fun kfi =>
        (extrapolationLength exampleSignedEnv kfi.getForwardUpdate
            (clusterPosition exampleSignedEnv 0 30),
          extrapolationLength exampleSignedEnv kfi.getForwardUpdate ⟨0, 0, 0⟩,
          extrapolationLength exampleSignedEnv kfi.getBackwardUpdate ⟨0, 0, 0⟩))) =
      some (some (some 4, some (-3), some (-4))) ∧
    (disabledLayerStates { exampleConfig false true with _disabled_layers := {30} }
        exampleSignedEnv (exampleTrack [2, 1] [40, 30])
        ⟨exampleHanded true, exampleGenFitSplit (exampleHanded true)⟩ ⟨0, 0, 0⟩).map
      (fun s => (s.cluskey, s.pathlength)) = [(some 30, 8)] := by
  decide!

theorem synthesized_pathlength_witness :
    ∃ s, s ∈ disabledLayerStates { exampleConfig false true with _disabled_layers := {30} }
        exampleSignedEnv (exampleTrack [2, 1] [40, 30])
        ⟨exampleHanded true, exampleGenFitSplit (exampleHanded true)⟩ ⟨0, 0, 0⟩ ∧
      ∃ done k rest trpoint kfi lf lb,
        get_cluster_keys (exampleTrack [2, 1] [40, 30]) = done ++ k :: rest ∧
        (exampleSignedEnv.getLayer k : Int) ∈
          ({ exampleConfig false true with _disabled_layers := {30} } :
            Config ℚ)._disabled_layers ∧
        s.cluskey = some k ∧
        (exampleGenFitSplit (exampleHanded true)).getPointWithMeasurementAndFitterInfo
          (carriedAnchor { exampleConfig false true with _disabled_layers := {30} }
            exampleSignedEnv (exampleGenFitSplit (exampleHanded true))
            (exampleTrack [2, 1] [40, 30]).crossing ⟨0, 0, 0⟩ (done ++ [k])) = some trpoint ∧
        trpoint.getFitterInfo = some kfi ∧
        extrapolationLength exampleSignedEnv kfi.getForwardUpdate
          (clusterPosition exampleSignedEnv (exampleTrack [2, 1] [40, 30]).crossing k) =
            some lf ∧
        extrapolationLength exampleSignedEnv kfi.getBackwardUpdate ⟨0, 0, 0⟩ = some lb ∧
        s.pathlength = lf - lb := by
  obtain ⟨s, hs⟩ := List.exists_mem_of_length_pos
    (by decide! : 0 < (disabledLayerStates
      { exampleConfig false true with _disabled_layers := {30} }
      exampleSignedEnv (exampleTrack [2, 1] [40, 30])
      ⟨exampleHanded true, exampleGenFitSplit (exampleHanded true)⟩ ⟨0, 0, 0⟩).length)
  exact ⟨s, hs,
    synthesized_pathlength { exampleConfig false true with _disabled_layers := {30} }
      exampleSignedEnv (exampleTrack [2, 1] [40, 30])
      ⟨exampleHanded true, exampleGenFitSplit (exampleHanded true)⟩ s hs⟩

end PassExamples

/-! ## The pT gate of `process_event`, and `set_fit_silicon_mms` -/

section GateClaims

variable {α : Type} [LinearOrderedField α]

/-- A candidate for which the second loop of `process_event` finds no output track has no
entry left in the track map. -/
theorem process_event_erased (cfg : Config α) (env : Env α) (nodes : Nodes α)
    (e : Nat × SvtxTrack α) (he : e ∈ fillTrackMap nodes)
    (hnone : e.1 ∉ (process_event cfg env nodes).refit_calls ∨
      (ReFitTrack cfg env (some e.2)).track = none ∨
      ∃ g, (ReFitTrack cfg env (some e.2)).track = some g ∧
        MakeSvtxTrack cfg env e.2 g = none) :
    ∀ x ∈ (process_event cfg env nodes).m_trackMap, x.1 ≠ e.1 := by
  intro x hx hkey
  obtain ⟨hsorted, -⟩ := fillTrackMap_keys nodes
  rw [process_event_map, List.mem_filterMap] at hx
  obtain ⟨e2, he2, hx2⟩ := hx
  have hx1 : x.1 = e2.1 := by
    split_ifs at hx2 with hc
    obtain ⟨o, -, ho⟩ := Option.map_eq_some'.1 hx2
    rw [← ho]
  have hee : e2 = e := eq_of_key_eq _ hsorted e2 e he2 he (by rw [← hx1, hkey])
  subst hee
  rcases hnone with h | h | ⟨g, hg, hm⟩
  · rw [if_neg h] at hx2
    simp at hx2
  · split_ifs at hx2 with hc
    rw [h] at hx2
    simp at hx2
  · split_ifs at hx2 with hc
    rw [hg] at hx2
    simp [hm] at hx2

/-- C24: a candidate of `process_event` whose transverse momentum is not-a-number or not
above `_fit_min_pT` is not passed to `ReFitTrack` and has no entry left in the track map
afterwards, as has none a candidate for which `ReFitTrack` returned no track. -/
theorem process_event_drops_low_pt (cfg : Config α) (env : Env α) (nodes : Nodes α)
    (e : Nat × SvtxTrack α) (he : e ∈ fillTrackMap nodes)
    (hpt : env.get_pt e.2 = FloatVal.nan ∨
      ∃ pt, env.get_pt e.2 = FloatVal.num pt ∧ pt ≤ cfg._fit_min_pT) :
    e.1 ∉ (process_event cfg env nodes).refit_calls ∧
    (∀ x ∈ (process_event cfg env nodes).m_trackMap, x.1 ≠ e.1) ∧
    (∀ e2 ∈ fillTrackMap nodes, (ReFitTrack cfg env (some e2.2)).track = none →
      ∀ x ∈ (process_event cfg env nodes).m_trackMap, x.1 ≠ e2.1) := by
  have hgate : FloatVal.gt (env.get_pt e.2) cfg._fit_min_pT = false := by
    rcases hpt with h | ⟨pt, h, hle⟩
    · rw [h]; rfl
    · rw [h]
      simp [FloatVal.gt, hle]
  have hcall : e.1 ∉ (process_event cfg env nodes).refit_calls := by
    intro h
    rw [(mem_refit_calls cfg env nodes e he).1 h] at hgate
    exact Bool.noConfusion hgate
  exact ⟨hcall, process_event_erased cfg env nodes e he (Or.inl hcall),
    fun e2 he2 hfail => process_event_erased cfg env nodes e2 he2 (Or.inr (Or.inl hfail))⟩

end GateClaims

section GateExamples

theorem process_event_drops_low_pt_witness :
    exampleCandidate [2, 1] [40, 30] ∈ fillTrackMap (exampleNodes [2, 1] [40, 30]) ∧
    ((exampleEnv ⟨1, 0, 0⟩).get_pt (exampleCandidate [2, 1] [40, 30]).2 = FloatVal.nan ∨
      ∃ pt, (exampleEnv ⟨1, 0, 0⟩).get_pt (exampleCandidate [2, 1] [40, 30]).2 =
          FloatVal.num pt ∧
        pt ≤ ({ exampleConfig false true with _fit_min_pT := 5 } : Config ℚ)._fit_min_pT) ∧
    (exampleCandidate [2, 1] [40, 30]).1 ∉
      (process_event ({ exampleConfig false true with _fit_min_pT := 5 } : Config ℚ)
        (exampleEnv ⟨1, 0, 0⟩) (exampleNodes [2, 1] [40, 30])).refit_calls ∧
    (∀ x ∈ (process_event ({ exampleConfig false true with _fit_min_pT := 5 } : Config ℚ)
        (exampleEnv ⟨1, 0, 0⟩) (exampleNodes [2, 1] [40, 30])).m_trackMap,
      x.1 ≠ (exampleCandidate [2, 1] [40, 30]).1) :=
  ⟨List.mem_singleton.2 rfl, Or.inr ⟨5, by decide!, le_refl _⟩,
    (process_event_drops_low_pt
      ({ exampleConfig false true with _fit_min_pT := 5 } : Config ℚ)
      (exampleEnv ⟨1, 0, 0⟩) (exampleNodes [2, 1] [40, 30]) (exampleCandidate [2, 1] [40, 30])
      (List.mem_singleton.2 rfl) (Or.inr ⟨5, by decide!, le_refl _⟩)).1,
    (process_event_drops_low_pt
      ({ exampleConfig false true with _fit_min_pT := 5 } : Config ℚ)
      (exampleEnv ⟨1, 0, 0⟩) (exampleNodes [2, 1] [40, 30]) (exampleCandidate [2, 1] [40, 30])
      (List.mem_singleton.2 rfl) (Or.inr ⟨5, by decide!, le_refl _⟩)).2.1⟩

end GateExamples

section SetterProofs

/-- The values of a `for` loop over layers are those from `first` up to `last - 1`. -/
theorem mem_layerLoop (first last L : Int) :
    L ∈ layerLoop first last ↔ first ≤ L ∧ L < last := by
  unfold layerLoop
  rw [List.mem_map]
  constructor
  · rintro ⟨i, hi, rfl⟩
    have := List.mem_range.1 hi
    omega
  · rintro ⟨h1, h2⟩
    exact ⟨(L - first).toNat, List.mem_range.2 (by omega), by omega⟩

/-- A run of `disable_layer(layer, value)` calls: the layers named end up disabled exactly
when `value` is set, the others stay as they were, and nothing else changes. -/
theorem disable_layers_spec {α : Type} (value : Bool) (layers : List Int) (cfg : Config α) :
    (layers.foldl (fun c layer => disable_layer c layer value) cfg).m_fit_silicon_mms =
      cfg.m_fit_silicon_mms ∧
    (layers.foldl (fun c layer => disable_layer c layer value) cfg).m_use_micromegas =
      cfg.m_use_micromegas ∧
    (layers.foldl (fun c layer => disable_layer c layer value) cfg)._fit_min_pT =
      cfg._fit_min_pT ∧
    (layers.foldl (fun c layer => disable_layer c layer value) cfg)._primary_pid_guess =
      cfg._primary_pid_guess ∧
    ∀ L, L ∈ (layers.foldl (fun c layer => disable_layer c layer value) cfg)._disabled_layers ↔
      if L ∈ layers then value = true else L ∈ cfg._disabled_layers := by
  induction layers generalizing cfg with
  | nil => exact ⟨rfl, rfl, rfl, rfl, fun L => by simp⟩
  | cons l rest ih =>
    rw [List.foldl_cons]
    obtain ⟨h1, h2, h3, h4, h5⟩ := ih (disable_layer cfg l value)
    have hf : (disable_layer cfg l value).m_fit_silicon_mms = cfg.m_fit_silicon_mms ∧
        (disable_layer cfg l value).m_use_micromegas = cfg.m_use_micromegas ∧
        (disable_layer cfg l value)._fit_min_pT = cfg._fit_min_pT ∧
        (disable_layer cfg l value)._primary_pid_guess = cfg._primary_pid_guess := by
      unfold disable_layer
      cases value <;> exact ⟨rfl, rfl, rfl, rfl⟩
    refine ⟨h1.trans hf.1, h2.trans hf.2.1, h3.trans hf.2.2.1, h4.trans hf.2.2.2, ?_⟩
    intro L
    rw [h5 L]
    by_cases hr : L ∈ rest
    · simp [hr]
    · rw [if_neg hr]
      unfold disable_layer
      by_cases hl : L = l
      · subst hl
        cases value <;> simp
      · cases value <;> simp [hl, hr]

end SetterProofs

section SetterClaims

/-- C25: after `set_fit_silicon_mms(value)`, from any disabled-layer set: the flag
`m_fit_silicon_mms` is `value`; a layer from 7 to 54 is disabled exactly when `value` is
set; the layers outside that range are disabled exactly as before; and the other members
are untouched. -/
theorem set_fit_silicon_mms_layers {α : Type} (cfg : Config α) (value : Bool) :
    (set_fit_silicon_mms cfg value).m_fit_silicon_mms = value ∧
    (∀ L : Int, 7 ≤ L → L < 55 →
      (L ∈ (set_fit_silicon_mms cfg value)._disabled_layers ↔ value = true)) ∧
    (∀ L : Int, ¬(7 ≤ L ∧ L < 55) →
      (L ∈ (set_fit_silicon_mms cfg value)._disabled_layers ↔ L ∈ cfg._disabled_layers)) ∧
    (set_fit_silicon_mms cfg value).m_use_micromegas = cfg.m_use_micromegas ∧
    (set_fit_silicon_mms cfg value)._fit_min_pT = cfg._fit_min_pT ∧
    (set_fit_silicon_mms cfg value)._primary_pid_guess = cfg._primary_pid_guess := by
  unfold set_fit_silicon_mms
  simp only
  obtain ⟨a1, a2, a3, a4, a5⟩ := disable_layers_spec value (layerLoop 7 23)
    ({ cfg with m_fit_silicon_mms := value } : Config α)
  obtain ⟨b1, b2, b3, b4, b5⟩ := disable_layers_spec value (layerLoop 23 39)
    ((layerLoop 7 23).foldl (fun c layer => disable_layer c layer value)
      ({ cfg with m_fit_silicon_mms := value } : Config α))
  obtain ⟨c1, c2, c3, c4, c5⟩ := disable_layers_spec value (layerLoop 39 55)
    ((layerLoop 23 39).foldl (fun c layer => disable_layer c layer value)
      ((layerLoop 7 23).foldl (fun c layer => disable_layer c layer value)
        ({ cfg with m_fit_silicon_mms := value } : Config α)))
  refine ⟨by rw [c1, b1, a1], ?_, ?_, by rw [c2, b2, a2], by rw [c3, b3, a3],
    by rw [c4, b4, a4]⟩
  · intro L h7 h55
    rw [c5 L, b5 L, a5 L]
    simp only [mem_layerLoop]
    by_cases h39 : 39 ≤ L
    · rw [if_pos ⟨h39, h55⟩]
    · rw [if_neg (fun h => h39 h.1)]
      by_cases h23 : 23 ≤ L
      · rw [if_pos ⟨h23, by omega⟩]
      · rw [if_neg (fun h => h23 h.1), if_pos ⟨h7, by omega⟩]
  · intro L hout
    rw [c5 L, b5 L, a5 L]
    simp only [mem_layerLoop]
    rw [if_neg (by omega), if_neg (by omega), if_neg (by omega)]

end SetterClaims

/-! ## The forward and backward blocks of the disabled-layer loop, and `process_event` at an example -/

section BlockProofs

/-- The forward `try` block returns a state exactly when the fit point `id_min` is there
with its fitter info and both extrapolations go through: the forward update brought to
the cluster, and the backward update brought to the vertex, whose path length is taken
off. -/
theorem forwardExtrapolate_some_iff {α : Type} [LinearOrderedField α] (env : Env α)
    (gf : GenFitTrack α) (id_min : Nat) (pos_A vertex_position : TVector3 α)
    (fwd : α × MeasuredStateOnPlane α) :
    forwardExtrapolate env gf id_min pos_A vertex_position = some fwd ↔
      ∃ trpoint kfi fr br,
        gf.getPointWithMeasurementAndFitterInfo id_min = some trpoint ∧
        trpoint.getFitterInfo = some kfi ∧
        env.stateExtrapolateToPoint kfi.getForwardUpdate pos_A = Except.ok fr ∧
        env.stateExtrapolateToPoint kfi.getBackwardUpdate vertex_position = Except.ok br ∧
        fwd = (fr.1 - br.1, fr.2) := by
  unfold forwardExtrapolate
  constructor
  · intro h
    cases h1 : gf.getPointWithMeasurementAndFitterInfo id_min with
    | none => simp [h1] at h
    | some trpoint =>
      cases h2 : trpoint.getFitterInfo with
      | none => simp [h1, h2] at h
      | some kfi =>
        cases h3 : env.stateExtrapolateToPoint kfi.getForwardUpdate pos_A with
        | error e => simp [h1, h2, h3] at h
        | ok f =>
          cases h4 : env.stateExtrapolateToPoint kfi.getBackwardUpdate vertex_position with
          | error e => simp [h1, h2, h3, h4] at h
          | ok b =>
            simp [h1, h2, h3, h4] at h
            exact ⟨trpoint, kfi, f, b, rfl, h2, h3, h4, h.symm⟩
  · rintro ⟨trpoint, kfi, fr, br, h1, h2, h3, h4, rfl⟩
    simp [h1, h2, h3, h4]

/-- The backward `try` block returns a state exactly when the fit point `id` is there with
its fitter info, its backward update reaches the plane of the forward state and the
average of the two can be formed. -/
theorem backwardAverage_some_iff {α : Type} (env : Env α) (gf : GenFitTrack α) (id : Nat)
    (gf_state avg : MeasuredStateOnPlane α) :
    backwardAverage env gf id gf_state = some avg ↔
      ∃ trpoint kfi gf_state_backward,
        gf.getPointWithMeasurementAndFitterInfo id = some trpoint ∧
        trpoint.getFitterInfo = some kfi ∧
        env.stateExtrapolateToPlane kfi.getBackwardUpdate gf_state.plane =
          Except.ok gf_state_backward ∧
        env.calcAverageState gf_state gf_state_backward = Except.ok avg := by
  constructor
  · exact backwardAverage_spec env gf id gf_state avg
  · rintro ⟨trpoint, kfi, b, h1, h2, h3, h4⟩
    unfold backwardAverage
    simp [h1, h2, h3, h4]

end BlockProofs

section BlockClaims

variable {α : Type} [LinearOrderedField α]

/-- C20: in the loop over the disabled layers of `MakeSvtxTrack`, after any clusters
`done`, the pass for a cluster `k` of a disabled layer leaves the radius search at an `id`
not below the carried anchor, and the fit point whose forward update is extrapolated to
the cluster has the index `id - 1` when `id > 0` and `id` when `id = 0`; that index is
below the number of fit points whenever there is a fit point.  When that fit point is
there with its fitter info and its forward update reaches the cluster after the path
length `fr.1` and its backward update the vertex after `br.1`, every state the pass
inserts has the path length `fr.1 - br.1`, and at an `id` that is not interior the pass
inserts the forward update as it arrives at the cluster; when it is not, or an
extrapolation throws, the pass inserts nothing. -/
theorem disabled_layer_anchor (cfg : Config α) (env : Env α) (gf : GenFitTrack α)
    (crossing : Int) (vertex_position : TVector3 α) (done : List cluskey)
    (cluster_key : cluskey) (id : Nat)
    (hd : (env.getLayer cluster_key : Int) ∈ cfg._disabled_layers)
    (hid : clusterSearch env gf crossing
      (carriedAnchor cfg env gf crossing vertex_position done) cluster_key = id) :
    carriedAnchor cfg env gf crossing vertex_position done ≤ id ∧
    carriedAnchor cfg env gf crossing vertex_position (done ++ [cluster_key]) =
      (if 0 < id then id - 1 else id) ∧
    (0 < gf.getNumPointsWithMeasurement →
      (if 0 < id then id - 1 else id) < gf.getNumPointsWithMeasurement) ∧
    (∀ trpoint kfi fr br,
      gf.getPointWithMeasurementAndFitterInfo (if 0 < id then id - 1 else id) =
        some trpoint →
      trpoint.getFitterInfo = some kfi →
      env.stateExtrapolateToPoint kfi.getForwardUpdate
        (clusterPosition env crossing cluster_key) = Except.ok fr →
      env.stateExtrapolateToPoint kfi.getBackwardUpdate vertex_position = Except.ok br →
      (∃ extra,
        insertedAfter cfg env gf crossing vertex_position (done ++ [cluster_key]) =
          insertedAfter cfg env gf crossing vertex_position done ++ extra ∧
        ∀ s ∈ extra, s.pathlength = fr.1 - br.1 ∧ s.cluskey = some cluster_key) ∧
      (¬(0 < id ∧ id < gf.getNumPointsWithMeasurement) →
        insertedAfter cfg env gf crossing vertex_position (done ++ [cluster_key]) =
          insertedAfter cfg env gf crossing vertex_position done ++
            [{ create_track_state (fr.1 - br.1) fr.2 with cluskey := some cluster_key }])) ∧
    ((∀ trpoint kfi fr br,
        ¬(gf.getPointWithMeasurementAndFitterInfo (if 0 < id then id - 1 else id) =
            some trpoint ∧
          trpoint.getFitterInfo = some kfi ∧
          env.stateExtrapolateToPoint kfi.getForwardUpdate
            (clusterPosition env crossing cluster_key) = Except.ok fr ∧
          env.stateExtrapolateToPoint kfi.getBackwardUpdate vertex_position =
            Except.ok br)) →
      insertedAfter cfg env gf crossing vertex_position (done ++ [cluster_key]) =
        insertedAfter cfg env gf crossing vertex_position done) := by
  obtain ⟨hge, -⟩ := clusterSearch_bounds env gf crossing
    (carriedAnchor cfg env gf crossing vertex_position done) cluster_key
  rw [hid] at hge
  have hanchor : forwardAnchor id (carriedAnchor cfg env gf crossing vertex_position done) =
      (if 0 < id then id - 1 else id) := by
    unfold forwardAnchor
    split_ifs with h0
    · rfl
    · omega
  have hstep := carriedAnchor_snoc cfg env gf crossing vertex_position done cluster_key
  rw [if_pos hd, hid, hanchor] at hstep
  have hinv : carriedAnchor cfg env gf crossing vertex_position (done ++ [cluster_key]) ≤
      gf.getNumPointsWithMeasurement - 1 :=
    disabledLayerLoop_id_min cfg env gf crossing vertex_position (done ++ [cluster_key])
  rw [hstep] at hinv
  have hsnoc := insertedAfter_snoc cfg env gf crossing vertex_position done cluster_key
  rw [if_pos hd, hid, hanchor] at hsnoc
  refine ⟨hge, hstep, fun hn => by omega, ?_, ?_⟩
  · intro trpoint kfi fr br h1 h2 h3 h4
    have hfwd := (forwardExtrapolate_some_iff env gf _ _ vertex_position
      (fr.1 - br.1, fr.2)).2 ⟨trpoint, kfi, fr, br, h1, h2, h3, h4, rfl⟩
    rw [hfwd] at hsnoc
    simp only at hsnoc
    constructor
    · by_cases hi : 0 < id ∧ id < gf.getNumPointsWithMeasurement
      · rw [if_pos hi] at hsnoc
        cases hb : backwardAverage env gf id fr.2 with
        | none =>
          rw [hb] at hsnoc
          exact ⟨[], hsnoc, fun s hs => by simp at hs⟩
        | some avg =>
          rw [hb] at hsnoc
          refine ⟨_, hsnoc, fun s hs => ?_⟩
          rw [List.mem_singleton.1 hs]
          exact ⟨rfl, rfl⟩
      · rw [if_neg hi] at hsnoc
        refine ⟨_, hsnoc, fun s hs => ?_⟩
        rw [List.mem_singleton.1 hs]
        exact ⟨rfl, rfl⟩
    · intro hi
      rw [if_neg hi] at hsnoc
      exact hsnoc
  · intro hnone
    have hfwd : forwardExtrapolate env gf (if 0 < id then id - 1 else id)
        (clusterPosition env crossing cluster_key) vertex_position = none := by
      cases hf : forwardExtrapolate env gf (if 0 < id then id - 1 else id)
          (clusterPosition env crossing cluster_key) vertex_position with
      | none => rfl
      | some fwd =>
        obtain ⟨trpoint, kfi, fr, br, h1, h2, h3, h4, -⟩ :=
          (forwardExtrapolate_some_iff env gf _ _ vertex_position fwd).1 hf
        exact absurd ⟨h1, h2, h3, h4⟩ (hnone trpoint kfi fr br)
    rw [hfwd] at hsnoc
    simpa using hsnoc

/-- C23: in the pass of the loop over the disabled layers for a cluster `k` whose forward
extrapolation went through (the forward update of the anchor arrives at the cluster as
`fr.2`), the search index `id` is 0, the number of fit points, or interior.  At `id = 0`
and at `id` equal to the number of fit points the state inserted is the forward
extrapolation alone.  At an interior `id` the backward update of the fit point `id` is
brought to the plane of the forward state and averaged with it: when that goes through
the average is what is inserted, and when the fit point is missing or a step throws,
nothing is inserted for the cluster. -/
theorem backward_blend_iff_interior (cfg : Config α) (env : Env α) (gf : GenFitTrack α)
    (crossing : Int) (vertex_position : TVector3 α) (done : List cluskey) (k : cluskey)
    (id : Nat) (trpoint : TrackPoint α) (kfi : KalmanFitterInfo α)
    (fr br : α × MeasuredStateOnPlane α)
    (hd : (env.getLayer k : Int) ∈ cfg._disabled_layers)
    (hid : clusterSearch env gf crossing
      (carriedAnchor cfg env gf crossing vertex_position done) k = id)
    (hpoint : gf.getPointWithMeasurementAndFitterInfo
      (carriedAnchor cfg env gf crossing vertex_position (done ++ [k])) = some trpoint)
    (hinfo : trpoint.getFitterInfo = some kfi)
    (hfr : env.stateExtrapolateToPoint kfi.getForwardUpdate (clusterPosition env crossing k) =
      Except.ok fr)
    (hbr : env.stateExtrapolateToPoint kfi.getBackwardUpdate vertex_position =
      Except.ok br) :
    (id = 0 ∨ id = gf.getNumPointsWithMeasurement ∨
      (0 < id ∧ id < gf.getNumPointsWithMeasurement)) ∧
    (id = 0 ∨ id = gf.getNumPointsWithMeasurement →
      insertedAfter cfg env gf crossing vertex_position (done ++ [k]) =
        insertedAfter cfg env gf crossing vertex_position done ++
          [{ create_track_state (fr.1 - br.1) fr.2 with cluskey := some k }]) ∧
    (0 < id ∧ id < gf.getNumPointsWithMeasurement →
      (∀ trpoint2 kfi2 gf_state_backward avg,
        gf.getPointWithMeasurementAndFitterInfo id = some trpoint2 →
        trpoint2.getFitterInfo = some kfi2 →
        env.stateExtrapolateToPlane kfi2.getBackwardUpdate fr.2.plane =
          Except.ok gf_state_backward →
        env.calcAverageState fr.2 gf_state_backward = Except.ok avg →
        insertedAfter cfg env gf crossing vertex_position (done ++ [k]) =
          insertedAfter cfg env gf crossing vertex_position done ++
            [{ create_track_state (fr.1 - br.1) avg with cluskey := some k }]) ∧
      ((∀ trpoint2 kfi2 gf_state_backward avg,
          ¬(gf.getPointWithMeasurementAndFitterInfo id = some trpoint2 ∧
            trpoint2.getFitterInfo = some kfi2 ∧
            env.stateExtrapolateToPlane kfi2.getBackwardUpdate fr.2.plane =
              Except.ok gf_state_backward ∧
            env.calcAverageState fr.2 gf_state_backward = Except.ok avg)) →
        insertedAfter cfg env gf crossing vertex_position (done ++ [k]) =
          insertedAfter cfg env gf crossing vertex_position done)) := by
  have hanchor := carriedAnchor_snoc cfg env gf crossing vertex_position done k
  rw [if_pos hd, hid] at hanchor
  have hsnoc := insertedAfter_snoc cfg env gf crossing vertex_position done k
  rw [if_pos hd, hid, ← hanchor] at hsnoc
  have hfwd := (forwardExtrapolate_some_iff env gf
    (carriedAnchor cfg env gf crossing vertex_position (done ++ [k]))
    (clusterPosition env crossing k) vertex_position
    (fr.1 - br.1, fr.2)).2 ⟨trpoint, kfi, fr, br, hpoint, hinfo, hfr, hbr, rfl⟩
  rw [hfwd] at hsnoc
  simp only at hsnoc
  obtain ⟨-, hle⟩ := clusterSearch_bounds env gf crossing
    (carriedAnchor cfg env gf crossing vertex_position done) k
  have hinv : carriedAnchor cfg env gf crossing vertex_position done ≤
      gf.getNumPointsWithMeasurement - 1 :=
    disabledLayerLoop_id_min cfg env gf crossing vertex_position done
  rw [hid, max_eq_right (le_trans hinv (Nat.sub_le _ _))] at hle
  refine ⟨by omega, ?_, ?_⟩
  · intro h0
    rw [hsnoc, if_neg (by omega)]
  · intro hi
    rw [if_pos hi] at hsnoc
    constructor
    · intro trpoint2 kfi2 b avg h1 h2 h3 h4
      have hb := (backwardAverage_some_iff env gf id fr.2 avg).2 ⟨trpoint2, kfi2, b, h1, h2,
        h3, h4⟩
      rw [hsnoc, hb]
    · intro hnone
      have hb : backwardAverage env gf id fr.2 = none := by
        cases hb : backwardAverage env gf id fr.2 with
        | none => rfl
        | some avg =>
          obtain ⟨trpoint2, kfi2, b, h1, h2, h3, h4⟩ :=
            (backwardAverage_some_iff env gf id fr.2 avg).1 hb
          exact absurd ⟨h1, h2, h3, h4⟩ (hnone trpoint2 kfi2 b avg)
      rw [hsnoc, hb, List.append_nil]

end BlockClaims

section BlockExamples

theorem disabled_layer_anchor_witness :
    (((exampleBlendEnv).getLayer 30 : Int) ∈
      ({ exampleConfig false true with _disabled_layers := {30} } :
        Config ℚ)._disabled_layers) ∧
    clusterSearch exampleBlendEnv (exampleGenFitSkew (exampleHanded true)) 0
      (carriedAnchor { exampleConfig false true with _disabled_layers := {30} }
        exampleBlendEnv (exampleGenFitSkew (exampleHanded true)) 0 ⟨0, 0, 0⟩ [2, 1, 40])
      30 = 2 ∧
    carriedAnchor { exampleConfig false true with _disabled_layers := {30} }
      exampleBlendEnv (exampleGenFitSkew (exampleHanded true)) 0 ⟨0, 0, 0⟩
      ([2, 1, 40] ++ [30]) = 1 ∧
    (insertedAfter { exampleConfig false true with _disabled_layers := {30} }
        exampleBlendEnv (exampleGenFitSkew (exampleHanded true)) 0 ⟨0, 0, 0⟩
        ([2, 1, 40] ++ [30])).map (fun s => (s.cluskey, s.pathlength)) = [(some 30, 8)] ∧
    (∃ extra,
      insertedAfter { exampleConfig false true with _disabled_layers := {30} }
          exampleBlendEnv (exampleGenFitSkew (exampleHanded true)) 0 ⟨0, 0, 0⟩
          ([2, 1, 40] ++ [30]) =
        insertedAfter { exampleConfig false true with _disabled_layers := {30} }
          exampleBlendEnv (exampleGenFitSkew (exampleHanded true)) 0 ⟨0, 0, 0⟩
          [2, 1, 40] ++ extra ∧
      ∀ s ∈ extra, s.pathlength = (3 - 0 + (4 - 3)) - (0 - (2 * 0 + 1) + (0 - 3)) ∧
        s.cluskey = some 30) ∧
    (((exampleBlendEnv).getLayer 50 : Int) ∈
      ({ exampleConfig false true with _disabled_layers := {50} } :
        Config ℚ)._disabled_layers) ∧
    clusterSearch exampleBlendEnv (exampleGenFitSkew (exampleHanded false)) 0
      (carriedAnchor { exampleConfig false true with _disabled_layers := {50} }
        exampleBlendEnv (exampleGenFitSkew (exampleHanded false)) 0 ⟨0, 0, 0⟩ [2, 1, 40, 30])
      50 = 0 ∧
    (insertedAfter { exampleConfig false true with _disabled_layers := {50} }
        exampleBlendEnv (exampleGenFitSkew (exampleHanded false)) 0 ⟨0, 0, 0⟩
        ([2, 1, 40, 30] ++ [50])).map (fun s => (s.cluskey, s.pathlength, s.x, s.y)) =
      [(some 50, 3, 0, 0)] ∧
    (insertedAfter { exampleConfig false true with _disabled_layers := {50} }
        exampleBlendEnv (exampleGenFitSkew (exampleHanded false)) 0 ⟨0, 0, 0⟩
        ([2, 1, 40, 30] ++ [50])).length =
      (insertedAfter { exampleConfig false true with _disabled_layers := {50} }
        exampleBlendEnv (exampleGenFitSkew (exampleHanded false)) 0 ⟨0, 0, 0⟩
        [2, 1, 40, 30]).length + 1 :=
  ⟨by decide!, by decide!, by decide!, by decide!,
    ((disabled_layer_anchor { exampleConfig false true with _disabled_layers := {30} }
      exampleBlendEnv (exampleGenFitSkew (exampleHanded true)) 0 ⟨0, 0, 0⟩ [2, 1, 40] 30 2
      (by decide!) (by decide!)).2.2.2.1
        ⟨some ⟨Except.ok (exampleState ⟨0, 3, 0⟩ ⟨1, 0, 0⟩), exampleState ⟨0, 3, 0⟩ ⟨1, 0, 0⟩,
          exampleState ⟨2 * 0 + 1, 3, 0⟩ ⟨1, 0, 0⟩⟩⟩
        ⟨Except.ok (exampleState ⟨0, 3, 0⟩ ⟨1, 0, 0⟩), exampleState ⟨0, 3, 0⟩ ⟨1, 0, 0⟩,
          exampleState ⟨2 * 0 + 1, 3, 0⟩ ⟨1, 0, 0⟩⟩
        (3 - 0 + (4 - 3), { exampleState ⟨0, 3, 0⟩ ⟨1, 0, 0⟩ with pos := ⟨3, 4, 0⟩ })
        (0 - (2 * 0 + 1) + (0 - 3), { exampleState ⟨2 * 0 + 1, 3, 0⟩ ⟨1, 0, 0⟩ with pos := ⟨0, 0, 0⟩ })
        rfl rfl rfl rfl).1,
    by decide!, by decide!, by decide!,
    by
      rw [((disabled_layer_anchor { exampleConfig false true with _disabled_layers := {50} }
        exampleBlendEnv (exampleGenFitSkew (exampleHanded false)) 0 ⟨0, 0, 0⟩ [2, 1, 40, 30]
        50 0 (by decide!) (by decide!)).2.2.2.1
          ⟨some ⟨Except.ok (exampleState ⟨2, 0, 0⟩ ⟨1, 0, 0⟩),
            exampleState ⟨2, 0, 0⟩ ⟨1, 0, 0⟩, exampleState ⟨2 * 2 + 1, 0, 0⟩ ⟨1, 0, 0⟩⟩⟩
          ⟨Except.ok (exampleState ⟨2, 0, 0⟩ ⟨1, 0, 0⟩), exampleState ⟨2, 0, 0⟩ ⟨1, 0, 0⟩,
            exampleState ⟨2 * 2 + 1, 0, 0⟩ ⟨1, 0, 0⟩⟩
          (0 - 2 + (0 - 0), { exampleState ⟨2, 0, 0⟩ ⟨1, 0, 0⟩ with pos := ⟨0, 0, 0⟩ })
          (0 - (2 * 2 + 1) + (0 - 0),
            { exampleState ⟨2 * 2 + 1, 0, 0⟩ ⟨1, 0, 0⟩ with pos := ⟨0, 0, 0⟩ })
          rfl rfl rfl rfl).2 (by decide)]
      simp⟩

end BlockExamples

section BlendExamples

theorem backward_blend_iff_interior_witness :
    (ReFitTrack { exampleConfig false true with _disabled_layers := {30} } exampleBlendEnv
      (some (exampleTrack [2, 1] [40, 30]))).processTrack_calls = [exampleHanded true] ∧
    clusterSearch exampleBlendEnv (exampleGenFitSplit (exampleHanded true)) 0
      (carriedAnchor { exampleConfig false true with _disabled_layers := {30} }
        exampleBlendEnv (exampleGenFitSplit (exampleHanded true)) 0 ⟨0, 0, 0⟩ [2, 1, 40])
      30 = 2 ∧
    (exampleGenFitSplit (exampleHanded true)).getNumPointsWithMeasurement = 3 ∧
    (insertedAfter { exampleConfig false true with _disabled_layers := {30} }
        exampleBlendEnv (exampleGenFitSplit (exampleHanded true)) 0 ⟨0, 0, 0⟩
        ([2, 1, 40] ++ [30])).map (fun s => (s.cluskey, s.pathlength, s.x, s.y)) =
      [(some 30, 8, 5, 6)] ∧
    (insertedAfter { exampleConfig false true with _disabled_layers := {30} }
        exampleBlendEnv (exampleGenFitSplit (exampleHanded true)) 0 ⟨0, 0, 0⟩
        ([2, 1, 40] ++ [30])).length =
      (insertedAfter { exampleConfig false true with _disabled_layers := {30} }
        exampleBlendEnv (exampleGenFitSplit (exampleHanded true)) 0 ⟨0, 0, 0⟩
        [2, 1, 40]).length + 1 ∧
    (ReFitTrack { exampleConfig false true with _disabled_layers := {40} } exampleBlendEnv
      (some (exampleTrack [2, 1] [40, 30]))).processTrack_calls = [exampleHandedInner] ∧
    clusterSearch exampleBlendEnv (exampleGenFitSplit exampleHandedInner) 0
      (carriedAnchor { exampleConfig false true with _disabled_layers := {40} }
        exampleBlendEnv (exampleGenFitSplit exampleHandedInner) 0 ⟨0, 0, 0⟩ [2, 1])
      40 = 3 ∧
    (exampleGenFitSplit exampleHandedInner).getNumPointsWithMeasurement = 3 ∧
    (insertedAfter { exampleConfig false true with _disabled_layers := {40} }
        exampleBlendEnv (exampleGenFitSplit exampleHandedInner) 0 ⟨0, 0, 0⟩
        ([2, 1] ++ [40])).map (fun s => (s.cluskey, s.pathlength, s.x, s.y)) =
      [(some 40, 15, 6, 8)] ∧
    (insertedAfter { exampleConfig false true with _disabled_layers := {40} }
        exampleBlendEnv (exampleGenFitSplit exampleHandedInner) 0 ⟨0, 0, 0⟩
        ([2, 1] ++ [40])).length =
      (insertedAfter { exampleConfig false true with _disabled_layers := {40} }
        exampleBlendEnv (exampleGenFitSplit exampleHandedInner) 0 ⟨0, 0, 0⟩
        [2, 1]).length + 1 :=
  ⟨by decide!, by decide!, by decide!, by decide!,
    by
      rw [((backward_blend_iff_interior
        { exampleConfig false true with _disabled_layers := {30} }
        exampleBlendEnv (exampleGenFitSplit (exampleHanded true)) 0 ⟨0, 0, 0⟩ [2, 1, 40] 30 2
        ⟨some ⟨Except.ok (exampleState ⟨0, 3, 0⟩ ⟨1, 0, 0⟩), exampleState ⟨0, 3, 0⟩ ⟨1, 0, 0⟩,
          exampleState ⟨0 + 1, 3, 0⟩ ⟨1, 0, 0⟩⟩⟩
        ⟨Except.ok (exampleState ⟨0, 3, 0⟩ ⟨1, 0, 0⟩), exampleState ⟨0, 3, 0⟩ ⟨1, 0, 0⟩,
          exampleState ⟨0 + 1, 3, 0⟩ ⟨1, 0, 0⟩⟩
        (3 - 0 + (4 - 3), { exampleState ⟨0, 3, 0⟩ ⟨1, 0, 0⟩ with pos := ⟨3, 4, 0⟩ })
        (0 - (0 + 1) + (0 - 3), { exampleState ⟨0 + 1, 3, 0⟩ ⟨1, 0, 0⟩ with pos := ⟨0, 0, 0⟩ })
        (by decide!) (by decide!)
        (by
          rw [(by decide! : carriedAnchor
            { exampleConfig false true with _disabled_layers := {30} } exampleBlendEnv
            (exampleGenFitSplit (exampleHanded true)) 0 ⟨0, 0, 0⟩ ([2, 1, 40] ++ [30]) = 1)]
          rfl)
        rfl rfl rfl).2.2 (by decide)).1
          ⟨some ⟨Except.ok (exampleState ⟨6, 8, 0⟩ ⟨1, 0, 0⟩),
            exampleState ⟨6, 8, 0⟩ ⟨1, 0, 0⟩, exampleState ⟨6 + 1, 8, 0⟩ ⟨1, 0, 0⟩⟩⟩
          ⟨Except.ok (exampleState ⟨6, 8, 0⟩ ⟨1, 0, 0⟩), exampleState ⟨6, 8, 0⟩ ⟨1, 0, 0⟩,
            exampleState ⟨6 + 1, 8, 0⟩ ⟨1, 0, 0⟩⟩
          { exampleState ⟨6 + 1, 8, 0⟩ ⟨1, 0, 0⟩ with plane := 0 }
          { exampleState ⟨0, 3, 0⟩ ⟨1, 0, 0⟩ with
            pos := ⟨(3 + (6 + 1)) / 2, (4 + 8) / 2, (0 + 0) / 2⟩ }
          rfl rfl rfl rfl]
      simp,
    by decide!, by decide!, by decide!, by decide!,
    by
      rw [(backward_blend_iff_interior
        { exampleConfig false true with _disabled_layers := {40} }
        exampleBlendEnv (exampleGenFitSplit exampleHandedInner) 0 ⟨0, 0, 0⟩ [2, 1] 40 3
        ⟨some ⟨Except.ok (exampleState ⟨3, 4, 0⟩ ⟨1, 0, 0⟩), exampleState ⟨3, 4, 0⟩ ⟨1, 0, 0⟩,
          exampleState ⟨3 + 1, 4, 0⟩ ⟨1, 0, 0⟩⟩⟩
        ⟨Except.ok (exampleState ⟨3, 4, 0⟩ ⟨1, 0, 0⟩), exampleState ⟨3, 4, 0⟩ ⟨1, 0, 0⟩,
          exampleState ⟨3 + 1, 4, 0⟩ ⟨1, 0, 0⟩⟩
        (6 - 3 + (8 - 4), { exampleState ⟨3, 4, 0⟩ ⟨1, 0, 0⟩ with pos := ⟨6, 8, 0⟩ })
        (0 - (3 + 1) + (0 - 4), { exampleState ⟨3 + 1, 4, 0⟩ ⟨1, 0, 0⟩ with pos := ⟨0, 0, 0⟩ })
        (by decide!) (by decide!)
        (by
          rw [(by decide! : carriedAnchor
            { exampleConfig false true with _disabled_layers := {40} } exampleBlendEnv
            (exampleGenFitSplit exampleHandedInner) 0 ⟨0, 0, 0⟩ ([2, 1] ++ [40]) = 2)]
          rfl)
        rfl rfl rfl).2.1 (Or.inr rfl)]
      simp⟩

end BlendExamples

section EventExamples

theorem process_event_keeps_converted_tracks_witness :
    (fillTrackMap (exampleNodes [2, 1] [40, 30])).map Prod.fst = [0] ∧
    (((ReFitTrack (exampleConfig false true) (exampleEnv ⟨1, 0, 0⟩)
        (some (exampleCandidate [2, 1] [40, 30]).2)).track).bind
      (MakeSvtxTrack (exampleConfig false true) (exampleEnv ⟨1, 0, 0⟩)
        (exampleCandidate [2, 1] [40, 30]).2)).isSome = true ∧
    (process_event (exampleConfig false true) (exampleEnv ⟨1, 0, 0⟩)
      (exampleNodes [2, 1] [40, 30])).refit_calls = [0] ∧
    (process_event (exampleConfig false true) (exampleEnv ⟨1, 0, 0⟩)
      (exampleNodes [2, 1] [40, 30])).m_trackMap.map Prod.fst = [0] ∧
    (process_event ({ exampleConfig false true with _fit_min_pT := 5 } : Config ℚ)
      (exampleEnv ⟨1, 0, 0⟩) (exampleNodes [2, 1] [40, 30])).refit_calls = [] ∧
    (process_event ({ exampleConfig false true with _fit_min_pT := 5 } : Config ℚ)
      (exampleEnv ⟨1, 0, 0⟩) (exampleNodes [2, 1] [40, 30])).m_trackMap.map Prod.fst = [] ∧
    (process_event (exampleConfig false true) (exampleEnv ⟨1, 0, 0⟩)
      (exampleNodes [2, 1] [40, 30])).refit_calls =
      ((fillTrackMap (exampleNodes [2, 1] [40, 30])).filter
        (fun e => FloatVal.gt ((exampleEnv ⟨1, 0, 0⟩).get_pt e.2)
          (exampleConfig false true)._fit_min_pT)).map Prod.fst :=
  ⟨by decide!, by decide!, by decide!, by decide!, by decide!, by decide!,
    (process_event_keeps_converted_tracks (exampleConfig false true) (exampleEnv ⟨1, 0, 0⟩)
      (exampleNodes [2, 1] [40, 30])).2.1⟩

end EventExamples

end PHGenFitTrkFitter

/-! ## Properties of `TpcRawHitv1` and `PHNodeReset` -/

namespace TpcRawHitv1

section HitProofs

/-- The length of a resized vector is the count asked for. -/
theorem length_resize (v : List Nat) (count value : Nat) :
    (resize v count value).length = count := by
  unfold resize
  rw [List.length_append, List.length_take, List.length_replicate]
  omega

/-- The entries of a resized vector: the old ones below the old length, the fill value
from there on. -/
theorem getElem?_resize (v : List Nat) (count value i : Nat) (hi : i < count) :
    (resize v count value)[i]? = if i < v.length then v[i]? else some value := by
  unfold resize
  by_cases h : i < v.length
  · rw [if_pos h, List.getElem?_append_left (by rw [List.length_take]; omega),
      List.getElem?_take_of_lt hi]
  · rw [if_neg h, List.getElem?_append_right (by rw [List.length_take]; omega),
      List.length_take]
    rw [List.getElem?_replicate]
    rw [if_pos (by omega)]

/-- What a setter call does to the stored sample count and to the length of `adc`:
`set_samples` sets both to its argument, every other setter keeps both. -/
theorem call_samples (h h2 : TpcRawHitv1) (c : Setter) (hc : h.call c = some h2) :
    (∀ val, c = Setter.samples val → h2.samples = val ∧ h2.adc.length = val) ∧
    ((∀ val, c ≠ Setter.samples val) →
      h2.samples = h.samples ∧ h2.adc.length = h.adc.length) := by
  cases c with
  | samples val =>
    simp only [call, Option.some.injEq] at hc
    subst hc
    refine ⟨fun v hv => ?_, fun hne => absurd rfl (hne val)⟩
    obtain rfl : val = v := by simpa using hv
    exact ⟨rfl, length_resize _ _ _⟩
  | adc sample val =>
    refine ⟨fun v hv => by simp at hv, fun _ => ?_⟩
    simp only [call, set_adc] at hc
    split_ifs at hc with hlt
    simp only [Option.some.injEq] at hc
    subst hc
    exact ⟨rfl, List.length_set _ _ _⟩
  | bco val =>
    simp only [call, Option.some.injEq] at hc
    subst hc
    exact ⟨fun v hv => by simp at hv, fun _ => ⟨rfl, rfl⟩⟩
  | gtm_bco val =>
    simp only [call, Option.some.injEq] at hc
    subst hc
    exact ⟨fun v hv => by simp at hv, fun _ => ⟨rfl, rfl⟩⟩
  | packetid val =>
    simp only [call, Option.some.injEq] at hc
    subst hc
    exact ⟨fun v hv => by simp at hv, fun _ => ⟨rfl, rfl⟩⟩
  | fee val =>
    simp only [call, Option.some.injEq] at hc
    subst hc
    exact ⟨fun v hv => by simp at hv, fun _ => ⟨rfl, rfl⟩⟩
  | channel val =>
    simp only [call, Option.some.injEq] at hc
    subst hc
    exact ⟨fun v hv => by simp at hv, fun _ => ⟨rfl, rfl⟩⟩
  | sampaaddress val =>
    simp only [call, Option.some.injEq] at hc
    subst hc
    exact ⟨fun v hv => by simp at hv, fun _ => ⟨rfl, rfl⟩⟩
  | sampachannel val =>
    simp only [call, Option.some.injEq] at hc
    subst hc
    exact ⟨fun v hv => by simp at hv, fun _ => ⟨rfl, rfl⟩⟩

/-- A sequence of setter calls leaves the number of stored samples equal to the stored
count when it starts from such a state or contains a call of `set_samples`. -/
theorem calls_samples (cs : List Setter) (h h2 : TpcRawHitv1) (hc : h.calls cs = some h2)
    (hs : h.adc.length = h.samples ∨ ∃ val, Setter.samples val ∈ cs) :
    h2.adc.length = h2.samples := by
  induction cs generalizing h with
  | nil =>
    simp only [calls, Option.some.injEq] at hc
    subst hc
    rcases hs with hs | ⟨val, hv⟩
    · exact hs
    · simp at hv
  | cons c rest ih =>
    unfold calls at hc
    cases hcall : h.call c with
    | none => simp [hcall] at hc
    | some h1 =>
      rw [hcall] at hc
      simp only at hc
      obtain ⟨hset, hother⟩ := call_samples h h1 c hcall
      apply ih h1 hc
      by_cases hsam : ∃ val, c = Setter.samples val
      · obtain ⟨val, rfl⟩ := hsam
        obtain ⟨h3, h4⟩ := hset val rfl
        exact Or.inl (by rw [h3, h4])
      · obtain ⟨h3, h4⟩ := hother (fun val hv => hsam ⟨val, hv⟩)
        rcases hs with hs | ⟨val, hv⟩
        · exact Or.inl (by rw [h3, h4, hs])
        · rcases List.mem_cons.1 hv with hv | hv
          · exact absurd ⟨val, hv.symm⟩ hsam
          · exact Or.inr ⟨val, hv⟩

end HitProofs

section HitClaims

/-- C26 (counterexample): the default-constructed hit, with no setter called or after
`set_bco(7)`: `get_samples()` is 65535, no ADC sample is stored, and `get_adc(0)` fails its
assertion although 0 is below `get_samples()`. -/
theorem default_samples_counterexample :
    new.calls [] = some new ∧
    new.get_samples = 65535 ∧ new.adc.length = 0 ∧ new.get_adc 0 = none ∧
    (new.calls [Setter.bco 7]).map (fun h => (h.get_samples, h.adc.length)) =
      some (65535, 0) := by
  decide

/-- C26 (amended): in every state of a `TpcRawHitv1` reached from default construction by a
sequence of setter calls that contains a call of `set_samples`, the number of stored ADC
samples equals `get_samples()`, and `get_adc(i)` and `set_adc(i, v)` pass their assertion
for every `i` below `get_samples()`. -/
theorem samples_match_after_set_samples (cs : List Setter) (h : TpcRawHitv1)
    (hc : new.calls cs = some h) (hs : ∃ val, Setter.samples val ∈ cs) :
    h.adc.length = h.get_samples ∧
    ∀ i, i < h.get_samples →
      (h.get_adc i).isSome = true ∧ ∀ v, (h.set_adc i v).isSome = true := by
  have hlen := calls_samples cs new h hc (Or.inr hs)
  refine ⟨hlen, fun i hi => ?_⟩
  have hi2 : i < h.adc.length := by rw [hlen]; exact hi
  constructor
  · unfold get_adc
    rw [if_pos hi2, List.getElem?_eq_getElem hi2]
    rfl
  · intro v
    unfold set_adc
    rw [if_pos hi2]
    rfl

theorem samples_match_after_set_samples_witness :
    new.calls [Setter.bco 7, Setter.samples 3, Setter.adc 1 40, Setter.fee 2] =
      some ⟨7, UINT64_MAX, INT32_MAX, 2, UINT16_MAX, UINT16_MAX, UINT16_MAX, 3, [0, 40, 0]⟩ ∧
    (∃ val, Setter.samples val ∈
      [Setter.bco 7, Setter.samples 3, Setter.adc 1 40, Setter.fee 2]) ∧
    (⟨7, UINT64_MAX, INT32_MAX, 2, UINT16_MAX, UINT16_MAX, UINT16_MAX, 3, [0, 40, 0]⟩ :
      TpcRawHitv1).adc.length =
      (⟨7, UINT64_MAX, INT32_MAX, 2, UINT16_MAX, UINT16_MAX, UINT16_MAX, 3, [0, 40, 0]⟩ :
        TpcRawHitv1).get_samples :=
  ⟨by decide, ⟨3, by decide⟩,
    (samples_match_after_set_samples
      [Setter.bco 7, Setter.samples 3, Setter.adc 1 40, Setter.fee 2]
      ⟨7, UINT64_MAX, INT32_MAX, 2, UINT16_MAX, UINT16_MAX, UINT16_MAX, 3, [0, 40, 0]⟩
      (by decide) ⟨3, by decide⟩).1⟩

/-- C27: for a sample index `i` below the stored ADC length, `set_adc(i, v)` passes its
assertion, and afterwards `get_adc(i)` returns `v`, `get_adc(j)` is as before for every
other `j`, and the scalar members are unchanged; after `set_samples(n)` the ADC values
below `n` and below the old length are as before, and those from the old length up to `n`
read 0. -/
theorem set_adc_frame (h : TpcRawHitv1) (i v n : Nat) (hi : i < h.adc.length) :
    (∃ h2, h.set_adc i v = some h2 ∧
      h2.get_adc i = some v ∧
      (∀ j, j ≠ i → h2.get_adc j = h.get_adc j) ∧
      h2.bco = h.bco ∧ h2.gtm_bco = h.gtm_bco ∧ h2.packetid = h.packetid ∧
      h2.fee = h.fee ∧ h2.channel = h.channel ∧ h2.sampaaddress = h.sampaaddress ∧
      h2.sampachannel = h.sampachannel ∧ h2.samples = h.samples) ∧
    (∀ j, j < n → j < h.adc.length → (h.set_samples n).get_adc j = h.get_adc j) ∧
    (∀ j, j < n → h.adc.length ≤ j → (h.set_samples n).get_adc j = some 0) := by
  refine ⟨⟨{ h with adc := h.adc.set i v }, by unfold set_adc; rw [if_pos hi], ?_, ?_,
    rfl, rfl, rfl, rfl, rfl, rfl, rfl, rfl⟩, ?_, ?_⟩
  · unfold get_adc
    simp only [List.length_set, if_pos hi]
    rw [List.getElem?_set_self hi]
  · intro j hj
    unfold get_adc
    simp only [List.length_set]
    by_cases hlt : j < h.adc.length
    · rw [if_pos hlt, if_pos hlt, List.getElem?_set_ne (Ne.symm hj)]
    · rw [if_neg hlt, if_neg hlt]
  · intro j hjn hjl
    unfold get_adc set_samples
    simp only [length_resize, if_pos hjn, if_pos hjl]
    rw [getElem?_resize _ _ _ _ hjn, if_pos hjl]
  · intro j hjn hjl
    unfold get_adc set_samples
    simp only [length_resize, if_pos hjn]
    rw [getElem?_resize _ _ _ _ hjn, if_neg (by omega)]

theorem set_adc_frame_witness :
    1 < (⟨7, 8, 9, 2, 3, 4, 5, 3, [10, 20, 30]⟩ : TpcRawHitv1).adc.length ∧
    ((⟨7, 8, 9, 2, 3, 4, 5, 3, [10, 20, 30]⟩ : TpcRawHitv1).set_adc 1 40 =
      some ⟨7, 8, 9, 2, 3, 4, 5, 3, [10, 40, 30]⟩) ∧
    ((⟨7, 8, 9, 2, 3, 4, 5, 3, [10, 20, 30]⟩ : TpcRawHitv1).set_samples 5).adc =
      [10, 20, 30, 0, 0] ∧
    (∀ j, j < 5 → (⟨7, 8, 9, 2, 3, 4, 5, 3, [10, 20, 30]⟩ : TpcRawHitv1).adc.length ≤ j →
      ((⟨7, 8, 9, 2, 3, 4, 5, 3, [10, 20, 30]⟩ : TpcRawHitv1).set_samples 5).get_adc j =
        some 0) :=
  ⟨by decide, by decide, by decide,
    (set_adc_frame ⟨7, 8, 9, 2, 3, 4, 5, 3, [10, 20, 30]⟩ 1 40 5 (by decide)).2.2⟩

end HitClaims

end TpcRawHitv1

namespace PHNodeReset

section ResetClaims

/-- C28: `PHNodeReset::perform` calls `Reset` on the data of the node, once, exactly when
the reset flag of the node is set, its type is "PHDataNode" or "PHIODataNode" and its
object type is "PHObject"; the node is then the same node with its data reset, and in
every other case the node and its data are as before. -/
theorem perform_resets_iff {σ : Type} (verbosity : Int) (Reset : σ → σ) (node : PHNode σ) :
    ((perform verbosity Reset node).reset_calls = 1 ↔
      (node.getResetFlag = true ∧
        (node.getType = "PHDataNode" ∨ node.getType = "PHIODataNode") ∧
        node.getObjectType = "PHObject")) ∧
    ((perform verbosity Reset node).reset_calls = 1 →
      (perform verbosity Reset node).node = { node with getData := Reset node.getData }) ∧
    ((perform verbosity Reset node).reset_calls ≠ 1 →
      (perform verbosity Reset node).reset_calls = 0 ∧
      (perform verbosity Reset node).node = node) := by
  unfold perform
  cases hflag : node.getResetFlag with
  | false => simp
  | true =>
    by_cases ht : node.getType = "PHDataNode" ∨ node.getType = "PHIODataNode"
    · by_cases ho : node.getObjectType = "PHObject"
      · simp [ht, ho]
      · simp [ht, ho]
    · simp [ht]

end ResetClaims

end PHNodeReset

/-! ## Properties of `FastJetAlgo` -/

namespace FastJetAlgo

section JetProofs

variable {α : Type} [LinearOrderedField α]

/-- The translation loop on particles with finite kinematics: it appends, for each
particle of non-zero energy, the pseudojet tagged with the position of the particle. -/
theorem translateLoop_finite (rest : List (Jet α)) (hfin : ∀ p ∈ rest, p.finite = true)
    (ipart : Nat) (pseudojets : List (PseudoJet α)) :
    translateLoop ipart rest pseudojets =
      Except.ok (pseudojets ++
        ((rest.enumFrom ipart).filter (fun ip => !ip.2.get_e.isZero)).map
          (fun ip => ⟨ip.2.get_px, ip.2.get_py, ip.2.get_pz, ip.2.get_e, (ip.1 : Int)⟩)) := by
  induction rest generalizing ipart pseudojets with
  | nil => simp [translateLoop]
  | cons p rest ih =>
    have hp := hfin p (List.mem_cons_self _ _)
    have hrest : ∀ q ∈ rest, q.finite = true := fun q hq => hfin q (List.mem_cons_of_mem _ hq)
    unfold Jet.finite at hp
    simp only [Bool.and_eq_true] at hp
    obtain ⟨⟨⟨h1, h2⟩, h3⟩, h4⟩ := hp
    unfold translateLoop
    rw [List.enumFrom_cons, List.filter_cons]
    by_cases hz : p.get_e.isZero = true
    · rw [if_pos hz, ih hrest]
      simp [hz]
    · rw [if_neg hz]
      simp only [h1, h2, h3, h4, Bool.not_true, Bool.or_self, Bool.false_eq_true, if_false]
      rw [ih hrest]
      simp [hz]

/-- A pseudojet of `expectedPseudoJets` names, by its user index, the particle it was
made from, which has non-zero energy. -/
theorem mem_expectedPseudoJets (particles : List (Jet α)) (pj : PseudoJet α)
    (h : pj ∈ expectedPseudoJets particles) :
    0 ≤ pj.user_index ∧ pj.user_index < (particles.length : Int) ∧
    ∃ p, particles[pj.user_index.toNat]? = some p ∧ p.get_e.isZero = false ∧
      pj = ⟨p.get_px, p.get_py, p.get_pz, p.get_e, pj.user_index⟩ := by
  unfold expectedPseudoJets at h
  obtain ⟨ip, hip, rfl⟩ := List.mem_map.1 h
  obtain ⟨hmem, hnz⟩ := List.mem_filter.1 hip
  have hget : particles[ip.1]? = some ip.2 := List.mk_mem_enum_iff_getElem?.1 hmem
  have hlt : ip.1 < particles.length := (List.getElem?_eq_some.1 hget).1
  refine ⟨Int.natCast_nonneg _, Int.ofNat_lt.2 hlt, ip.2, ?_, by simpa using hnz, rfl⟩
  simpa using hget

/-- The lookup of a particle by the user index of a pseudojet that was handed to the
engine is in bounds. -/
theorem particleAt_of_expected (particles : List (Jet α)) (index : Int)
    (h : ∃ pj ∈ expectedPseudoJets particles, index = pj.user_index) :
    ∃ p, particleAt particles index = Except.ok p ∧ p.get_e.isZero = false := by
  obtain ⟨pj, hpj, rfl⟩ := h
  obtain ⟨h0, -, p, hget, hnz, -⟩ := mem_expectedPseudoJets particles pj hpj
  refine ⟨p, ?_, hnz⟩
  unfold particleAt
  rw [if_pos h0, hget]

/-- The component copy of `fillJetContainer` goes through when every constituent that is
not a pure ghost carries the user index of a pseudojet handed to the engine. -/
theorem copyComponents_ok (particles : List (Jet α)) (comps : List Constituent)
    (h : ∀ c ∈ comps, c.is_pure_ghost = false →
      ∃ pj ∈ expectedPseudoJets particles, c.user_index = pj.user_index) :
    ∃ out, copyComponents particles comps = Except.ok out := by
  induction comps with
  | nil => exact ⟨[], rfl⟩
  | cons c rest ih =>
    obtain ⟨more, hmore⟩ := ih (fun c2 hc2 => h c2 (List.mem_cons_of_mem _ hc2))
    unfold copyComponents
    by_cases hg : c.is_pure_ghost = true
    · rw [if_pos hg]
      exact ⟨more, hmore⟩
    · rw [if_neg hg]
      obtain ⟨p, hp, -⟩ := particleAt_of_expected particles c.user_index
        (h c (List.mem_cons_self _ _) (by simpa using hg))
      rw [hp, hmore]
      exact ⟨_, rfl⟩

/-- The component copy of `get_jets` goes through when every constituent carries the user
index of a pseudojet handed to the engine. -/
theorem copyAllComponents_ok (particles : List (Jet α)) (comps : List Constituent)
    (h : ∀ c ∈ comps, ∃ pj ∈ expectedPseudoJets particles, c.user_index = pj.user_index) :
    ∃ out, copyAllComponents particles comps = Except.ok out := by
  induction comps with
  | nil => exact ⟨[], rfl⟩
  | cons c rest ih =>
    obtain ⟨more, hmore⟩ := ih (fun c2 hc2 => h c2 (List.mem_cons_of_mem _ hc2))
    unfold copyAllComponents
    obtain ⟨p, hp, -⟩ := particleAt_of_expected particles c.user_index
      (h c (List.mem_cons_self _ _))
    rw [hp, hmore]
    exact ⟨_, rfl⟩

/-- The loop of `fillJetContainer` goes through under the condition of
`copyComponents_ok` on the constituents of every jet. -/
theorem fillLoop_ok (m : FastJetAlgo α) (eng : Engine α) (particles : List (Jet α))
    (fastjets : List (ClusteredJet α))
    (h : ∀ fj ∈ fastjets, ∀ c ∈ fj.constituents, c.is_pure_ghost = false →
      ∃ pj ∈ expectedPseudoJets particles, c.user_index = pj.user_index) (ijet : Nat) :
    ∃ calls, fillLoop m eng particles ijet fastjets = Except.ok calls := by
  induction fastjets generalizing ijet with
  | nil => exact ⟨[], rfl⟩
  | cons fj rest ih =>
    obtain ⟨more, hmore⟩ := ih (fun f hf => h f (List.mem_cons_of_mem _ hf)) (ijet + 1)
    obtain ⟨comps, hcomps⟩ := copyComponents_ok particles fj.constituents
      (h fj (List.mem_cons_self _ _))
    have hjet : ∃ calls, fillJet m eng particles ijet fj = Except.ok calls := by
      unfold fillJet
      by_cases hg : fj.is_pure_ghost = true
      · rw [if_pos hg]
        exact ⟨[], rfl⟩
      · rw [if_neg hg]
        simp only [hcomps]
        exact ⟨_, rfl⟩
    obtain ⟨calls, hcalls⟩ := hjet
    unfold fillLoop
    rw [hcalls, hmore]
    exact ⟨_, rfl⟩

/-- The output loop of `get_jets` goes through under the condition of
`copyAllComponents_ok` on the constituents of every jet. -/
theorem outLoop_ok (m : FastJetAlgo α) (eng : Engine α) (particles : List (Jet α))
    (fastjets : List (ClusteredJet α))
    (h : ∀ fj ∈ fastjets, ∀ c ∈ fj.constituents,
      ∃ pj ∈ expectedPseudoJets particles, c.user_index = pj.user_index) (ijet : Nat) :
    ∃ jets, outLoop m eng particles ijet fastjets = Except.ok jets := by
  induction fastjets generalizing ijet with
  | nil => exact ⟨[], rfl⟩
  | cons fj rest ih =>
    obtain ⟨more, hmore⟩ := ih (fun f hf => h f (List.mem_cons_of_mem _ hf)) (ijet + 1)
    obtain ⟨comps, hcomps⟩ := copyAllComponents_ok particles fj.constituents
      (h fj (List.mem_cons_self _ _))
    have hjet : ∃ jet, outJet m eng particles ijet fj = Except.ok jet := by
      unfold outJet
      simp only [hcomps]
      exact ⟨_, rfl⟩
    obtain ⟨jet, hj⟩ := hjet
    unfold outLoop
    rw [hj, hmore]
    exact ⟨_, rfl⟩

end JetProofs

section JetClaims

variable {α : Type} [LinearOrderedField α]

/-- C29: in `cluster_and_fill` and in `get_jets`, on input particles with finite
kinematics, the pseudojets handed to the clustering engine are the particles with
non-zero energy, in input order, each tagged with its position in the input vector as
user index.  Every such user index is below `particles.size()` and names a particle with
non-zero energy, so the lookup `particles[user_index]` of the component copy is in bounds
for every constituent that carries the user index of a pseudojet handed in: the component
copies of `fillJetContainer` (pure ghosts passed over) and of `get_jets` go through. -/
theorem pseudojets_index_particles (m : FastJetAlgo α) (eng : Engine α)
    (particles : List (Jet α)) (hfin : ∀ p ∈ particles, p.finite = true) :
    toPseudoJets particles = Except.ok (expectedPseudoJets particles) ∧
    cluster_and_fill m eng particles =
      clusterFrom (firstCall m eng).1 (firstCall m eng).2 eng particles
        (expectedPseudoJets particles) ∧
    get_jets m eng particles = jetsFrom m eng particles (expectedPseudoJets particles) ∧
    (∀ pj ∈ expectedPseudoJets particles,
      0 ≤ pj.user_index ∧ pj.user_index < (particles.length : Int) ∧
      ∃ p, particles[pj.user_index.toNat]? = some p ∧ p.get_e.isZero = false ∧
        pj = ⟨p.get_px, p.get_py, p.get_pz, p.get_e, pj.user_index⟩ ∧
        particleAt particles pj.user_index = Except.ok p) ∧
    (∀ fastjets : List (ClusteredJet α),
      (∀ fj ∈ fastjets, ∀ c ∈ fj.constituents, c.is_pure_ghost = false →
        ∃ pj ∈ expectedPseudoJets particles, c.user_index = pj.user_index) →
      ∃ calls, fillJetContainer m eng fastjets particles = Except.ok calls) ∧
    (∀ fastjets : List (ClusteredJet α),
      (∀ fj ∈ fastjets, ∀ c ∈ fj.constituents,
        ∃ pj ∈ expectedPseudoJets particles, c.user_index = pj.user_index) →
      ∃ jets, outLoop m eng particles 0 fastjets = Except.ok jets) := by
  have htrans : toPseudoJets particles = Except.ok (expectedPseudoJets particles) := by
    unfold toPseudoJets expectedPseudoJets
    rw [translateLoop_finite particles hfin 0 [], List.nil_append]
    rfl
  refine ⟨htrans, ?_, ?_, ?_, ?_, ?_⟩
  · unfold cluster_and_fill
    simp only [htrans]
  · unfold get_jets
    simp only [htrans]
  · intro pj hpj
    obtain ⟨h0, hlt, p, hget, hnz, heq⟩ := mem_expectedPseudoJets particles pj hpj
    refine ⟨h0, hlt, p, hget, hnz, heq, ?_⟩
    unfold particleAt
    rw [if_pos h0, hget]
  · intro fastjets h
    exact fillLoop_ok m eng particles fastjets h 0
  · intro fastjets h
    exact outLoop_ok m eng particles fastjets h 0

end JetClaims

section JetExamples

theorem pseudojets_index_particles_witness :
    (∀ p ∈ exampleParticles, p.finite = true) ∧
    expectedPseudoJets exampleParticles =
      [⟨Real64.finite 1, Real64.finite 0, Real64.finite 0, Real64.finite 2, 0⟩,
       ⟨Real64.finite 0, Real64.finite 1, Real64.finite 0, Real64.finite 3, 2⟩] ∧
    toPseudoJets exampleParticles = Except.ok (expectedPseudoJets exampleParticles) ∧
    get_jets exampleAlgo exampleEngine exampleParticles =
      jetsFrom exampleAlgo exampleEngine exampleParticles
        (expectedPseudoJets exampleParticles) ∧
    (match get_jets exampleAlgo exampleEngine exampleParticles with
      | Except.ok jets => jets.map (fun jet => jet.comps)
      | Except.error _ => []) = [[(1, 7), (1, 9)]] :=
  ⟨by decide!, by decide!,
    (pseudojets_index_particles exampleAlgo exampleEngine exampleParticles (by decide!)).1,
    (pseudojets_index_particles exampleAlgo exampleEngine exampleParticles (by decide!)).2.2.1,
    by decide!⟩

end JetExamples

end FastJetAlgo
